import Mathlib

/-! Recommendation system: event consumers, like/dislike exclusion, read-through cache.

A shallow embedding of the Go services of the repository:

* `internal/recommendation` (service and repository): category scores driven by
  interaction events, the ranking query and the cached read `GetLatestRecommendation`;
* `internal/analytics` (service and repository): per-product and per-user counters;
* `internal/user` (service and repository): `LikeProduct` / `DislikeProduct`,
  `PurchaseProduct`, the cached `GetUser` and `UpdateUser`;
* `internal/product` (service and repository): `CreateProduct`, `UpdateProduct`,
  `DeleteProduct`;
* `internal/sso` (service, repository and login handler): `RegisterUser`, `LoginUser`;
* `internal/*/delivery/http` (handlers of the user, product and recommendation services):
  validation of path and query parameters, status codes;
* `pkg/kafka`: the read loop of `SubscribeToTopicsFallback`.

Conventions of the embedding.

* The relational store is a record of tables, each table a list of rows in insertion
  order. The schema files are not part of the sources, so a table carries exactly the
  columns that the SQL text of the repositories names.
* Every call that leaves the process (a SQL statement, a Redis command, a Kafka publish)
  takes a fault flag from the environment: when the flag is set the call returns its
  error and has no effect, otherwise it has the effect of its statement.
* `json.Unmarshal` of a Kafka message body belongs to the Go library, so a message is
  given by the outcome of that call (`none` when it fails, else the decoded map). The
  codec of cached `[]int64` values is a parameter, because the raw cached string is
  inspected by the code.
* `bcrypt` and the JWT signer are parameters as well; an instant is a number of
  nanoseconds, and every call of `time.Now()` is a reading supplied by the environment.
* Scores are sums of the integral deltas `2.0`, `-1.0`, `5.0`; they are kept as
  integers, which `float64` represents exactly below `2 ^ 53`.
* A handler holds its service as an interface value; its model takes the service method
  as a function. Go `int` arithmetic is integer arithmetic wrapped to 64 bits.
* The user, the product and the category that a property names are fixed in the spec's
  words (`Float64.denotes`, `ProductHasCategory`), not through the decoding and the
  lookup of the code.
* Logging is left out.
-/

namespace RecSys

/-! ## Go values -/

/-- A finite `float64`, given by the dyadic rational `mant * 2 ^ exp` it denotes. -/
structure Float64 where
  mant : Int
  exp : Int
deriving DecidableEq, Repr

/-- The `float64` that denotes the integer `i`. -/
def Float64.ofInt (i : Int) : Float64 := ⟨i, 0⟩

/-- Go conversion `int64(f)`: the fraction is discarded (truncation towards zero).
A value outside the `int64` range has an implementation-dependent result; the amd64
result `-2 ^ 63` is used. -/
def Float64.toInt64 (f : Float64) : Int :=
  let t := if 0 ≤ f.exp then f.mant * 2 ^ f.exp.toNat else Int.tdiv f.mant (2 ^ (-f.exp).toNat)
  if -(2 : Int) ^ 63 ≤ t ∧ t < (2 : Int) ^ 63 then t else -(2 : Int) ^ 63

/-- What `json.Unmarshal` stores in an `interface{}`: `nil`, `bool`, `float64`, `string`,
`[]interface{}` or `map[string]interface{}`. -/
inductive JVal where
  | null
  | bool (b : Bool)
  | number (f : Float64)
  | string (s : String)
  | array (xs : List JVal)
  | object (fields : List (String × JVal))

/-- A decoded `map[string]interface{}`; `msg[k]` is `List.lookup k msg`. -/
abbrev Msg := List (String × JVal)

/-- A `kafka.Message`, by the outcome of `json.Unmarshal(m.Value, &msg)`:
`none` when the body does not decode into a map. -/
structure KafkaMessage where
  Value : Option Msg

/-- A Go `[]int64`: `none` is the nil slice, `some l` a non-nil slice. -/
abbrev Int64Slice := Option (List Int)

/-- The slice built by `append` in a loop over `rows`, starting from a nil slice. -/
def sliceOfRows (rows : List Int) : Int64Slice :=
  if rows.isEmpty then none else some rows

/-- The part of `encoding/json` used on cached recommendation lists. -/
structure JsonCodec where
  marshalInt64s : Int64Slice → String
  unmarshalInt64s : String → Option Int64Slice

/-- The number written by a run of decimal digits, continuing the value `acc`. -/
def parseDigits : List Char → Nat → Option Nat
  | [], acc => some acc
  | c :: cs, acc => if c.isDigit then parseDigits cs (acc * 10 + (c.toNat - 48)) else none

/-- A JSON integer literal within the `int64` range. -/
def parseInt64 (cs : List Char) : Option Int :=
  let signed : Option Int :=
    match cs with
    | [] => none
    | '-' :: ds => if ds.isEmpty then none else (parseDigits ds 0).map (fun n => -(n : Int))
    | ds => (parseDigits ds 0).map (fun n => (n : Int))
  signed.bind (fun i => if -(2 : Int) ^ 63 ≤ i ∧ i < (2 : Int) ^ 63 then some i else none)

/-- The pieces of a character list between commas. -/
def splitOnComma : List Char → List (List Char)
  | [] => [[]]
  | c :: cs =>
    match splitOnComma cs with
    | [] => [[c]]
    | piece :: pieces => if c = ',' then [] :: piece :: pieces else (c :: piece) :: pieces

/-- All pieces read as integers, or nothing when one of them is not an integer. -/
def parseAll : List (List Char) → Option (List Int)
  | [] => some []
  | p :: ps =>
    match parseInt64 p, parseAll ps with
    | some i, some is => some (i :: is)
    | _, _ => none

/-- Decoding of the compact JSON text of a `[]int64` (`null` or `[i1,...,in]`). -/
def refUnmarshalInt64s (s : String) : Option Int64Slice :=
  if s = "null" then some none
  else
    match s.data with
    | '[' :: rest =>
      match rest.reverse with
      | ']' :: body =>
        if body.isEmpty then some (some [])
        else (parseAll (splitOnComma body.reverse)).map some
      | _ => none
    | _ => none

/-- The compact JSON text of a `[]int64`: `null` for the nil slice. -/
def refMarshalInt64s : Int64Slice → String
  | none => "null"
  | some ids => "[" ++ ",".intercalate (ids.map toString) ++ "]"

/-- A concrete codec for cached lists, used to run the services on concrete data. -/
def refJson : JsonCodec := ⟨refMarshalInt64s, refUnmarshalInt64s⟩

/-- The duration `time.Hour`, in nanoseconds. -/
def timeHour : Int := 3600 * 1000000000

/-! ## Redis client (`pkg/redis`) -/

/-- A stored Redis value with the expiration given to `Set`. -/
structure CacheEntry where
  value : String
  ttl : Int
deriving DecidableEq, Repr

/-- The Redis keyspace. -/
abbrev Cache := List (String × CacheEntry)

/-- Errors of the Redis client. -/
inductive RedisErr where
  | unavailable
deriving DecidableEq, Repr

/-- `RedisClient.Get`: a missing key (`redis.Nil`) is the empty string without error. -/
def RedisGet (c : Cache) (fault : Bool) (key : String) : String × Option RedisErr :=
  if fault then ("", some .unavailable)
  else
    match c.lookup key with
    | none => ("", none)
    | some e => (e.value, none)

/-- `RedisClient.Set`. -/
def RedisSet (c : Cache) (fault : Bool) (key value : String) (expiration : Int) :
    Option RedisErr × Cache :=
  if fault then (some .unavailable, c)
  else (none, (key, ⟨value, expiration⟩) :: c.filter (fun kv => kv.1 != key))

/-- `RedisClient.Delete`. -/
def RedisDelete (c : Cache) (fault : Bool) (key : String) : Option RedisErr × Cache :=
  if fault then (some .unavailable, c)
  else (none, c.filter (fun kv => kv.1 != key))

namespace Recommendation

/-! ## Recommendation repository (`internal/recommendation/repository`) -/

/-- A row of `products`, with the columns the recommendation queries read. -/
structure Product where
  ID : Int
  Category : String
  UpdatedAt : Int
deriving DecidableEq, Repr

/-- A row of `user_category_preferences`. -/
structure CategoryPreference where
  UserID : Int
  Category : String
  Score : Int
deriving DecidableEq, Repr

/-- A row of `recommendations`. -/
structure RecommendationRow where
  ID : Int
  UserID : Int
  ProductIDs : List Int
  CreatedAt : Int
deriving DecidableEq, Repr

/-- The tables the recommendation repository works on. -/
structure DB where
  products : List Product
  prefs : List CategoryPreference
  recommendations : List RecommendationRow
deriving DecidableEq, Repr

/-- Errors produced by the recommendation repository and service. -/
inductive Err where
  | unmarshalMessage
  | eventMissing
  | parseUserOrProductID
  | getProductCategory
  | updateCategoryScore
  | getUserCategories
  | scanCategories
  | rowsError
  | getTopProducts
  | scanProductID
  | rows2Error
  | createRecommendation
  | marshalMessage
  | publish
deriving DecidableEq, Repr

/-- Where a `Query` loop can fail: at `Query`, at a `Scan`, or at `rows.Err()`. -/
inductive QueryFault where
  | query
  | scan
  | rows
deriving DecidableEq, Repr

/-- The faults of the environment during one service call. -/
structure Faults where
  getProductCategory : Bool
  updateScore : Bool
  catQuery : Option QueryFault
  prodQuery : Option QueryFault
  cacheGet : Bool
  cacheSet : Bool
deriving DecidableEq, Repr

/-- The environment in which every call succeeds. -/
def noFaults : Faults := ⟨false, false, none, none, false, false⟩

/-- `GetProductCategory`: `QueryRow(...).Scan(&cat)` fails when no row matches. -/
def GetProductCategory (db : DB) (fault : Bool) (productID : Int) : Except Err String :=
  if fault then .error .getProductCategory
  else
    match db.products.find? (fun p => p.ID == productID) with
    | some p => .ok p.Category
    | none => .error .getProductCategory

/-- Whether a preference row has the key `(userID, category)`. -/
def prefKey (userID : Int) (category : String) (r : CategoryPreference) : Bool :=
  r.UserID == userID && r.Category == category

/-- The statement of `UpdateUserCategoryScore`:
`INSERT ... VALUES ($1, $2, $3) ON CONFLICT (user_id, category)
DO UPDATE SET score = user_category_preferences.score + EXCLUDED.score`. -/
def upsertScore (prefs : List CategoryPreference) (userID : Int) (category : String)
    (delta : Int) : List CategoryPreference :=
  if prefs.any (prefKey userID category) then
    prefs.map (fun r => if prefKey userID category r then { r with Score := r.Score + delta } else r)
  else prefs ++ [⟨userID, category, delta⟩]

/-- `UpdateUserCategoryScore`. -/
def UpdateUserCategoryScore (db : DB) (fault : Bool) (userID : Int) (category : String)
    (delta : Int) : Option Err × DB :=
  if fault then (some .updateCategoryScore, db)
  else (none, { db with prefs := upsertScore db.prefs userID category delta })

/-- The outcome of a row loop over `rows` under a fault: the error it returns, if any.
A `Scan` can only fail when there is a row to scan. -/
def queryError (fault : Option QueryFault) (nrows : Nat) (eq es er : Err) : Option Err :=
  match fault with
  | none => none
  | some .query => some eq
  | some .scan => if nrows = 0 then none else some es
  | some .rows => some er

/-- The first query of `GetTopProductsByUserPreference`:
`SELECT category, score FROM user_category_preferences WHERE user_id = $1
ORDER BY score DESC LIMIT 10`. Rows of equal score keep their table order. -/
def topCategoryRows (db : DB) (userID : Int) : List CategoryPreference :=
  ((db.prefs.filter (fun r => r.UserID == userID)).insertionSort
    (fun a b => b.Score ≤ a.Score)).take 10

/-- The second query of `GetTopProductsByUserPreference`:
`SELECT id FROM products WHERE category = ANY($1) ORDER BY updated_at DESC LIMIT $2`.
Rows of equal `updated_at` keep their table order. -/
def topProductRows (db : DB) (topCategories : List String) (limit : Int) : List Int :=
  (((db.products.filter (fun p => topCategories.contains p.Category)).insertionSort
    (fun a b => b.UpdatedAt ≤ a.UpdatedAt)).take limit.toNat).map (fun p => p.ID)

/-- `GetTopProductsByUserPreference`. A negative `LIMIT` is rejected by the store. -/
def GetTopProductsByUserPreference (db : DB) (f : Faults) (userID : Int) (limit : Int) :
    Except Err Int64Slice :=
  let rows := topCategoryRows db userID
  match queryError f.catQuery rows.length .getUserCategories .scanCategories .rowsError with
  | some e => .error e
  | none =>
    let topCategories := rows.map (fun r => r.Category)
    if topCategories.length = 0 then .ok (some [])
    else
      let rows2 := topProductRows db topCategories limit
      if limit < 0 then .error .getTopProducts
      else
        match queryError f.prodQuery rows2.length .getTopProducts .scanProductID .rows2Error with
        | some e => .error e
        | none => .ok (sliceOfRows rows2)

/-! ## Recommendation service (`internal/recommendation/service`) -/

/-- A repository method invoked by the service (recorded for inspection). -/
inductive RepoCall where
  | GetProductCategory (productID : Int)
  | UpdateUserCategoryScore (userID : Int) (category : String) (delta : Int)
  | GetTopProductsByUserPreference (userID : Int) (limit : Int)
  | CreateRecommendation (userID : Int) (productIDs : List Int)
deriving DecidableEq, Repr

/-- Everything the recommendation service acts on: the store, the Redis keyspace and
the record of repository calls made so far. -/
structure World where
  db : DB
  cache : Cache
  repoCalls : List RepoCall
deriving DecidableEq, Repr

/-- `extractUserAndProductID`. -/
def extractUserAndProductID (msg : Msg) : Except Err (Int × Int) :=
  match msg.lookup "user_id", msg.lookup "product_id" with
  | some (.number userIDFloat), some (.number productIDFloat) =>
    .ok (userIDFloat.toInt64, productIDFloat.toInt64)
  | _, _ => .error .parseUserOrProductID

/-- One of the three interaction arms of the `switch` in `ProcessKafkaMessage`; the arms
differ only in `delta`. Every path returns `nil`. -/
def scoreEvent (f : Faults) (w : World) (msg : Msg) (delta : Int) : Option Err × World :=
  match extractUserAndProductID msg with
  | .error _ => (none, w)
  | .ok (userID, productID) =>
    let w1 : World :=
      { w with repoCalls := w.repoCalls ++ [RepoCall.GetProductCategory productID] }
    match GetProductCategory w1.db f.getProductCategory productID with
    | .error _ => (none, w1)
    | .ok category =>
      let w2 : World := { w1 with
        repoCalls := w1.repoCalls ++ [RepoCall.UpdateUserCategoryScore userID category delta] }
      (none, { w2 with db := (UpdateUserCategoryScore w2.db f.updateScore userID category delta).2 })

/-- `recommendationService.ProcessKafkaMessage`. -/
def ProcessKafkaMessage (f : Faults) (w : World) (m : KafkaMessage) : Option Err × World :=
  match m.Value with
  | none => (some .unmarshalMessage, w)
  | some msg =>
    match msg.lookup "event" with
    | some (.string event) =>
      if event = "user_liked" then scoreEvent f w msg 2
      else if event = "user_disliked" then scoreEvent f w msg (-1)
      else if event = "user_purchased" then scoreEvent f w msg 5
      else if event = "product_created" ∨ event = "product_updated" then (none, w)
      else (none, w)
    | _ => (some .eventMissing, w)

/-- The key `fmt.Sprintf("recommendations:user:%d", userID)`. -/
def cacheKey (userID : Int) : String := "recommendations:user:" ++ toString userID

/-- `recommendationService.GetLatestRecommendation`. -/
def GetLatestRecommendation (json : JsonCodec) (f : Faults) (w : World) (userID : Int) :
    Except Err Int64Slice × World :=
  let cachedData := RedisGet w.cache f.cacheGet (cacheKey userID)
  let hit : Option Int64Slice :=
    if cachedData.2 = none ∧ cachedData.1 ≠ "" then json.unmarshalInt64s cachedData.1 else none
  match hit with
  | some recommendations => (.ok recommendations, w)
  | none =>
    let w1 : World :=
      { w with repoCalls := w.repoCalls ++ [RepoCall.GetTopProductsByUserPreference userID 5] }
    match GetTopProductsByUserPreference w1.db f userID 5 with
    | .error e => (.error e, w1)
    | .ok recommendedPIDs =>
      let dataToCache := json.marshalInt64s recommendedPIDs
      (.ok recommendedPIDs,
        { w1 with cache := (RedisSet w1.cache f.cacheSet (cacheKey userID) dataToCache timeHour).2 })

/-- The stored score of `(userID, category)`, if the row exists. -/
def findScore (db : DB) (userID : Int) (category : String) : Option Int :=
  (db.prefs.find? (prefKey userID category)).map (fun r => r.Score)

/-- The score of `(userID, category)` read as a number: a missing row counts as zero. -/
def scoreOf (db : DB) (userID : Int) (category : String) : Int :=
  (findScore db userID category).getD 0

/-- The consumer applied to a sequence of messages in order, in the environment in which
every call succeeds; the errors returned are dropped, as the read loop does. -/
def processAll (w : World) (ms : List KafkaMessage) : World :=
  ms.foldl (fun w m => (ProcessKafkaMessage noFaults w m).2) w

/-- The event kind, the user and the product category that a message is about, when it
carries a string `event`, two numeric ids and its product has a category. -/
def interactionOf (db : DB) (m : KafkaMessage) : Option (String × Int × String) :=
  match m.Value with
  | none => none
  | some msg =>
    match msg.lookup "event", extractUserAndProductID msg with
    | some (.string event), .ok (userID, productID) =>
      match GetProductCategory db false productID with
      | .ok category => some (event, userID, category)
      | .error _ => none
    | _, _ => none

/-- The number of messages of kind `event` in `ms` for user `userID` on products of
category `category`. -/
def countEvents (db : DB) (ms : List KafkaMessage) (event : String) (userID : Int)
    (category : String) : Nat :=
  (ms.filter (fun m => interactionOf db m == some (event, userID, category))).length

/-- The delta that the `switch` of `ProcessKafkaMessage` applies for an event kind
(zero for the kinds that change no score). -/
def eventDelta (event : String) : Int :=
  if event = "user_liked" then 2
  else if event = "user_disliked" then -1
  else if event = "user_purchased" then 5
  else 0

/-- What a message adds to the score of `(userID, category)`. -/
def scoreContribution (db : DB) (m : KafkaMessage) (userID : Int) (category : String) : Int :=
  match interactionOf db m with
  | some (event, u, c) => if u = userID ∧ c = category then eventDelta event else 0
  | none => 0

/-- The event kinds named by the `case` labels of the `switch` in `ProcessKafkaMessage`. -/
def handledKinds : List String :=
  ["user_liked", "user_disliked", "user_purchased", "product_created", "product_updated"]

/-- A store with two products of category `books`, a score for user 1, and a cache that
holds an older list under the key of user 1. -/
def staleWorld : World :=
  ⟨⟨[⟨42, "books", 0⟩, ⟨43, "books", 5⟩], [⟨1, "books", 7⟩], []⟩,
    [("recommendations:user:1", ⟨"[99]", timeHour⟩)], []⟩

/-- The ranking in the spec's words: the user's preference rows are ordered by descending
score and the categories of the first 10 are selected; the products in any of those
categories are ordered by most recently updated; `ids` are the ids of the first `n` of
them. Rows that tie may come in any order. -/
def RankingSpec (db : DB) (userID : Int) (n : Nat) (ids : List Int) : Prop :=
  ∃ (ranked : List CategoryPreference) (recent : List Product),
    ranked.Perm (db.prefs.filter (fun r => r.UserID == userID)) ∧
    ranked.Sorted (fun a b => b.Score ≤ a.Score) ∧
    recent.Perm (db.products.filter
      (fun p => ((ranked.take 10).map (fun r => r.Category)).contains p.Category)) ∧
    recent.Sorted (fun a b => b.UpdatedAt ≤ a.UpdatedAt) ∧
    ids = (recent.take n).map (fun p => p.ID)

/-- A store with a `books` and a newer `music` product, in which user 1 has a score
for `books` only; the cache is empty. -/
def musicWorld : World :=
  ⟨⟨[⟨42, "books", 0⟩, ⟨50, "music", 9⟩], [⟨1, "books", 2⟩], []⟩, [], []⟩

/-- The decoded body of an interaction message with integral ids. -/
def interactionMsg (event : String) (userID productID : Int) : KafkaMessage :=
  ⟨some [("event", .string event), ("user_id", .number (.ofInt userID)),
    ("product_id", .number (.ofInt productID))]⟩

/-- A store with the single product 42 of category `books`, no scores, an empty cache. -/
def booksWorld : World :=
  ⟨⟨[⟨42, "books", 0⟩], [], []⟩, [], []⟩

end Recommendation

namespace Analytics

/-! ## Analytics repository (`internal/analytics/repository`) -/

/-- A row of `product_analytics`. -/
structure ProductAnalytics where
  ID : Int
  ProductID : Int
  Likes : Int
  Dislikes : Int
  Purchases : Int
  UpdatedAt : Int
deriving DecidableEq, Repr

/-- A row of `user_analytics`. -/
structure UserAnalytics where
  ID : Int
  UserID : Int
  TotalLikes : Int
  TotalDislikes : Int
  TotalPurchases : Int
  UpdatedAt : Int
deriving DecidableEq, Repr

/-- The tables of the analytics repository. -/
structure DB where
  products : List ProductAnalytics
  users : List UserAnalytics
deriving DecidableEq, Repr

/-- Errors produced by the analytics repository and service. -/
inductive Err where
  | unmarshalMessage
  | eventMissing
  | parseUserOrProductID
  | incrementProductLikes
  | incrementProductDislikes
  | incrementProductPurchases
  | incrementUserLikes
  | incrementUserDislikes
  | incrementUserPurchases
deriving DecidableEq, Repr

/-- The environment of one service call: the faults of the two statements it issues,
the clock (`NOW()`) and the ids the store gives to inserted rows. -/
structure Env where
  incrementProduct : Bool
  incrementUser : Bool
  now : Int
  newProductRowID : Int
  newUserRowID : Int
deriving DecidableEq, Repr

/-- Modelled from the spec: the column default of the counters that an
`INSERT INTO product_analytics (product_id, likes)` does not name (the schema of the
analytics tables is not among the sources); counters start at their zero default. -/
def counterDefault : Int := 0

/-- The three counters of a row. -/
inductive Counter where
  | likes
  | dislikes
  | purchases
deriving DecidableEq, Repr

/-- The `DO UPDATE SET <counter> = <counter> + 1, updated_at = NOW()` of a product row. -/
def ProductAnalytics.bump (k : Counter) (now : Int) (r : ProductAnalytics) : ProductAnalytics :=
  match k with
  | .likes => { r with Likes := r.Likes + 1, UpdatedAt := now }
  | .dislikes => { r with Dislikes := r.Dislikes + 1, UpdatedAt := now }
  | .purchases => { r with Purchases := r.Purchases + 1, UpdatedAt := now }

/-- The row inserted by `INSERT INTO product_analytics (product_id, <counter>) VALUES ($1, 1)`. -/
def ProductAnalytics.fresh (k : Counter) (id productID now : Int) : ProductAnalytics :=
  match k with
  | .likes => ⟨id, productID, 1, counterDefault, counterDefault, now⟩
  | .dislikes => ⟨id, productID, counterDefault, 1, counterDefault, now⟩
  | .purchases => ⟨id, productID, counterDefault, counterDefault, 1, now⟩

/-- The upsert statement on `product_analytics` with `ON CONFLICT (product_id)`. -/
def upsertProduct (k : Counter) (rows : List ProductAnalytics) (productID id now : Int) :
    List ProductAnalytics :=
  if rows.any (fun r => r.ProductID == productID) then
    rows.map (fun r => if r.ProductID == productID then r.bump k now else r)
  else rows ++ [ProductAnalytics.fresh k id productID now]

/-- The `DO UPDATE SET <counter> = <counter> + 1, updated_at = NOW()` of a user row. -/
def UserAnalytics.bump (k : Counter) (now : Int) (r : UserAnalytics) : UserAnalytics :=
  match k with
  | .likes => { r with TotalLikes := r.TotalLikes + 1, UpdatedAt := now }
  | .dislikes => { r with TotalDislikes := r.TotalDislikes + 1, UpdatedAt := now }
  | .purchases => { r with TotalPurchases := r.TotalPurchases + 1, UpdatedAt := now }

/-- The row inserted by `INSERT INTO user_analytics (user_id, <counter>) VALUES ($1, 1)`. -/
def UserAnalytics.fresh (k : Counter) (id userID now : Int) : UserAnalytics :=
  match k with
  | .likes => ⟨id, userID, 1, counterDefault, counterDefault, now⟩
  | .dislikes => ⟨id, userID, counterDefault, 1, counterDefault, now⟩
  | .purchases => ⟨id, userID, counterDefault, counterDefault, 1, now⟩

/-- The upsert statement on `user_analytics` with `ON CONFLICT (user_id)`. -/
def upsertUser (k : Counter) (rows : List UserAnalytics) (userID id now : Int) :
    List UserAnalytics :=
  if rows.any (fun r => r.UserID == userID) then
    rows.map (fun r => if r.UserID == userID then r.bump k now else r)
  else rows ++ [UserAnalytics.fresh k id userID now]

/-- `IncrementProductLikes`. -/
def IncrementProductLikes (db : DB) (e : Env) (productID : Int) : Option Err × DB :=
  if e.incrementProduct then (some .incrementProductLikes, db)
  else (none, { db with
    products := upsertProduct .likes db.products productID e.newProductRowID e.now })

/-- `IncrementProductDislikes`. -/
def IncrementProductDislikes (db : DB) (e : Env) (productID : Int) : Option Err × DB :=
  if e.incrementProduct then (some .incrementProductDislikes, db)
  else (none, { db with
    products := upsertProduct .dislikes db.products productID e.newProductRowID e.now })

/-- `IncrementProductPurchases`. -/
def IncrementProductPurchases (db : DB) (e : Env) (productID : Int) : Option Err × DB :=
  if e.incrementProduct then (some .incrementProductPurchases, db)
  else (none, { db with
    products := upsertProduct .purchases db.products productID e.newProductRowID e.now })

/-- `IncrementUserLikes`. -/
def IncrementUserLikes (db : DB) (e : Env) (userID : Int) : Option Err × DB :=
  if e.incrementUser then (some .incrementUserLikes, db)
  else (none, { db with users := upsertUser .likes db.users userID e.newUserRowID e.now })

/-- `IncrementUserDislikes`. -/
def IncrementUserDislikes (db : DB) (e : Env) (userID : Int) : Option Err × DB :=
  if e.incrementUser then (some .incrementUserDislikes, db)
  else (none, { db with users := upsertUser .dislikes db.users userID e.newUserRowID e.now })

/-- `IncrementUserPurchases`. -/
def IncrementUserPurchases (db : DB) (e : Env) (userID : Int) : Option Err × DB :=
  if e.incrementUser then (some .incrementUserPurchases, db)
  else (none, { db with users := upsertUser .purchases db.users userID e.newUserRowID e.now })

/-! ## Analytics service (`internal/analytics/service`) -/

/-- `parseUserAndProductID`. -/
def parseUserAndProductID (msg : Msg) : Except Err (Int × Int) :=
  match msg.lookup "user_id", msg.lookup "product_id" with
  | some (.number u), some (.number p) => .ok (u.toInt64, p.toInt64)
  | _, _ => .error .parseUserOrProductID

/-- `analyticsService.ProcessKafkaMessage`. An error of an increment is logged and the
next statement still runs. -/
def ProcessKafkaMessage (e : Env) (db : DB) (m : KafkaMessage) : Option Err × DB :=
  match m.Value with
  | none => (some .unmarshalMessage, db)
  | some msg =>
    match msg.lookup "event" with
    | some (.string event) =>
      if event = "user_liked" then
        match parseUserAndProductID msg with
        | .error _ => (none, db)
        | .ok (userID, productID) =>
          let db1 := (IncrementProductLikes db e productID).2
          (none, (IncrementUserLikes db1 e userID).2)
      else if event = "user_disliked" then
        match parseUserAndProductID msg with
        | .error _ => (none, db)
        | .ok (userID, productID) =>
          let db1 := (IncrementProductDislikes db e productID).2
          (none, (IncrementUserDislikes db1 e userID).2)
      else if event = "user_purchased" then
        match parseUserAndProductID msg with
        | .error _ => (none, db)
        | .ok (userID, productID) =>
          let db1 := (IncrementProductPurchases db e productID).2
          (none, (IncrementUserPurchases db1 e userID).2)
      else if event = "product_created" ∨ event = "product_updated" then (none, db)
      else if event = "user_created" ∨ event = "user_updated" then (none, db)
      else (none, db)
    | _ => (some .eventMissing, db)

/-- The event kinds named by the `case` labels of the `switch` in `ProcessKafkaMessage`. -/
def handledKinds : List String :=
  ["user_liked", "user_disliked", "user_purchased", "product_created", "product_updated",
    "user_created", "user_updated"]

/-- The value of one counter of a product row. -/
def ProductAnalytics.counter (k : Counter) (r : ProductAnalytics) : Int :=
  match k with
  | .likes => r.Likes
  | .dislikes => r.Dislikes
  | .purchases => r.Purchases

/-- The value of one counter of a user row. -/
def UserAnalytics.counter (k : Counter) (r : UserAnalytics) : Int :=
  match k with
  | .likes => r.TotalLikes
  | .dislikes => r.TotalDislikes
  | .purchases => r.TotalPurchases

/-- The row of a product, if it exists. -/
def findProduct (db : DB) (productID : Int) : Option ProductAnalytics :=
  db.products.find? (fun r => r.ProductID == productID)

/-- The row of a user, if it exists. -/
def findUser (db : DB) (userID : Int) : Option UserAnalytics :=
  db.users.find? (fun r => r.UserID == userID)

/-- A counter of a product read as a number: a missing row counts as zero. -/
def productCounter (db : DB) (productID : Int) (k : Counter) : Int :=
  ((findProduct db productID).map (fun r => r.counter k)).getD 0

/-- A counter of a user read as a number: a missing row counts as zero. -/
def userCounter (db : DB) (userID : Int) (k : Counter) : Int :=
  ((findUser db userID).map (fun r => r.counter k)).getD 0

/-- One upsert-increment of the repository: the counter and the key it is applied to. -/
inductive Op where
  | product (k : Counter) (productID : Int)
  | user (k : Counter) (userID : Int)
deriving DecidableEq, Repr

/-- The repository method that an upsert-increment stands for, run as one store step. -/
def applyOp (e : Env) (db : DB) : Op → DB
  | .product .likes productID => (IncrementProductLikes db e productID).2
  | .product .dislikes productID => (IncrementProductDislikes db e productID).2
  | .product .purchases productID => (IncrementProductPurchases db e productID).2
  | .user .likes userID => (IncrementUserLikes db e userID).2
  | .user .dislikes userID => (IncrementUserDislikes db e userID).2
  | .user .purchases userID => (IncrementUserPurchases db e userID).2

/-- A schedule of upsert-increments run one after the other, each in its environment:
an interleaving of concurrent callers whose statements the store executes atomically. -/
def applyAll (db : DB) (steps : List (Env × Op)) : DB :=
  steps.foldl (fun db s => applyOp s.1 db s.2) db

/-- The environment in which both statements are executed. -/
def Env.ok (now newProductRowID newUserRowID : Int) : Env :=
  ⟨false, false, now, newProductRowID, newUserRowID⟩

end Analytics

namespace User

/-! ## User repository (`internal/user/repository`) -/

/-- A row of `likes` (`models.Like`). -/
structure Like where
  ID : Int
  UserID : Int
  ProductID : Int
  LikedAt : Int
deriving DecidableEq, Repr

/-- A row of `dislikes` (`models.Dislike`). -/
structure Dislike where
  ID : Int
  UserID : Int
  ProductID : Int
  DislikedAt : Int
deriving DecidableEq, Repr

/-- A row of `purchases` (`models.Purchase`). -/
structure Purchase where
  ID : Int
  UserID : Int
  ProductID : Int
  PurchasedAt : Int
deriving DecidableEq, Repr

/-- A row of `users` (`models.User`). -/
structure UserRow where
  ID : Int
  Name : String
  Email : String
  CreatedAt : Int
  UpdatedAt : Int
deriving DecidableEq, Repr

/-- The tables of the user repository. -/
structure DB where
  users : List UserRow
  purchases : List Purchase
  likes : List Like
  dislikes : List Dislike
deriving DecidableEq, Repr

/-- Errors returned by the user service. -/
inductive Err where
  | removeExistingDislike
  | likeAlreadyExists (userID productID : Int)
  | createLike
  | removeExistingLike
  | dislikeAlreadyExists (userID productID : Int)
  | createDislike
  | createPurchase
  | marshalMessage
  | publish
  | updateUser
  | getUser
deriving DecidableEq, Repr

/-- The environment of one service call: the fault of each statement, of the publish and
of each Redis command, the clock (`NOW()`) and the id the store gives to the inserted
row. -/
structure Env where
  removeDislike : Bool
  likeExists : Bool
  createLike : Bool
  removeLike : Bool
  dislikeExists : Bool
  createDislike : Bool
  marshal : Bool
  publish : Bool
  newID : Int
  now : Int
  createPurchase : Bool
  updateUser : Bool
  getUserByID : Bool
  cacheGet : Bool
  cacheSet : Bool
  cacheDelete : Bool
deriving DecidableEq, Repr

/-- The environment in which every call succeeds. -/
def Env.ok (newID now : Int) : Env :=
  ⟨false, false, false, false, false, false, false, false, newID, now,
    false, false, false, false, false, false⟩

/-- `RemoveLikeByUserAndProduct`: `DELETE FROM likes WHERE user_id = $1 AND product_id = $2`. -/
def RemoveLikeByUserAndProduct (db : DB) (fault : Bool) (userID productID : Int) :
    Option Err × DB :=
  if fault then (some .removeExistingLike, db)
  else (none, { db with
    likes := db.likes.filter (fun l => !(l.UserID == userID && l.ProductID == productID)) })

/-- `RemoveDislikeByUserAndProduct`:
`DELETE FROM dislikes WHERE user_id = $1 AND product_id = $2`. -/
def RemoveDislikeByUserAndProduct (db : DB) (fault : Bool) (userID productID : Int) :
    Option Err × DB :=
  if fault then (some .removeExistingDislike, db)
  else (none, { db with
    dislikes := db.dislikes.filter (fun d => !(d.UserID == userID && d.ProductID == productID)) })

/-- `LikeExists`: any error of the query, a failing store included, is answered
`false, nil`. -/
def LikeExists (db : DB) (fault : Bool) (userID productID : Int) : Bool × Option Err :=
  if fault then (false, none)
  else (db.likes.any (fun l => l.UserID == userID && l.ProductID == productID), none)

/-- `DislikeExists`: any error of the query, a failing store included, is answered
`false, nil`. -/
def DislikeExists (db : DB) (fault : Bool) (userID productID : Int) : Bool × Option Err :=
  if fault then (false, none)
  else (db.dislikes.any (fun d => d.UserID == userID && d.ProductID == productID), none)

/-- `CreateLike`: the insert returns the generated `id` and `liked_at` into the record. -/
def CreateLike (db : DB) (fault : Bool) (newID now : Int) (like : Like) :
    Option Err × Like × DB :=
  if fault then (some .createLike, like, db)
  else
    let row : Like := { like with ID := newID, LikedAt := now }
    (none, row, { db with likes := db.likes ++ [row] })

/-- `CreateDislike`: the insert returns the generated `id` and `disliked_at` into the
record. -/
def CreateDislike (db : DB) (fault : Bool) (newID now : Int) (dislike : Dislike) :
    Option Err × Dislike × DB :=
  if fault then (some .createDislike, dislike, db)
  else
    let row : Dislike := { dislike with ID := newID, DislikedAt := now }
    (none, row, { db with dislikes := db.dislikes ++ [row] })

/-! ## User service (`internal/user/service`) -/

/-- A value of the `map[string]interface{}` that the service publishes. -/
inductive PVal where
  | str (s : String)
  | int64 (i : Int)
  | like (l : Like)
  | dislike (d : Dislike)
  | purchase (p : Purchase)
  | user (u : UserRow)
deriving DecidableEq, Repr

/-- A message handed to the Kafka writer: the topic and the map that was marshalled. -/
structure Published where
  topic : String
  message : List (String × PVal)
deriving DecidableEq, Repr

/-- Everything the user service acts on: the store, the Redis keyspace, the messages
written to Kafka, and the store states reached after each executed write statement. -/
structure World where
  db : DB
  cache : Cache
  outbox : List Published
  history : List DB
deriving DecidableEq, Repr

/-- The world after a write statement has produced the store `db`. -/
def World.commit (w : World) (db : DB) : World :=
  { w with db := db, history := w.history ++ [db] }

/-- `userService.publishMessage` on the topic `user_updates`. -/
def publishMessage (e : Env) (w : World) (message : List (String × PVal)) : Option Err × World :=
  if e.marshal then (some .marshalMessage, w)
  else if e.publish then (some .publish, w)
  else (none, { w with outbox := w.outbox ++ [⟨"user_updates", message⟩] })

/-- `userService.LikeProduct`. -/
def LikeProduct (e : Env) (w : World) (userID productID : Int) : Option Err × World :=
  match RemoveDislikeByUserAndProduct w.db e.removeDislike userID productID with
  | (some _, _) => (some .removeExistingDislike, w)
  | (none, db1) =>
    let w1 := w.commit db1
    match LikeExists w1.db e.likeExists userID productID with
    | (_, some err) => (some err, w1)
    | (true, none) => (some (.likeAlreadyExists userID productID), w1)
    | (false, none) =>
      match CreateLike w1.db e.createLike e.newID e.now ⟨0, userID, productID, 0⟩ with
      | (some err, _, _) => (some err, w1)
      | (none, like, db2) =>
        publishMessage e (w1.commit db2)
          [("event", .str "user_liked"), ("user_id", .int64 userID),
           ("product_id", .int64 productID), ("like", .like like)]

/-- `userService.DislikeProduct`. -/
def DislikeProduct (e : Env) (w : World) (userID productID : Int) : Option Err × World :=
  match RemoveLikeByUserAndProduct w.db e.removeLike userID productID with
  | (some _, _) => (some .removeExistingLike, w)
  | (none, db1) =>
    let w1 := w.commit db1
    match DislikeExists w1.db e.dislikeExists userID productID with
    | (_, some err) => (some err, w1)
    | (true, none) => (some (.dislikeAlreadyExists userID productID), w1)
    | (false, none) =>
      match CreateDislike w1.db e.createDislike e.newID e.now ⟨0, userID, productID, 0⟩ with
      | (some err, _, _) => (some err, w1)
      | (none, dislike, db2) =>
        publishMessage e (w1.commit db2)
          [("event", .str "user_disliked"), ("user_id", .int64 userID),
           ("product_id", .int64 productID), ("dislike", .dislike dislike)]

/-- Whether the store holds a like of `userID` for `productID`. -/
def hasLike (db : DB) (userID productID : Int) : Bool :=
  db.likes.any (fun l => l.UserID == userID && l.ProductID == productID)

/-- Whether the store holds a dislike of `userID` for `productID`. -/
def hasDislike (db : DB) (userID productID : Int) : Bool :=
  db.dislikes.any (fun d => d.UserID == userID && d.ProductID == productID)

/-- No (user, product) pair has both a like and a dislike. -/
def Exclusive (db : DB) : Prop :=
  ∀ userID productID, ¬ (hasLike db userID productID = true ∧ hasDislike db userID productID = true)

/-- A store in which user 1 has a dislike, and no like, for product 42. -/
def dislikedWorld : World :=
  ⟨⟨[], [], [], [⟨7, 1, 42, 100⟩]⟩, [], [], []⟩

/-- An environment in which only the insert into `likes` fails. -/
def envCreateLikeFails : Env :=
  { Env.ok 8 200 with createLike := true }

/-- `CreatePurchase`: the insert returns the generated `id` and `purchased_at` into the
record. -/
def CreatePurchase (db : DB) (fault : Bool) (newID now : Int) (purchase : Purchase) :
    Option Err × Purchase × DB :=
  if fault then (some .createPurchase, purchase, db)
  else
    let row : Purchase := { purchase with ID := newID, PurchasedAt := now }
    (none, row, { db with purchases := db.purchases ++ [row] })

/-- `GetUserByID`: `QueryRow(...).Scan(...)` fails when no row matches. -/
def GetUserByID (db : DB) (fault : Bool) (id : Int) : Except Err UserRow :=
  if fault then .error .getUser
  else
    match db.users.find? (fun u => u.ID == id) with
    | some u => .ok u
    | none => .error .getUser

/-- The repository method `UpdateUser`:
`UPDATE users SET name = $1, email = $2, updated_at = NOW() WHERE id = $3
RETURNING updated_at`; the `Scan` fails when no row has the id. -/
def Repository.UpdateUser (db : DB) (fault : Bool) (now : Int) (user : UserRow) :
    Option Err × UserRow × DB :=
  if fault then (some .updateUser, user, db)
  else if db.users.any (fun u => u.ID == user.ID) then
    (none, { user with UpdatedAt := now },
      { db with users := db.users.map (fun u =>
          if u.ID == user.ID then
            { u with Name := user.Name, Email := user.Email, UpdatedAt := now }
          else u) })
  else (some .updateUser, user, db)

/-- The part of `encoding/json` used on cached user records. -/
structure UserCodec where
  marshalUser : UserRow → String
  unmarshalUser : String → Option UserRow

/-- The key `fmt.Sprintf("user:%d", id)`. -/
def userCacheKey (id : Int) : String := "user:" ++ toString id

/-- `userService.GetUser`. -/
def GetUser (json : UserCodec) (e : Env) (w : World) (id : Int) : Except Err UserRow × World :=
  let cachedData := RedisGet w.cache e.cacheGet (userCacheKey id)
  let hit : Option UserRow :=
    if cachedData.2 = none ∧ cachedData.1 ≠ "" then json.unmarshalUser cachedData.1 else none
  match hit with
  | some user => (.ok user, w)
  | none =>
    match GetUserByID w.db e.getUserByID id with
    | .error err => (.error err, w)
    | .ok user =>
      let dataToCache := json.marshalUser user
      (.ok user,
        { w with cache := (RedisSet w.cache e.cacheSet (userCacheKey id) dataToCache timeHour).2 })

/-- `userService.UpdateUser`: the result of the Redis `Delete` is not inspected. -/
def UpdateUser (e : Env) (w : World) (user : UserRow) : Option Err × World :=
  match Repository.UpdateUser w.db e.updateUser e.now user with
  | (some err, _, _) => (some err, w)
  | (none, user1, db1) =>
    let w1 := w.commit db1
    let w2 : World :=
      { w1 with cache := (RedisDelete w1.cache e.cacheDelete (userCacheKey user.ID)).2 }
    publishMessage e w2 [("event", .str "user_updated"), ("user", .user user1)]

/-- `userService.PurchaseProduct`. -/
def PurchaseProduct (e : Env) (w : World) (userID productID : Int) : Option Err × World :=
  match CreatePurchase w.db e.createPurchase e.newID e.now ⟨0, userID, productID, 0⟩ with
  | (some err, _, _) => (some err, w)
  | (none, purchase, db1) =>
    publishMessage e (w.commit db1)
      [("event", .str "user_purchased"), ("user_id", .int64 userID),
       ("product_id", .int64 productID), ("purchase", .purchase purchase)]

/-- A store with the user 1, whose record is cached under `user:1`, and no reaction. -/
def cachedUserWorld : World :=
  ⟨⟨[⟨1, "Ann", "ann@example.com", 10, 10⟩], [], [], []⟩,
    [("user:1", ⟨"1|Ann|ann@example.com|10|10", timeHour⟩)], [], []⟩

/-- A codec of user records for concrete runs: the record is written as its fields
separated by `|`, and only texts produced that way for the users of `known` decode. -/
def refUserCodec (known : List UserRow) : UserCodec where
  marshalUser u :=
    toString u.ID ++ "|" ++ u.Name ++ "|" ++ u.Email ++ "|" ++ toString u.CreatedAt ++ "|" ++
      toString u.UpdatedAt
  unmarshalUser s :=
    known.find? (fun u =>
      toString u.ID ++ "|" ++ u.Name ++ "|" ++ u.Email ++ "|" ++ toString u.CreatedAt ++ "|" ++
        toString u.UpdatedAt == s)

end User

namespace Product

/-! ## Product repository and service (`internal/product`) -/

/-- A row of `products` (`models.Product`, without its derived likes, dislikes and
purchase count). -/
structure ProductRow where
  ID : Int
  Name : String
  Description : String
  Price : Float64
  Category : String
  CreatedAt : Int
  UpdatedAt : Int
deriving DecidableEq, Repr

/-- The table the product repository writes. -/
structure DB where
  products : List ProductRow
deriving DecidableEq, Repr

/-- Errors returned by the product service. -/
inductive Err where
  | createProduct
  | updateProduct
  | deleteProduct
  | noProductFound (id : Int)
  | marshalMessage
  | publish
deriving DecidableEq, Repr

/-- The environment of one service call: the fault of the statement, of the marshalling
and of the publish, the clock (`NOW()`) and the id given to an inserted row. -/
structure Env where
  createProduct : Bool
  updateProduct : Bool
  deleteProduct : Bool
  marshal : Bool
  publish : Bool
  newID : Int
  now : Int
deriving DecidableEq, Repr

/-- A value of the `map[string]interface{}` that the service publishes. -/
inductive PVal where
  | str (s : String)
  | int64 (i : Int)
  | product (p : ProductRow)
deriving DecidableEq, Repr

/-- A message handed to the Kafka writer. -/
structure Published where
  topic : String
  message : List (String × PVal)
deriving DecidableEq, Repr

/-- The store and the messages written to Kafka. -/
structure World where
  db : DB
  outbox : List Published
deriving DecidableEq, Repr

/-- The repository method `CreateProduct`: the insert returns the generated `id`,
`created_at` and `updated_at` into the record. -/
def Repository.CreateProduct (db : DB) (fault : Bool) (newID now : Int) (product : ProductRow) :
    Option Err × ProductRow × DB :=
  if fault then (some .createProduct, product, db)
  else
    let row : ProductRow := { product with ID := newID, CreatedAt := now, UpdatedAt := now }
    (none, row, { db with products := db.products ++ [row] })

/-- The repository method `UpdateProduct`:
`UPDATE products SET name = $1, description = $2, price = $3, category = $4,
updated_at = NOW() WHERE id = $5 RETURNING updated_at`; the `Scan` fails when no row has
the id. -/
def Repository.UpdateProduct (db : DB) (fault : Bool) (now : Int) (product : ProductRow) :
    Option Err × ProductRow × DB :=
  if fault then (some .updateProduct, product, db)
  else if db.products.any (fun q => q.ID == product.ID) then
    (none, { product with UpdatedAt := now },
      { db with products := db.products.map (fun q =>
          if q.ID == product.ID then
            { q with Name := product.Name, Description := product.Description,
                     Price := product.Price, Category := product.Category, UpdatedAt := now }
          else q) })
  else (some .updateProduct, product, db)

/-- The repository method `DeleteProduct`: `DELETE FROM products WHERE id = $1`, an error
when no row was affected. -/
def Repository.DeleteProduct (db : DB) (fault : Bool) (id : Int) : Option Err × DB :=
  if fault then (some .deleteProduct, db)
  else if db.products.any (fun q => q.ID == id) then
    (none, { db with products := db.products.filter (fun q => !(q.ID == id)) })
  else (some (.noProductFound id), db)

/-- `productService.publishMessage` on the topic `product_updates`. -/
def publishMessage (e : Env) (w : World) (message : List (String × PVal)) : Option Err × World :=
  if e.marshal then (some .marshalMessage, w)
  else if e.publish then (some .publish, w)
  else (none, { w with outbox := w.outbox ++ [⟨"product_updates", message⟩] })

/-- `productService.CreateProduct`. -/
def CreateProduct (e : Env) (w : World) (product : ProductRow) : Option Err × World :=
  match Repository.CreateProduct w.db e.createProduct e.newID e.now product with
  | (some err, _, _) => (some err, w)
  | (none, product1, db1) =>
    publishMessage e { w with db := db1 }
      [("event", .str "product_created"), ("product", .product product1)]

/-- `productService.UpdateProduct`. -/
def UpdateProduct (e : Env) (w : World) (product : ProductRow) : Option Err × World :=
  match Repository.UpdateProduct w.db e.updateProduct e.now product with
  | (some err, _, _) => (some err, w)
  | (none, product1, db1) =>
    publishMessage e { w with db := db1 }
      [("event", .str "product_updated"), ("product", .product product1)]

/-- `productService.DeleteProduct`. -/
def DeleteProduct (e : Env) (w : World) (id : Int) : Option Err × World :=
  match Repository.DeleteProduct w.db e.deleteProduct id with
  | (some err, _) => (some err, w)
  | (none, db1) =>
    publishMessage e { w with db := db1 }
      [("event", .str "product_deleted"), ("product_id", .int64 id)]

end Product

namespace SSO

/-! ## Identity service (`internal/sso`) -/

/-- A row of `users` as the identity service reads it (`models.UserSSO`). -/
structure UserSSO where
  ID : Int
  Name : String
  Email : String
  PasswordHash : String
  CreatedAt : Int
  UpdatedAt : Int
deriving DecidableEq, Repr

/-- The body of a registration request (`models.RegisterRequest`). -/
structure RegisterRequest where
  Name : String
  Email : String
  Password : String
deriving DecidableEq, Repr

/-- The body of a login request (`models.LoginRequest`). -/
structure LoginRequest where
  Email : String
  Password : String
deriving DecidableEq, Repr

/-- The table of the identity repository. -/
structure DB where
  users : List UserSSO
deriving DecidableEq, Repr

/-- The part of `golang.org/x/crypto/bcrypt` the service uses: hashing with a salt at
the default cost (it can refuse a password), and the comparison of a hash with a
password. -/
structure Bcrypt where
  GenerateFromPassword : String → String → Option String
  CompareHashAndPassword : String → String → Bool

/-- The claims `jwt.RegisteredClaims` that the service fills in; dates are instants in
nanoseconds. -/
structure RegisteredClaims where
  Subject : String
  ExpiresAt : Int
  IssuedAt : Int
deriving DecidableEq, Repr

/-- The part of `github.com/golang-jwt/jwt` the service uses: signing claims with
HS256 under a key, which yields the token text or fails. -/
structure Jwt where
  SignedString : RegisteredClaims → String → Option String

/-- Errors returned by the identity service; `ErrInvalidCredentials` is the package
variable of that name. -/
inductive Err where
  | hashPassword
  | createUser
  | getUserByEmail
  | marshalMessage
  | publish
  | publishWrapped (cause : Err)
  | ErrInvalidCredentials
  | signToken
deriving DecidableEq, Repr

/-- The environment of one service call: the faults, the salt drawn by `bcrypt`, the id
and `NOW()` of an inserted row, and the two successive readings of `time.Now()` made
while the claims are built (nanoseconds). -/
structure Env where
  createUser : Bool
  getUserByEmail : Bool
  marshal : Bool
  publish : Bool
  salt : String
  newID : Int
  now : Int
  clock1 : Int
  clock2 : Int
deriving DecidableEq, Repr

/-- A value of the `map[string]interface{}` that the service publishes. -/
inductive PVal where
  | str (s : String)
  | int64 (i : Int)
  | map (fields : List (String × (String ⊕ Int)))
deriving DecidableEq, Repr

/-- A message handed to the Kafka writer. -/
structure Published where
  topic : String
  message : List (String × PVal)
deriving DecidableEq, Repr

/-- The store and the messages written to Kafka. -/
structure World where
  db : DB
  outbox : List Published
deriving DecidableEq, Repr

/-- The repository method `CreateUser`: the password carried in `PasswordHash` is hashed,
the row is inserted with the hash, and the record receives the generated id, the dates
and the hash. -/
def CreateUser (bcrypt : Bcrypt) (db : DB) (e : Env) (user : UserSSO) :
    Option Err × UserSSO × DB :=
  match bcrypt.GenerateFromPassword user.PasswordHash e.salt with
  | none => (some .hashPassword, user, db)
  | some hashedPassword =>
    if e.createUser then (some .createUser, user, db)
    else
      let row : UserSSO :=
        ⟨e.newID, user.Name, user.Email, hashedPassword, e.now, e.now⟩
      (none, row, { db with users := db.users ++ [row] })

/-- `GetUserByEmail`: `QueryRow(...).Scan(...)` fails when no row matches. -/
def GetUserByEmail (db : DB) (fault : Bool) (email : String) : Except Err UserSSO :=
  if fault then .error .getUserByEmail
  else
    match db.users.find? (fun u => u.Email == email) with
    | some u => .ok u
    | none => .error .getUserByEmail

/-- `userService.publishMessage` on the topic `user_updates`. -/
def publishMessage (e : Env) (w : World) (message : List (String × PVal)) : Option Err × World :=
  if e.marshal then (some .marshalMessage, w)
  else if e.publish then (some .publish, w)
  else (none, { w with outbox := w.outbox ++ [⟨"user_updates", message⟩] })

/-- `userService.RegisterUser`. -/
def RegisterUser (bcrypt : Bcrypt) (e : Env) (w : World) (req : RegisterRequest) :
    Except Err UserSSO × World :=
  match CreateUser bcrypt w.db e ⟨0, req.Name, req.Email, req.Password, 0, 0⟩ with
  | (some err, _, _) => (.error err, w)
  | (none, user, db1) =>
    match publishMessage e { w with db := db1 }
        [("event", .str "user_created"),
         ("user", .map [("id", .inr user.ID), ("name", .inl user.Name),
            ("email", .inl user.Email)])] with
    | (some err, w1) => (.error (.publishWrapped err), w1)
    | (none, w1) => (.ok user, w1)

/-- `verifyPassword`. -/
def verifyPassword (bcrypt : Bcrypt) (hashedPassword password : String) : Bool :=
  bcrypt.CompareHashAndPassword hashedPassword password

/-- The duration `time.Second`, in nanoseconds. -/
def timeSecond : Int := 1000000000

/-- `jwt.NewNumericDate`: the instant truncated to the precision of one second. -/
def NewNumericDate (t : Int) : Int := t - t % timeSecond

/-- The claims built by `generateJWT`: the expiry is taken from a first reading of the
clock, the issue date from a second one. -/
def jwtClaims (e : Env) (user : UserSSO) : RegisteredClaims :=
  { Subject := toString user.ID,
    ExpiresAt := NewNumericDate (e.clock1 + 24 * timeHour),
    IssuedAt := NewNumericDate e.clock2 }

/-- `userService.generateJWT`. -/
def generateJWT (jwt : Jwt) (jwtKey : String) (e : Env) (user : UserSSO) :
    Except Err String :=
  match jwt.SignedString (jwtClaims e user) jwtKey with
  | none => .error .signToken
  | some signedToken => .ok signedToken

/-- `userService.LoginUser`: the token text and the error. -/
def LoginUser (bcrypt : Bcrypt) (jwt : Jwt) (jwtKey : String) (e : Env) (db : DB)
    (req : LoginRequest) : String × Option Err :=
  match GetUserByEmail db e.getUserByEmail req.Email with
  | .error _ => ("", some .ErrInvalidCredentials)
  | .ok user =>
    if verifyPassword bcrypt user.PasswordHash req.Password = false then
      ("", some .ErrInvalidCredentials)
    else
      match generateJWT jwt jwtKey e user with
      | .error err => ("", some err)
      | .ok token => (token, none)

/-- The text `err.Error()` of an error of the service; the text of an error that comes
from a library or from the store is abbreviated to its prefix. -/
def Err.Error : Err → String
  | .ErrInvalidCredentials => "invalid email or password"
  | .signToken => "failed to sign token"
  | .hashPassword => "failed to hash password"
  | .createUser => "failed to create user"
  | .getUserByEmail => "failed to get user by email"
  | .marshalMessage => "failed to marshal message"
  | .publish => "failed to publish"
  | .publishWrapped cause => "failed to publish message: " ++ cause.Error

/-- The JSON body of a response of the login handler. -/
inductive Body where
  | error (message : String)
  | token (token : String)
deriving DecidableEq, Repr

/-- An HTTP response: status code and body. -/
structure Response where
  status : Nat
  body : Body
deriving DecidableEq, Repr

/-- `Handler.LoginUser`; `parsed` is the outcome of `c.BodyParser(&req)`. -/
def Handler.LoginUser (bcrypt : Bcrypt) (jwt : Jwt) (jwtKey : String) (e : Env) (db : DB)
    (parsed : Option LoginRequest) : Response :=
  match parsed with
  | none => ⟨400, .error "Invalid request body"⟩
  | some req =>
    if req.Email = "" ∨ req.Password = "" then ⟨400, .error "Email and Password are required"⟩
    else
      match SSO.LoginUser bcrypt jwt jwtKey e db req with
      | (_, some err) =>
        if err = .ErrInvalidCredentials then ⟨401, .error "Invalid email or password"⟩
        else ⟨500, .error err.Error⟩
      | (token, none) => ⟨200, .token token⟩

/-- A stand-in for `bcrypt` on concrete runs: the hash is the text `$2a$10$`, the
22-character salt and the password, which the comparison reads back; passwords over 72
bytes are refused. -/
def refBcrypt : Bcrypt where
  GenerateFromPassword password salt :=
    if password.utf8ByteSize > 72 ∨ salt.length ≠ 22 then none
    else some ("$2a$10$" ++ salt ++ password)
  CompareHashAndPassword hashedPassword password :=
    "$2a$10$".data.isPrefixOf hashedPassword.data &&
      hashedPassword.data.drop 29 == password.data

/-- A stand-in for the signer on concrete runs: the token text lists the claims and the
key. -/
def refJwt : Jwt where
  SignedString claims key :=
    some ("HS256." ++ claims.Subject ++ "." ++ toString claims.ExpiresAt ++ "." ++
      toString claims.IssuedAt ++ "." ++ key)

/-- An environment of a registration: salt, id 1 and insertion time 50. -/
def registerEnv : Env :=
  ⟨false, false, false, false, "abcdefghijklmnopqrstuv", 1, 50, 0, 0⟩

/-- An environment of a login in which the first reading of the clock is one nanosecond
before the end of second 0 and the second reading one nanosecond after it. -/
def boundaryEnv : Env :=
  ⟨false, false, false, false, "", 0, 0, 999999999, 1000000001⟩

/-- A store with the single user Ann, whose hash is that of the password `secret`. -/
def annDB : DB :=
  ⟨[⟨1, "Ann", "ann@example.com", "$2a$10$abcdefghijklmnopqrstuvsecret", 50, 50⟩]⟩

end SSO

/-! ## Kafka client (`pkg/kafka`) -/

/-- What `reader.ReadMessage(ctx)` returns: a message, an error for which
`errors.Is(err, context.Canceled)` holds, or any other error. -/
inductive ReadResult (M : Type) where
  | message (m : M)
  | canceled
  | failed
deriving DecidableEq, Repr

/-- The state of the read loop of one topic: the state the handler acts on, the messages
the handler has been invoked on so far, in order, and the number of `ReadMessage` calls
made so far. -/
structure LoopState (σ M : Type) where
  state : σ
  handled : List M
  reads : Nat
deriving DecidableEq, Repr

/-- The `for` loop that `SubscribeToTopicsFallback` runs for one topic, over the results
that `ReadMessage` returns in turn: cancellation breaks out of the loop, any other read
error continues with the next read, and after the handler has run the loop continues
whether it returned an error or not. The context is cancelled once the listed results
are used up, so the read after the last of them returns the cancellation. -/
def readLoop {σ M ε : Type} (handler : σ → M → Option ε × σ) :
    LoopState σ M → List (ReadResult M) → LoopState σ M
  | s, [] => { s with reads := s.reads + 1 }
  | s, .canceled :: _ => { s with reads := s.reads + 1 }
  | s, .failed :: rest => readLoop handler { s with reads := s.reads + 1 } rest
  | s, .message m :: rest =>
    match handler s.state m with
    | (some _, s1) => readLoop handler ⟨s1, s.handled ++ [m], s.reads + 1⟩ rest
    | (none, s1) => readLoop handler ⟨s1, s.handled ++ [m], s.reads + 1⟩ rest

/-- The messages among a sequence of read results, in order. -/
def deliveredMessages {M : Type} : List (ReadResult M) → List M
  | [] => []
  | .message m :: rest => m :: deliveredMessages rest
  | _ :: rest => deliveredMessages rest

namespace Recommendation

/-! ## Recommendation snapshots (`GenerateRecommendations`) -/

/-- A value of the `map[string]interface{}` that the recommendation service publishes. -/
inductive PVal where
  | str (s : String)
  | recommendation (r : RecommendationRow)
deriving DecidableEq, Repr

/-- A message handed to the Kafka writer: the topic and the map that was marshalled. -/
structure Published where
  topic : String
  message : List (String × PVal)
deriving DecidableEq, Repr

/-- The environment of one call of `GenerateRecommendations`: the fault of the insert, of
the Redis `Delete`, of `json.Marshal` and of the publish, the id the store gives to the
inserted row and the clock (`NOW()`). -/
structure GenEnv where
  createRecommendation : Bool
  cacheDelete : Bool
  marshal : Bool
  publish : Bool
  newID : Int
  now : Int
deriving DecidableEq, Repr

/-- `CreateRecommendation`: `INSERT INTO recommendations (user_id, product_ids, created_at)
VALUES ($1, $2, NOW()) RETURNING id, created_at`, scanned into the record. -/
def CreateRecommendation (db : DB) (fault : Bool) (newID now : Int)
    (recommendation : RecommendationRow) : Option Err × RecommendationRow × DB :=
  if fault then (some .createRecommendation, recommendation, db)
  else
    let row : RecommendationRow := { recommendation with ID := newID, CreatedAt := now }
    (none, row, { db with recommendations := db.recommendations ++ [row] })

/-- `recommendationService.publishMessage` on the topic `recommendation_updates`. -/
def publishMessage (e : GenEnv) (outbox : List Published) (message : List (String × PVal)) :
    Option Err × List Published :=
  if e.marshal then (some .marshalMessage, outbox)
  else if e.publish then (some .publish, outbox)
  else (none, outbox ++ [⟨"recommendation_updates", message⟩])

/-- `recommendationService.GenerateRecommendations`, on the world of the service and the
messages written to Kafka so far. `int(productID)` is the identity on the 64-bit
platforms the service is built for; the result of the Redis `Delete` is not inspected. -/
def GenerateRecommendations (e : GenEnv) (w : World) (outbox : List Published)
    (userID productID : Int) : Option Err × World × List Published :=
  let w0 : World :=
    { w with repoCalls := w.repoCalls ++ [RepoCall.CreateRecommendation userID [productID]] }
  match CreateRecommendation w0.db e.createRecommendation e.newID e.now
      ⟨0, userID, [productID], 0⟩ with
  | (some err, _, _) => (some err, w0, outbox)
  | (none, recommendation, db1) =>
    let w1 : World := { w0 with db := db1 }
    let w2 : World :=
      { w1 with cache := (RedisDelete w1.cache e.cacheDelete (cacheKey userID)).2 }
    let sent := publishMessage e outbox
      [("event", .str "recommendation_created"), ("recommendation", .recommendation recommendation)]
    (sent.1, w2, sent.2)

/-- The environment of a `GenerateRecommendations` call in which every call succeeds. -/
def GenEnv.ok (newID now : Int) : GenEnv := ⟨false, false, false, false, newID, now⟩

end Recommendation

/-! ## HTTP handlers (`internal/*/delivery/http`)

A handler holds its service as an interface value, so the model of a handler takes the
service method it calls as a function on the state the service acts on, and the text of
an error (`err.Error()`) as a function on errors. The strings are the raw values of the
path and query parameters, the empty string standing for a parameter that is missing. -/

/-- `strconv.ParseInt(s, 10, 64)`: an optional sign followed by one or more decimal
digits; any other text and a value outside the `int64` range are errors. -/
def ParseInt (s : String) : Option Int :=
  let negative : Bool :=
    match s.data with
    | '-' :: _ => true
    | _ => false
  let digits : List Char :=
    match s.data with
    | '-' :: ds => ds
    | '+' :: ds => ds
    | ds => ds
  if digits.isEmpty then none
  else
    (parseDigits digits 0).bind (fun n =>
      let i : Int := if negative then -(n : Int) else (n : Int)
      if -(2 : Int) ^ 63 ≤ i ∧ i < (2 : Int) ^ 63 then some i else none)

/-- `strconv.Atoi`; the Go type `int` has 64 bits on the platforms the services are built
for. -/
def Atoi (s : String) : Option Int := ParseInt s

/-- The `c.ParamsInt(key)` of fiber: `strconv.Atoi` of the path parameter. -/
def ParamsInt (param : String) : Option Int := Atoi param

/-- The `c.Query(key, defaultValue)` of fiber: the default stands in for a parameter that
is missing or empty. -/
def Query (value defaultValue : String) : String :=
  if value = "" then defaultValue else value

/-- The result of Go `int` arithmetic: the mathematical result wrapped to 64 bits. -/
def wrapInt (i : Int) : Int := (i + 2 ^ 63) % 2 ^ 64 - 2 ^ 63

/-- The JSON body of a response: a map with an `error` entry, a map with a `message`
entry, or a value that the service returned. -/
inductive Reply (α : Type) where
  | error (text : String)
  | message (text : String)
  | value (v : α)
deriving DecidableEq, Repr

/-- An HTTP response: status code and body. -/
structure HttpResponse (α : Type) where
  status : Nat
  body : Reply α
deriving DecidableEq, Repr

/-- A service method that only records the arguments it is called with and succeeds. -/
def recordCall {α : Type} (calls : List α) (args : α) : Except String Unit × List α :=
  (.ok (), calls ++ [args])

namespace User

/-- The text `err.Error()` of an error of the user service; the text of an error that
comes from a library or from the store is abbreviated to its prefix. -/
def Err.Error : Err → String
  | .removeExistingDislike => "failed to remove existing dislike: failed to remove dislike"
  | .likeAlreadyExists userID productID =>
    "like already exists for user " ++ toString userID ++ " and product " ++ toString productID
  | .createLike => "failed to create like"
  | .removeExistingLike => "failed to remove existing like: failed to remove like"
  | .dislikeAlreadyExists userID productID =>
    "dislike already exists for user " ++ toString userID ++ " and product " ++
      toString productID
  | .createDislike => "failed to create dislike"
  | .createPurchase => "failed to create purchase"
  | .marshalMessage => "failed to marshal message"
  | .publish => "failed to publish"
  | .updateUser => "failed to update user"
  | .getUser => "failed to get user"

/-- `Handler.GetUser` of the user service. -/
def Handler.GetUser {σ ε α : Type} (serviceGetUser : σ → Int → Except ε α × σ) (s : σ)
    (idParam : String) : HttpResponse α × σ :=
  match ParamsInt idParam with
  | none => (⟨400, .error "Invalid user ID"⟩, s)
  | some id =>
    match serviceGetUser s id with
    | (.error _, s1) => (⟨404, .error "User not found"⟩, s1)
    | (.ok user, s1) => (⟨200, .value user⟩, s1)

/-- `Handler.GetAllUsers`. -/
def Handler.GetAllUsers {σ ε α : Type} (serviceGetAllUsers : σ → Int → Int → Except ε α × σ)
    (errorText : ε → String) (s : σ) (pageQuery pageSizeQuery : String) :
    HttpResponse α × σ :=
  match Atoi (Query pageQuery "1") with
  | none => (⟨400, .error "Invalid page number"⟩, s)
  | some page =>
    if page < 1 then (⟨400, .error "Invalid page number"⟩, s)
    else
      match Atoi (Query pageSizeQuery "10") with
      | none => (⟨400, .error "Invalid page size"⟩, s)
      | some pageSize =>
        if pageSize < 1 ∨ pageSize > 100 then (⟨400, .error "Invalid page size"⟩, s)
        else
          let limit := pageSize
          let offset := wrapInt (wrapInt (page - 1) * pageSize)
          match serviceGetAllUsers s limit offset with
          | (.error err, s1) => (⟨500, .error (errorText err)⟩, s1)
          | (.ok users, s1) => (⟨200, .value users⟩, s1)

/-- `Handler.GetUserPurchases`. -/
def Handler.GetUserPurchases {σ ε α : Type}
    (serviceGetUserPurchases : σ → Int → Int → Int → Except ε α × σ) (errorText : ε → String)
    (s : σ) (idParam pageQuery pageSizeQuery : String) : HttpResponse α × σ :=
  match ParamsInt idParam with
  | none => (⟨400, .error "Invalid user ID"⟩, s)
  | some userID =>
    match Atoi (Query pageQuery "1") with
    | none => (⟨400, .error "Invalid page number"⟩, s)
    | some page =>
      if page < 1 then (⟨400, .error "Invalid page number"⟩, s)
      else
        match Atoi (Query pageSizeQuery "10") with
        | none => (⟨400, .error "Invalid page size"⟩, s)
        | some pageSize =>
          if pageSize < 1 ∨ pageSize > 100 then (⟨400, .error "Invalid page size"⟩, s)
          else
            let limit := pageSize
            let offset := wrapInt (wrapInt (page - 1) * pageSize)
            match serviceGetUserPurchases s userID limit offset with
            | (.error err, s1) => (⟨500, .error (errorText err)⟩, s1)
            | (.ok purchases, s1) => (⟨200, .value purchases⟩, s1)

/-- `Handler.LikeProduct`: every error of the service is answered with status 500. -/
def Handler.LikeProduct {σ ε : Type} (serviceLikeProduct : σ → Int → Int → Option ε × σ)
    (errorText : ε → String) (s : σ) (idParam productIDStr : String) :
    HttpResponse Unit × σ :=
  match ParamsInt idParam with
  | none => (⟨400, .error "Invalid user ID"⟩, s)
  | some userID =>
    if productIDStr = "" then (⟨400, .error "Product ID is required"⟩, s)
    else
      match ParseInt productIDStr with
      | none => (⟨400, .error "Invalid product ID"⟩, s)
      | some productID =>
        if productID ≤ 0 then (⟨400, .error "Invalid product ID"⟩, s)
        else
          match serviceLikeProduct s userID productID with
          | (some err, s1) => (⟨500, .error (errorText err)⟩, s1)
          | (none, s1) => (⟨200, .message "Product liked successfully"⟩, s1)

/-- `Handler.DislikeProduct`: every error of the service is answered with status 500. -/
def Handler.DislikeProduct {σ ε : Type} (serviceDislikeProduct : σ → Int → Int → Option ε × σ)
    (errorText : ε → String) (s : σ) (idParam productIDStr : String) :
    HttpResponse Unit × σ :=
  match ParamsInt idParam with
  | none => (⟨400, .error "Invalid user ID"⟩, s)
  | some userID =>
    if productIDStr = "" then (⟨400, .error "Product ID is required"⟩, s)
    else
      match ParseInt productIDStr with
      | none => (⟨400, .error "Invalid product ID"⟩, s)
      | some productID =>
        if productID ≤ 0 then (⟨400, .error "Invalid product ID"⟩, s)
        else
          match serviceDislikeProduct s userID productID with
          | (some err, s1) => (⟨500, .error (errorText err)⟩, s1)
          | (none, s1) => (⟨200, .message "Product disliked successfully"⟩, s1)

/-- A store in which user 1 has a like, and no dislike, for product 42. -/
def likedWorld : World :=
  ⟨⟨[], [], [⟨7, 1, 42, 100⟩], []⟩, [], [], []⟩

/-- An environment in which the store is unreachable for the removal of the dislike. -/
def envStoreDown : Env :=
  { Env.ok 8 200 with removeDislike := true }

/-- An environment in which only the Kafka publish fails. -/
def envBrokerDown : Env :=
  { Env.ok 8 200 with publish := true }

end User

namespace Product

/-- `Handler.GetProduct` of the product service. -/
def Handler.GetProduct {σ ε α : Type} (serviceGetProduct : σ → Int → Except ε α × σ) (s : σ)
    (idParam : String) : HttpResponse α × σ :=
  match ParamsInt idParam with
  | none => (⟨400, .error "Invalid product ID"⟩, s)
  | some id =>
    match serviceGetProduct s id with
    | (.error _, s1) => (⟨404, .error "Product not found"⟩, s1)
    | (.ok product, s1) => (⟨200, .value product⟩, s1)

/-- `Handler.GetAllProducts`. -/
def Handler.GetAllProducts {σ ε α : Type}
    (serviceGetAllProducts : σ → Int → Int → Except ε α × σ) (errorText : ε → String) (s : σ)
    (pageQuery pageSizeQuery : String) : HttpResponse α × σ :=
  match Atoi (Query pageQuery "1") with
  | none => (⟨400, .error "Invalid page number"⟩, s)
  | some page =>
    if page < 1 then (⟨400, .error "Invalid page number"⟩, s)
    else
      match Atoi (Query pageSizeQuery "10") with
      | none => (⟨400, .error "Invalid page size"⟩, s)
      | some pageSize =>
        if pageSize < 1 ∨ pageSize > 100 then (⟨400, .error "Invalid page size"⟩, s)
        else
          let limit := pageSize
          let offset := wrapInt (wrapInt (page - 1) * pageSize)
          match serviceGetAllProducts s limit offset with
          | (.error err, s1) => (⟨500, .error (errorText err)⟩, s1)
          | (.ok products, s1) => (⟨200, .value products⟩, s1)

end Product

namespace Recommendation

/-- `Handler.GetLatestRecommendation`; unlike `Handler.GetUser` and `Handler.GetProduct`
it also tests `userID <= 0`. -/
def Handler.GetLatestRecommendation {σ ε α : Type}
    (serviceGetLatestRecommendation : σ → Int → Except ε α × σ) (errorText : ε → String)
    (s : σ) (userIDParam : String) : HttpResponse α × σ :=
  match ParamsInt userIDParam with
  | none => (⟨400, .error "Invalid user ID"⟩, s)
  | some userID =>
    if userID ≤ 0 then (⟨400, .error "Invalid user ID"⟩, s)
    else
      match serviceGetLatestRecommendation s userID with
      | (.error err, s1) => (⟨500, .error (errorText err)⟩, s1)
      | (.ok productIDs, s1) => (⟨200, .value productIDs⟩, s1)

end Recommendation

/-! ## Messages on the wire (`encoding/json`)

A published map is written by `json.Marshal` and read back by the consumers with
`json.Unmarshal` into a `map[string]interface{}`. An `int64` is written as its decimal
digits, and the decoder stores every JSON number as the `float64` nearest to it. -/

/-- The number of low bits that `n` has beyond 53 (for `n` below `2 ^ (53 + fuel)`). -/
def excessBits : Nat → Nat → Nat
  | 0, _ => 0
  | fuel + 1, n => if n < 2 ^ 53 then 0 else excessBits fuel (n / 2) + 1

/-- The `float64` nearest to the integer `i`, a tie going to the even mantissa
(`strconv.ParseFloat` on the decimal digits of `i`), for `i` in the `int64` range: an
integer of at most 53 bits is kept exactly, a longer one is rounded to 53 bits. -/
def Float64.nearest (i : Int) : Float64 :=
  let n := i.natAbs
  let e := excessBits 64 n
  let q := n / 2 ^ e
  let r := n % 2 ^ e
  let roundUp : Bool := decide (2 ^ e < 2 * r) || (decide (2 * r = 2 ^ e) && q % 2 == 1)
  let mantissa : Nat := if roundUp then q + 1 else q
  ⟨i.sign * (mantissa : Int), (e : Int)⟩

namespace User

/-- What a consumer decodes for a published value: a string for a string, the nearest
`float64` for an `int64`, and a map for a record, whose entries (named by the `json` tags
of the record type, instants as text) are given by `fields`. -/
def PVal.received (fields : PVal → List (String × JVal)) : PVal → JVal
  | .str s => .string s
  | .int64 i => .number (Float64.nearest i)
  | v => .object (fields v)

/-- The Kafka message that a consumer reads for a published map. -/
def Published.received (fields : PVal → List (String × JVal)) (p : Published) : KafkaMessage :=
  ⟨some (p.message.map (fun kv => (kv.1, kv.2.received fields)))⟩

end User

/-! ## Identifiers and categories in the spec's words

The claims speak of "user U", "product P" and "the category of P". These are fixed here
without going through the decoding and the lookup of the code: an identifier is the
integer that the JSON number denotes, and the category of a product is read off the rows
of the table. -/

/-- The JSON number is the integer `i`: the value `mant * 2 ^ exp` of the float is `i`. -/
def Float64.denotes (f : Float64) (i : Int) : Prop :=
  if 0 ≤ f.exp then f.mant * 2 ^ f.exp.toNat = i else f.mant = i * 2 ^ (-f.exp).toNat

instance (f : Float64) (i : Int) : Decidable (f.denotes i) := by
  unfold Float64.denotes
  infer_instance

/-- The integers of the Go type `int64`. -/
def isInt64 (i : Int) : Prop := -(2 : Int) ^ 63 ≤ i ∧ i < (2 : Int) ^ 63

instance (i : Int) : Decidable (isInt64 i) := by
  unfold isInt64
  infer_instance

namespace Recommendation

/-- In the spec's words, product `P` exists with category `c`: the table has a row with
id `P`, and every row with that id has the category `c`. -/
def ProductHasCategory (products : List Product) (P : Int) (c : String) : Prop :=
  (∃ p ∈ products, p.ID = P) ∧ ∀ p ∈ products, p.ID = P → p.Category = c

instance (products : List Product) (P : Int) (c : String) :
    Decidable (ProductHasCategory products P c) := by
  unfold ProductHasCategory
  infer_instance

/-- The id is the key of `products`: two rows with one id have one category. -/
def CategoriesFixed (products : List Product) : Prop :=
  ∀ p ∈ products, ∀ q ∈ products, p.ID = q.ID → p.Category = q.Category

/-- One delivery of an interaction event to the consumer: the message, the faults of the
store while it is processed, and the event it stands for in the spec's words (its kind,
its user and its product). -/
structure Delivery where
  faults : Faults
  message : KafkaMessage
  kind : String
  userID : Int
  productID : Int

/-- The message is a well-formed interaction event for `kind`, `userID` and `productID`:
its body decodes to a map whose `event` is the kind, one of the three interaction kinds,
and whose `user_id` and `product_id` are numbers that are these 64-bit integers. -/
def Delivery.WellFormed (d : Delivery) : Prop :=
  (d.kind = "user_liked" ∨ d.kind = "user_disliked" ∨ d.kind = "user_purchased") ∧
  isInt64 d.userID ∧ isInt64 d.productID ∧
  ∃ (msg : Msg) (uf pf : Float64),
    d.message.Value = some msg ∧
    msg.lookup "event" = some (.string d.kind) ∧
    msg.lookup "user_id" = some (.number uf) ∧ uf.denotes d.userID ∧
    msg.lookup "product_id" = some (.number pf) ∧ pf.denotes d.productID

/-- The store executed both statements of the delivery: the category lookup and the
score update. -/
def Delivery.executed (d : Delivery) : Bool :=
  !d.faults.getProductCategory && !d.faults.updateScore

/-- The consumer applied to a sequence of deliveries in order, each under its faults. -/
def deliver (w : World) (ds : List Delivery) : World :=
  ds.foldl (fun w d => (ProcessKafkaMessage d.faults w d.message).2) w

/-- The number of deliveries of kind `kind` for user `U` on products of category `c`. -/
def countDelivered (products : List Product) (ds : List Delivery) (kind : String) (U : Int)
    (c : String) : Nat :=
  (ds.filter (fun d =>
    decide (d.kind = kind ∧ d.userID = U ∧ ProductHasCategory products d.productID c))).length

/-- The number of deliveries of kind `kind` for user `U` on products of category `c`
whose two statements the store executed. -/
def countExecuted (products : List Product) (ds : List Delivery) (kind : String) (U : Int)
    (c : String) : Nat :=
  (ds.filter (fun d =>
    decide (d.kind = kind ∧ d.userID = U ∧ ProductHasCategory products d.productID c) &&
      d.executed)).length

/-- A float with a non-zero exponent for each id: the like of user 8 (`1 * 2 ^ 3`) for
product 42 (`21 * 2 ^ 1`). -/
def scaledLikeMsg : Msg :=
  [("event", .string "user_liked"), ("user_id", .number ⟨1, 3⟩),
    ("product_id", .number ⟨21, 1⟩)]

end Recommendation

namespace Recommendation

/-- What a delivery adds to the score of `(U, c)` in the spec's words: the delta of its
kind when it is an event of user `U` on a product of category `c` and the store executed
its two statements, and nothing otherwise. -/
def Delivery.contribution (products : List Product) (d : Delivery) (U : Int) (c : String) :
    Int :=
  if d.userID = U ∧ ProductHasCategory products d.productID c ∧ d.executed = true then
    eventDelta d.kind
  else 0

/-- The faults of a store that refuses the score update and executes everything else. -/
def updateRefused : Faults := { noFaults with updateScore := true }

/-- The like of user 1 for product 42, delivered while the store refuses the update. -/
def refusedLike : Delivery :=
  ⟨updateRefused, interactionMsg "user_liked" 1 42, "user_liked", 1, 42⟩

/-- The like of user 8 for product 42, carried by floats with non-zero exponents. -/
def scaledLike : Delivery :=
  ⟨noFaults, ⟨some scaledLikeMsg⟩, "user_liked", 8, 42⟩

/-- The purchase of product 42 by user 8. -/
def purchaseOf8 : Delivery :=
  ⟨noFaults, interactionMsg "user_purchased" 8 42, "user_purchased", 8, 42⟩

end Recommendation

namespace User

/-! ## The statements of a call, one at a time

`LikeProduct` and `DislikeProduct` issue their statements one after the other, each a
round trip of its own and none inside a transaction, so the statements of two calls in
flight can alternate. -/

/-- The statement that a running call executes next; `publish` carries the id and the
time the store gave to the inserted row. -/
inductive Stage where
  | remove
  | check
  | create
  | publish (id time : Int)
  | returned (err : Option Err)
deriving DecidableEq, Repr

/-- A call of `LikeProduct` (`isLike`) or `DislikeProduct` in flight, with its
environment and the statement it executes next. -/
structure Running where
  env : Env
  isLike : Bool
  userID : Int
  productID : Int
  stage : Stage
deriving DecidableEq, Repr

/-- The next statement of a call in flight, executed on the current world. -/
def Running.step (w : World) (r : Running) : World × Running :=
  match r.stage with
  | .remove =>
    if r.isLike then
      match RemoveDislikeByUserAndProduct w.db r.env.removeDislike r.userID r.productID with
      | (some _, _) => (w, { r with stage := .returned (some .removeExistingDislike) })
      | (none, db1) => (w.commit db1, { r with stage := .check })
    else
      match RemoveLikeByUserAndProduct w.db r.env.removeLike r.userID r.productID with
      | (some _, _) => (w, { r with stage := .returned (some .removeExistingLike) })
      | (none, db1) => (w.commit db1, { r with stage := .check })
  | .check =>
    if r.isLike then
      match LikeExists w.db r.env.likeExists r.userID r.productID with
      | (_, some err) => (w, { r with stage := .returned (some err) })
      | (true, none) =>
        (w, { r with stage := .returned (some (.likeAlreadyExists r.userID r.productID)) })
      | (false, none) => (w, { r with stage := .create })
    else
      match DislikeExists w.db r.env.dislikeExists r.userID r.productID with
      | (_, some err) => (w, { r with stage := .returned (some err) })
      | (true, none) =>
        (w, { r with stage := .returned (some (.dislikeAlreadyExists r.userID r.productID)) })
      | (false, none) => (w, { r with stage := .create })
  | .create =>
    if r.isLike then
      match CreateLike w.db r.env.createLike r.env.newID r.env.now
          ⟨0, r.userID, r.productID, 0⟩ with
      | (some err, _, _) => (w, { r with stage := .returned (some err) })
      | (none, like, db2) => (w.commit db2, { r with stage := .publish like.ID like.LikedAt })
    else
      match CreateDislike w.db r.env.createDislike r.env.newID r.env.now
          ⟨0, r.userID, r.productID, 0⟩ with
      | (some err, _, _) => (w, { r with stage := .returned (some err) })
      | (none, dislike, db2) =>
        (w.commit db2, { r with stage := .publish dislike.ID dislike.DislikedAt })
  | .publish id time =>
    if r.isLike then
      let sent := publishMessage r.env w
        [("event", .str "user_liked"), ("user_id", .int64 r.userID),
         ("product_id", .int64 r.productID), ("like", .like ⟨id, r.userID, r.productID, time⟩)]
      (sent.2, { r with stage := .returned sent.1 })
    else
      let sent := publishMessage r.env w
        [("event", .str "user_disliked"), ("user_id", .int64 r.userID),
         ("product_id", .int64 r.productID),
         ("dislike", .dislike ⟨id, r.userID, r.productID, time⟩)]
      (sent.2, { r with stage := .returned sent.1 })
  | .returned _ => (w, r)

/-- The calls in flight stepped in the order of a schedule: each entry of the schedule
names the call that executes its next statement. -/
def runSchedule (w : World) (calls : List Running) : List Nat → World × List Running
  | [] => (w, calls)
  | i :: rest =>
    match calls.get? i with
    | none => runSchedule w calls rest
    | some r => runSchedule (r.step w).1 (calls.set i (r.step w).2) rest

/-- An environment in which the existence query of `LikeExists` fails and every other
call succeeds. -/
def envLookupDown : Env :=
  { Env.ok 9 300 with likeExists := true }

/-- An environment in which only the Redis `Delete` fails. -/
def envDeleteDown : Env :=
  { Env.ok 0 20 with cacheDelete := true }

end User

namespace Recommendation

/-- An environment of `GenerateRecommendations` in which only the Redis `Delete` fails. -/
def genDeleteDown : GenEnv := { GenEnv.ok 5 300 with cacheDelete := true }

/-- An environment of `GenerateRecommendations` in which only the publish fails. -/
def genBrokerDown : GenEnv := { GenEnv.ok 5 300 with publish := true }

end Recommendation

/-! ## Properties of the recommendation service -/

namespace Recommendation

theorem find?_append_of_any_false {α : Type} (k : α → Bool) (t : List α) (x : α)
    (h : t.any k = false) : (t ++ [x]).find? k = if k x then some x else none := by
  induction t with
  | nil => cases hx : k x <;> simp [List.find?, hx]
  | cons a t ih =>
    simp only [List.any_cons, Bool.or_eq_false_iff] at h
    simp [List.find?, h.1, ih h.2]

theorem find?_eq_none_of_any_false {α : Type} (k : α → Bool) (t : List α)
    (h : t.any k = false) : t.find? k = none := by
  induction t with
  | nil => rfl
  | cons a t ih =>
    simp only [List.any_cons, Bool.or_eq_false_iff] at h
    simp [List.find?, h.1, ih h.2]

theorem find?_isSome_of_any {α : Type} (k : α → Bool) (t : List α)
    (h : t.any k = true) : ∃ x, t.find? k = some x := by
  induction t with
  | nil => simp at h
  | cons a t ih =>
    cases ha : k a
    · simp only [List.any_cons, ha, Bool.false_or] at h
      simpa [List.find?, ha] using ih h
    · exact ⟨a, by simp [List.find?, ha]⟩

/-- Updating the score of every row with key `(u, c)` adds the delta to the score found
under that key. -/
theorem find?_map_update_same (t : List CategoryPreference) (u : Int) (c : String) (d : Int) :
    ((t.map (fun r => if prefKey u c r then { r with Score := r.Score + d } else r)).find?
        (prefKey u c)).map (fun r => r.Score)
      = ((t.find? (prefKey u c)).map (fun r => r.Score)).map (fun s => s + d) := by
  induction t with
  | nil => rfl
  | cons a t ih =>
    cases ha : prefKey u c a
    · simpa [List.find?, ha] using ih
    · have ha2 : prefKey u c { a with Score := a.Score + d } = true := by
        simpa [prefKey] using ha
      simp [List.find?, ha, ha2]

/-- Updating the rows with key `(u, c)` leaves the row found under another key alone. -/
theorem find?_map_update_other (t : List CategoryPreference) (u u2 : Int) (c c2 : String)
    (d : Int) (hne : (u2, c2) ≠ (u, c)) :
    (t.map (fun r => if prefKey u c r then { r with Score := r.Score + d } else r)).find?
        (prefKey u2 c2) = t.find? (prefKey u2 c2) := by
  induction t with
  | nil => rfl
  | cons a t ih =>
    cases ha : prefKey u c a
    · simp [List.find?, ha, ih]
    · have hk : prefKey u2 c2 a = false := by
        cases hb : prefKey u2 c2 a
        · rfl
        · exfalso
          rw [prefKey, Bool.and_eq_true, beq_iff_eq, beq_iff_eq] at ha hb
          exact hne (by rw [← ha.1, ← ha.2, ← hb.1, ← hb.2])
      have hk2 : prefKey u2 c2 { a with Score := a.Score + d } = false := by
        simpa [prefKey] using hk
      simp [List.find?, ha, hk, hk2, ih]

/-- The score found under the key of an upsert is the old score plus the delta, or the
delta itself when there was no row. -/
theorem findScore_upsert_same (t : List CategoryPreference) (u : Int) (c : String) (d : Int) :
    ((upsertScore t u c d).find? (prefKey u c)).map (fun r => r.Score)
      = some (match (t.find? (prefKey u c)).map (fun r => r.Score) with
              | some s => s + d
              | none => d) := by
  unfold upsertScore
  cases h : t.any (prefKey u c)
  · rw [if_neg (by simp), find?_append_of_any_false _ _ _ h, find?_eq_none_of_any_false _ _ h]
    simp [prefKey]
  · obtain ⟨x, hx⟩ := find?_isSome_of_any _ _ h
    rw [if_pos rfl, find?_map_update_same, hx]
    rfl

/-- An upsert leaves the score found under every other key unchanged. -/
theorem findScore_upsert_other (t : List CategoryPreference) (u u2 : Int) (c c2 : String)
    (d : Int) (hne : (u2, c2) ≠ (u, c)) :
    (upsertScore t u c d).find? (prefKey u2 c2) = t.find? (prefKey u2 c2) := by
  unfold upsertScore
  cases h : t.any (prefKey u c)
  · rw [if_neg (by simp)]
    have hk : prefKey u2 c2 ⟨u, c, d⟩ = false := by
      cases hb : prefKey u2 c2 ⟨u, c, d⟩
      · rfl
      · exfalso
        rw [prefKey, Bool.and_eq_true, beq_iff_eq, beq_iff_eq] at hb
        exact hne (by rw [← hb.1, ← hb.2])
    rw [List.find?_append, List.find?_singleton, hk]
    simp
  · rw [if_pos rfl, find?_map_update_other _ _ _ _ _ _ hne]

/-- The interaction arm applied to a message with two numeric ids whose product resolves
to `c`, when the store accepts the write. -/
theorem scoreEvent_ok (f : Faults) (w : World) (msg : Msg) (d : Int) (uf pf : Float64)
    (c : String)
    (hu : msg.lookup "user_id" = some (.number uf))
    (hp : msg.lookup "product_id" = some (.number pf))
    (hcat : GetProductCategory w.db f.getProductCategory pf.toInt64 = .ok c)
    (hwrite : f.updateScore = false) :
    scoreEvent f w msg d = (none,
      { db := { w.db with prefs := upsertScore w.db.prefs uf.toInt64 c d },
        cache := w.cache,
        repoCalls := w.repoCalls ++ [RepoCall.GetProductCategory pf.toInt64] ++
          [RepoCall.UpdateUserCategoryScore uf.toInt64 c d] }) := by
  simp [scoreEvent, extractUserAndProductID, hu, hp, hcat, UpdateUserCategoryScore, hwrite]

/-- A `user_liked` (`user_disliked`, `user_purchased`) message with numeric `user_id`
and `product_id`, whose product the lookup of the code resolves to category `c`, when the store accepts the
write: `ProcessKafkaMessage` returns nil, the score of `(U, c)` becomes the old score
plus 2 (minus 1, plus 5), the row being created with that value when absent, and the
score of every other (user, category) is unchanged. -/
theorem interaction_adds_delta_by_lookup (f : Faults) (w : World) (msg : Msg) (event : String)
    (delta : Int) (uf pf : Float64) (c : String)
    (hev : msg.lookup "event" = some (.string event))
    (hkind : (event = "user_liked" ∧ delta = 2) ∨ (event = "user_disliked" ∧ delta = -1) ∨
      (event = "user_purchased" ∧ delta = 5))
    (hu : msg.lookup "user_id" = some (.number uf))
    (hp : msg.lookup "product_id" = some (.number pf))
    (hcat : GetProductCategory w.db f.getProductCategory pf.toInt64 = .ok c)
    (hwrite : f.updateScore = false) :
    (ProcessKafkaMessage f w ⟨some msg⟩).1 = none ∧
    findScore (ProcessKafkaMessage f w ⟨some msg⟩).2.db uf.toInt64 c
      = some (match findScore w.db uf.toInt64 c with
              | some s => s + delta
              | none => delta) ∧
    ∀ (u : Int) (c2 : String), (u, c2) ≠ (uf.toInt64, c) →
      findScore (ProcessKafkaMessage f w ⟨some msg⟩).2.db u c2 = findScore w.db u c2 := by
  have hrun : ProcessKafkaMessage f w ⟨some msg⟩ = scoreEvent f w msg delta := by
    rcases hkind with ⟨h1, h2⟩ | ⟨h1, h2⟩ | ⟨h1, h2⟩ <;> subst h1 <;> subst h2 <;>
      simp [ProcessKafkaMessage, hev]
  rw [hrun, scoreEvent_ok f w msg delta uf pf c hu hp hcat hwrite]
  refine ⟨rfl, ?_, ?_⟩
  · exact findScore_upsert_same w.db.prefs uf.toInt64 c delta
  · intro u c2 hne
    simp only [findScore]
    rw [findScore_upsert_other _ _ _ _ _ _ hne]

/-- Example: user 1 likes product 42 of category `books` in a store without scores;
the row `(1, books)` is created with score 2. -/
theorem interaction_adds_delta_by_lookup_witness :
    (ProcessKafkaMessage noFaults booksWorld (interactionMsg "user_liked" 1 42)).1 = none ∧
    findScore (ProcessKafkaMessage noFaults booksWorld (interactionMsg "user_liked" 1 42)).2.db
      1 "books" = some 2 ∧
    findScore booksWorld.db 1 "books" = none :=
  have h := interaction_adds_delta_by_lookup noFaults booksWorld
    [("event", .string "user_liked"), ("user_id", .number (.ofInt 1)),
      ("product_id", .number (.ofInt 42))]
    "user_liked" 2 (.ofInt 1) (.ofInt 42) "books" rfl (Or.inl ⟨rfl, rfl⟩) rfl rfl rfl rfl
  ⟨h.1, h.2.1, rfl⟩

/-- The score, read as a number, after an upsert. -/
theorem scoreOf_upsert (db : DB) (u U : Int) (c C : String) (d : Int) :
    scoreOf { db with prefs := upsertScore db.prefs u c d } U C
      = scoreOf db U C + (if u = U ∧ c = C then d else 0) := by
  by_cases h : u = U ∧ c = C
  · obtain ⟨rfl, rfl⟩ := h
    simp only [scoreOf, findScore, findScore_upsert_same, and_self, if_true]
    cases (db.prefs.find? (prefKey u c)) <;> simp
  · have hne : (U, C) ≠ (u, c) := by
      intro e
      exact h ⟨(Prod.mk.inj e).1.symm, (Prod.mk.inj e).2.symm⟩
    simp only [scoreOf, findScore, findScore_upsert_other _ _ _ _ _ _ hne, if_neg h, add_zero]

/-- The interaction arm, in the environment without faults, in terms of its inputs. -/
theorem scoreEvent_noFaults_db (w : World) (msg : Msg) (d : Int) :
    (scoreEvent noFaults w msg d).2.db =
      match extractUserAndProductID msg with
      | .error _ => w.db
      | .ok (u, p) =>
        match GetProductCategory w.db false p with
        | .error _ => w.db
        | .ok c => { w.db with prefs := upsertScore w.db.prefs u c d } := by
  unfold scoreEvent
  cases h : extractUserAndProductID msg with
  | error e => rfl
  | ok up =>
    obtain ⟨u, p⟩ := up
    simp only [noFaults]
    cases h2 : GetProductCategory w.db false p with
    | error e => simp [h2]
    | ok c => simp [h2, UpdateUserCategoryScore]

/-- One message changes the score of `(U, C)` by its contribution. -/
theorem scoreOf_step (w : World) (m : KafkaMessage) (U : Int) (C : String) :
    scoreOf (ProcessKafkaMessage noFaults w m).2.db U C
      = scoreOf w.db U C + scoreContribution w.db m U C := by
  obtain ⟨v⟩ := m
  cases v with
  | none => simp [ProcessKafkaMessage, scoreContribution, interactionOf]
  | some msg =>
    cases hev : msg.lookup "event" with
    | none => simp [ProcessKafkaMessage, scoreContribution, interactionOf, hev]
    | some ev =>
      cases ev with
      | string event =>
        cases hx : extractUserAndProductID msg with
        | error e =>
          simp only [ProcessKafkaMessage, scoreContribution, interactionOf, hev, scoreEvent, hx]
          split_ifs <;> simp
        | ok up =>
          obtain ⟨u, p⟩ := up
          cases h2 : GetProductCategory w.db false p with
          | error e =>
            simp only [ProcessKafkaMessage, scoreContribution, interactionOf, hev, scoreEvent, hx,
              noFaults, h2]
            split_ifs <;> simp
          | ok c =>
            simp only [ProcessKafkaMessage, scoreContribution, interactionOf, hev, scoreEvent, hx,
              noFaults, h2, UpdateUserCategoryScore, eventDelta]
            split_ifs <;> simp [scoreOf_upsert, *]
      | null => simp [ProcessKafkaMessage, scoreContribution, interactionOf, hev]
      | bool b => simp [ProcessKafkaMessage, scoreContribution, interactionOf, hev]
      | number f => simp [ProcessKafkaMessage, scoreContribution, interactionOf, hev]
      | array xs => simp [ProcessKafkaMessage, scoreContribution, interactionOf, hev]
      | object fs => simp [ProcessKafkaMessage, scoreContribution, interactionOf, hev]

/-- The consumer never writes to `products`. -/
theorem ProcessKafkaMessage_products (f : Faults) (w : World) (m : KafkaMessage) :
    (ProcessKafkaMessage f w m).2.db.products = w.db.products := by
  have hs : ∀ (msg : Msg) (d : Int), (scoreEvent f w msg d).2.db.products = w.db.products := by
    intro msg d
    unfold scoreEvent
    cases hx : extractUserAndProductID msg with
    | error e => rfl
    | ok up =>
      obtain ⟨u, p⟩ := up
      simp only []
      cases h2 : GetProductCategory w.db f.getProductCategory p with
      | error e => rfl
      | ok c =>
        simp only [UpdateUserCategoryScore]
        split_ifs <;> rfl
  unfold ProcessKafkaMessage
  split
  · rfl
  · split
    · split_ifs <;> first | exact hs _ _ | rfl
    · rfl

/-- The interaction a message stands for depends on the store through `products` only. -/
theorem interactionOf_congr (db db2 : DB) (m : KafkaMessage) (h : db2.products = db.products) :
    interactionOf db2 m = interactionOf db m := by
  simp only [interactionOf, GetProductCategory, h]

theorem scoreContribution_congr (db db2 : DB) (m : KafkaMessage) (U : Int) (C : String)
    (h : db2.products = db.products) :
    scoreContribution db2 m U C = scoreContribution db m U C := by
  simp only [scoreContribution, interactionOf_congr db db2 m h]

/-- After a sequence of messages the score of `(U, C)` has grown by the sum of their
contributions. -/
theorem scoreOf_processAll (ms : List KafkaMessage) (w : World) (U : Int) (C : String) :
    scoreOf (processAll w ms).db U C
      = scoreOf w.db U C + (ms.map (fun m => scoreContribution w.db m U C)).sum := by
  induction ms generalizing w with
  | nil => simp [processAll]
  | cons m ms ih =>
    have hp := ProcessKafkaMessage_products noFaults w m
    have hc : (ms.map (fun m2 => scoreContribution (ProcessKafkaMessage noFaults w m).2.db m2 U C))
        = ms.map (fun m2 => scoreContribution w.db m2 U C) :=
      List.map_congr_left (fun m2 _ => scoreContribution_congr _ _ m2 U C hp)
    have := ih (ProcessKafkaMessage noFaults w m).2
    simp only [processAll, List.foldl_cons] at this ⊢
    rw [this, hc, scoreOf_step, List.map_cons, List.sum_cons]
    ring

/-- The contribution of one message, by event kind. -/
theorem scoreContribution_eq (db : DB) (m : KafkaMessage) (U : Int) (C : String) :
    scoreContribution db m U C
      = 2 * (if interactionOf db m == some ("user_liked", U, C) then 1 else 0)
        - (if interactionOf db m == some ("user_disliked", U, C) then 1 else 0)
        + 5 * (if interactionOf db m == some ("user_purchased", U, C) then 1 else 0) := by
  unfold scoreContribution
  cases interactionOf db m with
  | none => simp
  | some t =>
    obtain ⟨ev, u, c⟩ := t
    by_cases h : u = U ∧ c = C
    · obtain ⟨rfl, rfl⟩ := h
      by_cases h1 : ev = "user_liked"
      · subst h1
        simp [eventDelta]
      by_cases h2 : ev = "user_disliked"
      · subst h2
        simp [eventDelta]
      by_cases h3 : ev = "user_purchased"
      · subst h3
        simp [eventDelta]
      simp [eventDelta, h1, h2, h3]
    · have : ∀ e : String, ((some (ev, u, c) : Option (String × Int × String))
          == some (e, U, C)) = false := by
        intro e
        simp only [beq_eq_false_iff_ne, ne_eq, Option.some.injEq, Prod.mk.injEq, not_and]
        intro _ hu hc
        exact h ⟨hu, hc⟩
      simp [h, this]

/-- The contributions of a sequence add up to `2 * L - D + 5 * B`. -/
theorem sum_scoreContribution (db : DB) (ms : List KafkaMessage) (U : Int) (C : String) :
    (ms.map (fun m => scoreContribution db m U C)).sum
      = 2 * (countEvents db ms "user_liked" U C : Int)
        - (countEvents db ms "user_disliked" U C : Int)
        + 5 * (countEvents db ms "user_purchased" U C : Int) := by
  induction ms with
  | nil => simp [countEvents]
  | cons m ms ih =>
    rw [List.map_cons, List.sum_cons, ih, scoreContribution_eq]
    simp only [countEvents, List.filter_cons]
    split_ifs <;> simp <;> ring

/-- In the environment without faults: from an empty score table, with the products
fixed, after any finite sequence of messages (well-formed interaction events in particular) the score of every `(U, C)` is
`2 * L - D + 5 * B`, where `L`, `D`, `B` count the `user_liked`, `user_disliked` and
`user_purchased` events of `U` on products of category `C`; in the scenario of product 42
of category `books`, a like of user 1 gives 2 and a following purchase gives 7. -/
theorem score_is_weighted_count_noFaults (products : List Product)
    (recommendations : List RecommendationRow) (cache : Cache) (calls : List RepoCall)
    (ms : List KafkaMessage) (U : Int) (C : String) :
    scoreOf (processAll ⟨⟨products, [], recommendations⟩, cache, calls⟩ ms).db U C
      = 2 * (countEvents ⟨products, [], recommendations⟩ ms "user_liked" U C : Int)
        - (countEvents ⟨products, [], recommendations⟩ ms "user_disliked" U C : Int)
        + 5 * (countEvents ⟨products, [], recommendations⟩ ms "user_purchased" U C : Int) ∧
    scoreOf (processAll booksWorld [interactionMsg "user_liked" 1 42]).db 1 "books" = 2 ∧
    scoreOf (processAll booksWorld
      [interactionMsg "user_liked" 1 42, interactionMsg "user_purchased" 1 42]).db 1 "books"
      = 7 := by
  refine ⟨?_, ?_, ?_⟩
  · rw [scoreOf_processAll, sum_scoreContribution]
    simp [scoreOf, findScore]
  · rfl
  · rfl

end Recommendation

/-! ## Properties of the user service -/

namespace User

/-- The paths of `LikeProduct`, by the faults of the environment. -/
theorem LikeProduct_eq (e : Env) (w : World) (u p : Int) :
    LikeProduct e w u p =
      if e.removeDislike = true then (some .removeExistingDislike, w)
      else if e.likeExists = false ∧ hasLike w.db u p = true then
        (some (.likeAlreadyExists u p),
          w.commit (RemoveDislikeByUserAndProduct w.db false u p).2)
      else if e.createLike = true then
        (some .createLike, w.commit (RemoveDislikeByUserAndProduct w.db false u p).2)
      else
        publishMessage e
          ((w.commit (RemoveDislikeByUserAndProduct w.db false u p).2).commit
            (CreateLike (RemoveDislikeByUserAndProduct w.db false u p).2 false e.newID e.now
              ⟨0, u, p, 0⟩).2.2)
          [("event", .str "user_liked"), ("user_id", .int64 u), ("product_id", .int64 p),
           ("like", .like ⟨e.newID, u, p, e.now⟩)] := by
  unfold LikeProduct
  cases h1 : e.removeDislike
  · cases h2 : e.likeExists
    · cases h3 : hasLike w.db u p
      · have h3b : (w.db.likes.any fun l => l.UserID == u && l.ProductID == p) = false := h3
        cases h4 : e.createLike <;>
          simp [RemoveDislikeByUserAndProduct, LikeExists, CreateLike, World.commit, h3b, h4]
      · have h3b : (w.db.likes.any fun l => l.UserID == u && l.ProductID == p) = true := h3
        simp [RemoveDislikeByUserAndProduct, LikeExists, CreateLike, World.commit, h3b]
    · cases h4 : e.createLike <;>
        simp [RemoveDislikeByUserAndProduct, LikeExists, CreateLike, World.commit, h4]
  · simp [RemoveDislikeByUserAndProduct]

/-- The paths of `DislikeProduct`, by the faults of the environment. -/
theorem DislikeProduct_eq (e : Env) (w : World) (u p : Int) :
    DislikeProduct e w u p =
      if e.removeLike = true then (some .removeExistingLike, w)
      else if e.dislikeExists = false ∧ hasDislike w.db u p = true then
        (some (.dislikeAlreadyExists u p),
          w.commit (RemoveLikeByUserAndProduct w.db false u p).2)
      else if e.createDislike = true then
        (some .createDislike, w.commit (RemoveLikeByUserAndProduct w.db false u p).2)
      else
        publishMessage e
          ((w.commit (RemoveLikeByUserAndProduct w.db false u p).2).commit
            (CreateDislike (RemoveLikeByUserAndProduct w.db false u p).2 false e.newID e.now
              ⟨0, u, p, 0⟩).2.2)
          [("event", .str "user_disliked"), ("user_id", .int64 u), ("product_id", .int64 p),
           ("dislike", .dislike ⟨e.newID, u, p, e.now⟩)] := by
  unfold DislikeProduct
  cases h1 : e.removeLike
  · cases h2 : e.dislikeExists
    · cases h3 : hasDislike w.db u p
      · have h3b : (w.db.dislikes.any fun l => l.UserID == u && l.ProductID == p) = false := h3
        cases h4 : e.createDislike <;>
          simp [RemoveLikeByUserAndProduct, DislikeExists, CreateDislike, World.commit, h3b, h4]
      · have h3b : (w.db.dislikes.any fun l => l.UserID == u && l.ProductID == p) = true := h3
        simp [RemoveLikeByUserAndProduct, DislikeExists, CreateDislike, World.commit, h3b]
    · cases h4 : e.createDislike <;>
        simp [RemoveLikeByUserAndProduct, DislikeExists, CreateDislike, World.commit, h4]
  · simp [RemoveLikeByUserAndProduct]

/-- Publishing never touches the store or the recorded store states. -/
theorem publishMessage_db (e : Env) (w : World) (msg : List (String × PVal)) :
    (publishMessage e w msg).2.db = w.db ∧ (publishMessage e w msg).2.history = w.history := by
  unfold publishMessage
  split_ifs <;> exact ⟨rfl, rfl⟩

theorem hasLike_iff (db : DB) (u p : Int) :
    hasLike db u p = true ↔ ∃ l ∈ db.likes, l.UserID = u ∧ l.ProductID = p := by
  simp [hasLike]

theorem hasDislike_iff (db : DB) (u p : Int) :
    hasDislike db u p = true ↔ ∃ d ∈ db.dislikes, d.UserID = u ∧ d.ProductID = p := by
  simp [hasDislike]

/-- After the dislikes of `(u, p)` are deleted, none is stored. -/
theorem hasDislike_removeDislike (db : DB) (u p : Int) :
    hasDislike (RemoveDislikeByUserAndProduct db false u p).2 u p = false := by
  rw [← Bool.not_eq_true, hasDislike_iff]
  simp only [RemoveDislikeByUserAndProduct, Bool.false_eq_true, if_false, List.mem_filter]
  rintro ⟨d, ⟨_, hk⟩, h1, h2⟩
  simp [h1, h2] at hk

/-- After the likes of `(u, p)` are deleted, none is stored. -/
theorem hasLike_removeLike (db : DB) (u p : Int) :
    hasLike (RemoveLikeByUserAndProduct db false u p).2 u p = false := by
  rw [← Bool.not_eq_true, hasLike_iff]
  simp only [RemoveLikeByUserAndProduct, Bool.false_eq_true, if_false, List.mem_filter]
  rintro ⟨l, ⟨_, hk⟩, h1, h2⟩
  simp [h1, h2] at hk

/-- Deleting dislikes keeps the exclusion. -/
theorem Exclusive_removeDislike (db : DB) (u p : Int) (h : Exclusive db) :
    Exclusive (RemoveDislikeByUserAndProduct db false u p).2 := by
  intro u2 p2 ⟨hl, hd⟩
  apply h u2 p2
  refine ⟨hl, ?_⟩
  rw [hasDislike_iff] at hd ⊢
  obtain ⟨d, hd, hk⟩ := hd
  simp only [RemoveDislikeByUserAndProduct, Bool.false_eq_true, if_false, List.mem_filter] at hd
  exact ⟨d, hd.1, hk⟩

/-- Deleting likes keeps the exclusion. -/
theorem Exclusive_removeLike (db : DB) (u p : Int) (h : Exclusive db) :
    Exclusive (RemoveLikeByUserAndProduct db false u p).2 := by
  intro u2 p2 ⟨hl, hd⟩
  apply h u2 p2
  refine ⟨?_, hd⟩
  rw [hasLike_iff] at hl ⊢
  obtain ⟨l, hl, hk⟩ := hl
  simp only [RemoveLikeByUserAndProduct, Bool.false_eq_true, if_false, List.mem_filter] at hl
  exact ⟨l, hl.1, hk⟩

/-- Inserting a like for a pair without dislike keeps the exclusion. -/
theorem Exclusive_createLike (db : DB) (u p id now : Int) (h : Exclusive db)
    (hd : hasDislike db u p = false) :
    Exclusive (CreateLike db false id now ⟨0, u, p, 0⟩).2.2 := by
  intro u2 p2 ⟨hl, hd2⟩
  have hd3 : hasDislike db u2 p2 = true := hd2
  rw [hasLike_iff] at hl
  obtain ⟨l, hl, hk1, hk2⟩ := hl
  simp only [CreateLike, Bool.false_eq_true, if_false, List.mem_append,
    List.mem_singleton] at hl
  rcases hl with hl | hl
  · exact h u2 p2 ⟨(hasLike_iff _ _ _).mpr ⟨l, hl, hk1, hk2⟩, hd3⟩
  · subst hl
    simp only at hk1 hk2
    subst hk1 hk2
    rw [hd] at hd3
    exact Bool.false_ne_true hd3

/-- Inserting a dislike for a pair without like keeps the exclusion. -/
theorem Exclusive_createDislike (db : DB) (u p id now : Int) (h : Exclusive db)
    (hl : hasLike db u p = false) :
    Exclusive (CreateDislike db false id now ⟨0, u, p, 0⟩).2.2 := by
  intro u2 p2 ⟨hl2, hd⟩
  have hl3 : hasLike db u2 p2 = true := hl2
  rw [hasDislike_iff] at hd
  obtain ⟨d, hd, hk1, hk2⟩ := hd
  simp only [CreateDislike, Bool.false_eq_true, if_false, List.mem_append,
    List.mem_singleton] at hd
  rcases hd with hd | hd
  · exact h u2 p2 ⟨hl3, (hasDislike_iff _ _ _).mpr ⟨d, hd, hk1, hk2⟩⟩
  · subst hd
    simp only at hk1 hk2
    subst hk1 hk2
    rw [hl] at hl3
    exact Bool.false_ne_true hl3

/-- C3. From a store in which no (user, product) pair has both a like and a dislike,
after `LikeProduct` or `DislikeProduct`, whatever step fails, the final store and every
store state reached inside the call (the states appended to the history) have no pair
with both. -/
theorem C3_exclusion_invariant (e : Env) (w : World) (u p : Int) (h : Exclusive w.db) :
    (Exclusive (LikeProduct e w u p).2.db ∧
      ∃ steps, (LikeProduct e w u p).2.history = w.history ++ steps ∧
        ∀ db ∈ steps, Exclusive db) ∧
    (Exclusive (DislikeProduct e w u p).2.db ∧
      ∃ steps, (DislikeProduct e w u p).2.history = w.history ++ steps ∧
        ∀ db ∈ steps, Exclusive db) := by
  have hr := Exclusive_removeDislike w.db u p h
  have hc := Exclusive_createLike _ u p e.newID e.now hr (hasDislike_removeDislike w.db u p)
  have hr2 := Exclusive_removeLike w.db u p h
  have hc2 := Exclusive_createDislike _ u p e.newID e.now hr2 (hasLike_removeLike w.db u p)
  constructor
  · rw [LikeProduct_eq]
    split_ifs
    · exact ⟨h, [], by simp, by simp⟩
    · exact ⟨hr, [_], rfl, by simpa using hr⟩
    · exact ⟨hr, [_], rfl, by simpa using hr⟩
    · rw [(publishMessage_db _ _ _).1, (publishMessage_db _ _ _).2]
      refine ⟨hc, [(RemoveDislikeByUserAndProduct w.db false u p).2,
        (CreateLike (RemoveDislikeByUserAndProduct w.db false u p).2 false e.newID e.now
          ⟨0, u, p, 0⟩).2.2], by simp [World.commit], ?_⟩
      intro db hdb
      simp only [List.mem_cons, List.mem_singleton, List.not_mem_nil, or_false] at hdb
      rcases hdb with rfl | rfl
      · exact hr
      · exact hc
  · rw [DislikeProduct_eq]
    split_ifs
    · exact ⟨h, [], by simp, by simp⟩
    · exact ⟨hr2, [_], rfl, by simpa using hr2⟩
    · exact ⟨hr2, [_], rfl, by simpa using hr2⟩
    · rw [(publishMessage_db _ _ _).1, (publishMessage_db _ _ _).2]
      refine ⟨hc2, [(RemoveLikeByUserAndProduct w.db false u p).2,
        (CreateDislike (RemoveLikeByUserAndProduct w.db false u p).2 false e.newID e.now
          ⟨0, u, p, 0⟩).2.2], by simp [World.commit], ?_⟩
      intro db hdb
      simp only [List.mem_cons, List.mem_singleton, List.not_mem_nil, or_false] at hdb
      rcases hdb with rfl | rfl
      · exact hr2
      · exact hc2

/-- Witness of C3: user 1 likes product 42 while holding a dislike for it; the two store
states reached inside the call are the store without the dislike and the store with the
like, and the exclusion holds in the result. -/
theorem C3_exclusion_invariant_witness :
    Exclusive dislikedWorld.db ∧
    (LikeProduct (Env.ok 8 200) dislikedWorld 1 42).2.history
      = [⟨[], [], [], []⟩, ⟨[], [], [⟨8, 1, 42, 200⟩], []⟩] ∧
    Exclusive (LikeProduct (Env.ok 8 200) dislikedWorld 1 42).2.db :=
  have h0 : Exclusive dislikedWorld.db := by
    intro u p hb
    simp [hasLike, dislikedWorld] at hb
  ⟨h0, by decide, (C3_exclusion_invariant (Env.ok 8 200) dislikedWorld 1 42 h0).1.1⟩

/-- A successful `LikeProduct` leaves a like and no dislike for the pair. -/
theorem LikeProduct_ok (e : Env) (w : World) (u p : Int) (h : (LikeProduct e w u p).1 = none) :
    hasLike (LikeProduct e w u p).2.db u p = true ∧
    hasDislike (LikeProduct e w u p).2.db u p = false := by
  rw [LikeProduct_eq] at h ⊢
  split_ifs at h ⊢
  rw [(publishMessage_db _ _ _).1]
  constructor
  · rw [hasLike_iff]
    exact ⟨⟨e.newID, u, p, e.now⟩, by simp [CreateLike, World.commit], rfl, rfl⟩
  · exact hasDislike_removeDislike w.db u p

/-- A successful `DislikeProduct` leaves a dislike and no like for the pair. -/
theorem DislikeProduct_ok (e : Env) (w : World) (u p : Int)
    (h : (DislikeProduct e w u p).1 = none) :
    hasDislike (DislikeProduct e w u p).2.db u p = true ∧
    hasLike (DislikeProduct e w u p).2.db u p = false := by
  rw [DislikeProduct_eq] at h ⊢
  split_ifs at h ⊢
  rw [(publishMessage_db _ _ _).1]
  constructor
  · rw [hasDislike_iff]
    exact ⟨⟨e.newID, u, p, e.now⟩, by simp [CreateDislike, World.commit], rfl, rfl⟩
  · exact hasLike_removeLike w.db u p

/-- C4. If `LikeProduct(U, P)` succeeds and then `DislikeProduct(U, P)` succeeds, the
store holds a dislike and no like for `(U, P)`; and a successful `DislikeProduct(U, P)`
followed by a successful `LikeProduct(U, P)` leaves a like and no dislike. -/
theorem C4_like_then_dislike_replaces (e1 e2 : Env) (w : World) (u p : Int) :
    ((LikeProduct e1 w u p).1 = none →
      (DislikeProduct e2 (LikeProduct e1 w u p).2 u p).1 = none →
      hasDislike (DislikeProduct e2 (LikeProduct e1 w u p).2 u p).2.db u p = true ∧
      hasLike (DislikeProduct e2 (LikeProduct e1 w u p).2 u p).2.db u p = false) ∧
    ((DislikeProduct e1 w u p).1 = none →
      (LikeProduct e2 (DislikeProduct e1 w u p).2 u p).1 = none →
      hasLike (LikeProduct e2 (DislikeProduct e1 w u p).2 u p).2.db u p = true ∧
      hasDislike (LikeProduct e2 (DislikeProduct e1 w u p).2 u p).2.db u p = false) :=
  ⟨fun _ h2 => DislikeProduct_ok e2 _ u p h2, fun _ h2 => LikeProduct_ok e2 _ u p h2⟩

/-- Witness of C4: from the empty store, user 1 likes and then dislikes product 42, both
calls succeed, and the store holds the dislike only. -/
theorem C4_like_then_dislike_replaces_witness :
    (LikeProduct (Env.ok 8 200) ⟨⟨[], [], [], []⟩, [], [], []⟩ 1 42).1 = none ∧
    (DislikeProduct (Env.ok 9 300)
      (LikeProduct (Env.ok 8 200) ⟨⟨[], [], [], []⟩, [], [], []⟩ 1 42).2 1 42).1 = none ∧
    (DislikeProduct (Env.ok 9 300)
      (LikeProduct (Env.ok 8 200) ⟨⟨[], [], [], []⟩, [], [], []⟩ 1 42).2 1 42).2.db
      = ⟨[], [], [], [⟨9, 1, 42, 300⟩]⟩ ∧
    hasDislike (DislikeProduct (Env.ok 9 300)
      (LikeProduct (Env.ok 8 200) ⟨⟨[], [], [], []⟩, [], [], []⟩ 1 42).2 1 42).2.db 1 42
      = true :=
  ⟨by decide, by decide, by decide,
    ((C4_like_then_dislike_replaces (Env.ok 8 200) (Env.ok 9 300)
      ⟨⟨[], [], [], []⟩, [], [], []⟩ 1 42).1 (by decide) (by decide)).1⟩

/-- Deleting the dislikes of a pair that has none leaves the store as it is. -/
theorem removeDislike_eq_self (db : DB) (u p : Int) (h : hasDislike db u p = false) :
    (RemoveDislikeByUserAndProduct db false u p).2 = db := by
  have hall : ∀ d ∈ db.dislikes, (!(d.UserID == u && d.ProductID == p)) = true := by
    intro d hd
    have := List.any_eq_false.mp h d hd
    simp only [Bool.not_eq_true] at this
    rw [this]
    rfl
  simp only [RemoveDislikeByUserAndProduct, Bool.false_eq_true, if_false]
  rw [List.filter_eq_self.mpr hall]

/-- Deleting the likes of a pair that has none leaves the store as it is. -/
theorem removeLike_eq_self (db : DB) (u p : Int) (h : hasLike db u p = false) :
    (RemoveLikeByUserAndProduct db false u p).2 = db := by
  have hall : ∀ l ∈ db.likes, (!(l.UserID == u && l.ProductID == p)) = true := by
    intro l hl
    have := List.any_eq_false.mp h l hl
    simp only [Bool.not_eq_true] at this
    rw [this]
    rfl
  simp only [RemoveLikeByUserAndProduct, Bool.false_eq_true, if_false]
  rw [List.filter_eq_self.mpr hall]

/-- When `LikeProduct(U, P)` is called twice in a row and the first call succeeds,
the second call, whose dislike removal and like lookup the store answers, returns the
conflict error `like already exists`, publishes nothing and leaves the store as it was
after the first call; `DislikeProduct` behaves the same way for a duplicate dislike. -/
theorem duplicate_is_conflict_when_store_answers (e1 e2 : Env) (w : World) (u p : Int) :
    ((LikeProduct e1 w u p).1 = none → e2.removeDislike = false → e2.likeExists = false →
      (LikeProduct e2 (LikeProduct e1 w u p).2 u p).1 = some (.likeAlreadyExists u p) ∧
      (LikeProduct e2 (LikeProduct e1 w u p).2 u p).2.outbox = (LikeProduct e1 w u p).2.outbox ∧
      (LikeProduct e2 (LikeProduct e1 w u p).2 u p).2.db = (LikeProduct e1 w u p).2.db) ∧
    ((DislikeProduct e1 w u p).1 = none → e2.removeLike = false → e2.dislikeExists = false →
      (DislikeProduct e2 (DislikeProduct e1 w u p).2 u p).1
        = some (.dislikeAlreadyExists u p) ∧
      (DislikeProduct e2 (DislikeProduct e1 w u p).2 u p).2.outbox
        = (DislikeProduct e1 w u p).2.outbox ∧
      (DislikeProduct e2 (DislikeProduct e1 w u p).2 u p).2.db
        = (DislikeProduct e1 w u p).2.db) := by
  constructor
  · intro h1 hf1 hf2
    obtain ⟨hl, hd⟩ := LikeProduct_ok e1 w u p h1
    rw [LikeProduct_eq e2, if_neg (by simp [hf1]), if_pos ⟨hf2, hl⟩,
      removeDislike_eq_self _ u p hd]
    exact ⟨rfl, rfl, rfl⟩
  · intro h1 hf1 hf2
    obtain ⟨hd, hl⟩ := DislikeProduct_ok e1 w u p h1
    rw [DislikeProduct_eq e2, if_neg (by simp [hf1]), if_pos ⟨hf2, hd⟩,
      removeLike_eq_self _ u p hl]
    exact ⟨rfl, rfl, rfl⟩

/-- Example: from the empty store user 1 likes product 42 twice; the first call
succeeds and publishes one message, the second returns the conflict and the outbox still
holds that one message. -/
theorem duplicate_is_conflict_when_store_answers_witness :
    (LikeProduct (Env.ok 8 200) ⟨⟨[], [], [], []⟩, [], [], []⟩ 1 42).1 = none ∧
    (LikeProduct (Env.ok 9 300)
      (LikeProduct (Env.ok 8 200) ⟨⟨[], [], [], []⟩, [], [], []⟩ 1 42).2 1 42).1
      = some (.likeAlreadyExists 1 42) ∧
    (LikeProduct (Env.ok 9 300)
      (LikeProduct (Env.ok 8 200) ⟨⟨[], [], [], []⟩, [], [], []⟩ 1 42).2 1 42).2.outbox.length
      = 1 ∧
    (LikeProduct (Env.ok 9 300)
      (LikeProduct (Env.ok 8 200) ⟨⟨[], [], [], []⟩, [], [], []⟩ 1 42).2 1 42).2.db
      = ⟨[], [], [⟨8, 1, 42, 200⟩], []⟩ :=
  have h := (duplicate_is_conflict_when_store_answers (Env.ok 8 200) (Env.ok 9 300)
    ⟨⟨[], [], [], []⟩, [], [], []⟩ 1 42).1 (by decide) rfl rfl
  ⟨by decide, h.1, by decide, h.2.2.trans (by decide)⟩

/-- Counterexample to C6 as stated: user 1 holds a dislike for product 42 and the insert
into `likes` fails; `LikeProduct` returns that error, yet the dislike is gone and no like
is stored. -/
theorem C6_counterexample :
    (LikeProduct envCreateLikeFails dislikedWorld 1 42).1 = some .createLike ∧
    dislikedWorld.db.dislikes = [⟨7, 1, 42, 100⟩] ∧
    (LikeProduct envCreateLikeFails dislikedWorld 1 42).2.db.dislikes = [] ∧
    (LikeProduct envCreateLikeFails dislikedWorld 1 42).2.db.likes = [] ∧
    (LikeProduct envCreateLikeFails dislikedWorld 1 42).2.db ≠ dislikedWorld.db := by
  decide

/-- C6 (amended). `LikeProduct(U, P)` removes the dislikes of `(U, P)` and installs the
like as two separate writes: either it fails at the removal and the store is unchanged;
or it fails with the duplicate-like conflict or the insert error and the store is the
old one without the dislikes of `(U, P)`; or it returns nil or the error of marshalling
or publishing the event, and the store has the dislikes removed and the like installed.
`DislikeProduct` likewise. -/
theorem C6_two_separate_writes (e : Env) (w : World) (u p : Int) :
    (((LikeProduct e w u p).1 = some .removeExistingDislike ∧
        (LikeProduct e w u p).2.db = w.db) ∨
      (((LikeProduct e w u p).1 = some (.likeAlreadyExists u p) ∨
          (LikeProduct e w u p).1 = some .createLike) ∧
        (LikeProduct e w u p).2.db = (RemoveDislikeByUserAndProduct w.db false u p).2) ∨
      (((LikeProduct e w u p).1 = none ∨ (LikeProduct e w u p).1 = some .marshalMessage ∨
          (LikeProduct e w u p).1 = some .publish) ∧
        (LikeProduct e w u p).2.db =
          (CreateLike (RemoveDislikeByUserAndProduct w.db false u p).2 false e.newID e.now
            ⟨0, u, p, 0⟩).2.2)) ∧
    (((DislikeProduct e w u p).1 = some .removeExistingLike ∧
        (DislikeProduct e w u p).2.db = w.db) ∨
      (((DislikeProduct e w u p).1 = some (.dislikeAlreadyExists u p) ∨
          (DislikeProduct e w u p).1 = some .createDislike) ∧
        (DislikeProduct e w u p).2.db = (RemoveLikeByUserAndProduct w.db false u p).2) ∨
      (((DislikeProduct e w u p).1 = none ∨ (DislikeProduct e w u p).1 = some .marshalMessage ∨
          (DislikeProduct e w u p).1 = some .publish) ∧
        (DislikeProduct e w u p).2.db =
          (CreateDislike (RemoveLikeByUserAndProduct w.db false u p).2 false e.newID e.now
            ⟨0, u, p, 0⟩).2.2)) := by
  have hpub : ∀ (w2 : World) (msg : List (String × PVal)),
      (publishMessage e w2 msg).1 = none ∨ (publishMessage e w2 msg).1 = some .marshalMessage ∨
        (publishMessage e w2 msg).1 = some .publish := by
    intro w2 msg
    unfold publishMessage
    split_ifs <;> simp
  constructor
  · rw [LikeProduct_eq]
    split_ifs
    · exact Or.inl ⟨rfl, rfl⟩
    · exact Or.inr (Or.inl ⟨Or.inl rfl, rfl⟩)
    · exact Or.inr (Or.inl ⟨Or.inr rfl, rfl⟩)
    · exact Or.inr (Or.inr ⟨hpub _ _, (publishMessage_db _ _ _).1⟩)
  · rw [DislikeProduct_eq]
    split_ifs
    · exact Or.inl ⟨rfl, rfl⟩
    · exact Or.inr (Or.inl ⟨Or.inl rfl, rfl⟩)
    · exact Or.inr (Or.inl ⟨Or.inr rfl, rfl⟩)
    · exact Or.inr (Or.inr ⟨hpub _ _, (publishMessage_db _ _ _).1⟩)

end User

/-! ## Properties of the event consumers and of the cached read -/

/-- C7. A message whose body is a JSON object with a string `event` that is not one of
the kinds named in the `switch`: `ProcessKafkaMessage` of the recommendation service and
of the analytics service return nil and leave the scores and the counters (the whole
state) unchanged. -/
theorem C7_unknown_event_is_skipped (f : Recommendation.Faults) (w : Recommendation.World)
    (e : Analytics.Env) (db : Analytics.DB) (msg : Msg) (event : String)
    (hev : msg.lookup "event" = some (.string event)) :
    (event ∉ Recommendation.handledKinds →
      Recommendation.ProcessKafkaMessage f w ⟨some msg⟩ = (none, w)) ∧
    (event ∉ Analytics.handledKinds →
      Analytics.ProcessKafkaMessage e db ⟨some msg⟩ = (none, db)) := by
  constructor
  · intro h
    simp only [Recommendation.handledKinds, List.mem_cons, List.mem_singleton,
      List.not_mem_nil, or_false, not_or] at h
    obtain ⟨h1, h2, h3, h4, h5⟩ := h
    simp [Recommendation.ProcessKafkaMessage, hev, h1, h2, h3]
  · intro h
    simp only [Analytics.handledKinds, List.mem_cons, List.mem_singleton,
      List.not_mem_nil, or_false, not_or] at h
    obtain ⟨h1, h2, h3, h4, h5, h6, h7⟩ := h
    simp [Analytics.ProcessKafkaMessage, hev, h1, h2, h3]

/-- Witness of C7: a `recommendation_created` message changes nothing in either service. -/
theorem C7_unknown_event_is_skipped_witness :
    "recommendation_created" ∉ Recommendation.handledKinds ∧
    "recommendation_created" ∉ Analytics.handledKinds ∧
    Recommendation.ProcessKafkaMessage Recommendation.noFaults Recommendation.booksWorld
      ⟨some [("event", .string "recommendation_created")]⟩
      = (none, Recommendation.booksWorld) ∧
    Analytics.ProcessKafkaMessage ⟨false, false, 0, 0, 0⟩ ⟨[], []⟩
      ⟨some [("event", .string "recommendation_created")]⟩ = (none, ⟨[], []⟩) :=
  have h := C7_unknown_event_is_skipped Recommendation.noFaults Recommendation.booksWorld
    ⟨false, false, 0, 0, 0⟩ ⟨[], []⟩ [("event", .string "recommendation_created")]
    "recommendation_created" rfl
  ⟨by decide, by decide, h.1 (by decide), h.2 (by decide)⟩

/-- C8. An interaction message (`user_liked`, `user_disliked` or `user_purchased`) in
which `user_id` or `product_id` is missing or not a number: both services return nil and
change nothing. When the ids parse but the category of the product cannot be resolved,
the recommendation service returns nil and leaves the store unchanged. -/
theorem C8_bad_payload_is_skipped (f : Recommendation.Faults) (w : Recommendation.World)
    (e : Analytics.Env) (db : Analytics.DB) (msg : Msg) (event : String)
    (hev : msg.lookup "event" = some (.string event))
    (hkind : event = "user_liked" ∨ event = "user_disliked" ∨ event = "user_purchased") :
    (((∀ x, msg.lookup "user_id" ≠ some (.number x)) ∨
        (∀ x, msg.lookup "product_id" ≠ some (.number x))) →
      Recommendation.ProcessKafkaMessage f w ⟨some msg⟩ = (none, w) ∧
      Analytics.ProcessKafkaMessage e db ⟨some msg⟩ = (none, db)) ∧
    (∀ (u p : Int) (err : Recommendation.Err),
      Recommendation.extractUserAndProductID msg = .ok (u, p) →
      Recommendation.GetProductCategory w.db f.getProductCategory p = .error err →
      (Recommendation.ProcessKafkaMessage f w ⟨some msg⟩).1 = none ∧
      (Recommendation.ProcessKafkaMessage f w ⟨some msg⟩).2.db = w.db) := by
  constructor
  · intro hbad
    have hx : Recommendation.extractUserAndProductID msg = .error .parseUserOrProductID := by
      unfold Recommendation.extractUserAndProductID
      split
      · rename_i a b hu hp
        rcases hbad with hb | hb
        · exact absurd hu (hb _)
        · exact absurd hp (hb _)
      · rfl
    have hy : Analytics.parseUserAndProductID msg = .error .parseUserOrProductID := by
      unfold Analytics.parseUserAndProductID
      split
      · rename_i a b hu hp
        rcases hbad with hb | hb
        · exact absurd hu (hb _)
        · exact absurd hp (hb _)
      · rfl
    constructor
    · rcases hkind with h | h | h <;> subst h <;>
        simp [Recommendation.ProcessKafkaMessage, hev, Recommendation.scoreEvent, hx]
    · rcases hkind with h | h | h <;> subst h <;>
        simp [Analytics.ProcessKafkaMessage, hev, hy]
  · intro u p err hx hc
    rcases hkind with h | h | h <;> subst h <;>
      simp [Recommendation.ProcessKafkaMessage, hev, Recommendation.scoreEvent, hx, hc]

/-- Witness of C8: a `user_liked` message whose `user_id` is a string, and a `user_liked`
message for the unknown product 77. -/
theorem C8_bad_payload_is_skipped_witness :
    Recommendation.ProcessKafkaMessage Recommendation.noFaults Recommendation.booksWorld
      ⟨some [("event", .string "user_liked"), ("user_id", .string "1"),
        ("product_id", .number (.ofInt 42))]⟩ = (none, Recommendation.booksWorld) ∧
    Analytics.ProcessKafkaMessage ⟨false, false, 0, 0, 0⟩ ⟨[], []⟩
      ⟨some [("event", .string "user_liked"), ("user_id", .string "1"),
        ("product_id", .number (.ofInt 42))]⟩ = (none, ⟨[], []⟩) ∧
    (Recommendation.ProcessKafkaMessage Recommendation.noFaults Recommendation.booksWorld
      (Recommendation.interactionMsg "user_liked" 1 77)).2.db = Recommendation.booksWorld.db :=
  have h1 := (C8_bad_payload_is_skipped Recommendation.noFaults Recommendation.booksWorld
    ⟨false, false, 0, 0, 0⟩ ⟨[], []⟩
    [("event", .string "user_liked"), ("user_id", .string "1"),
      ("product_id", .number (.ofInt 42))] "user_liked" rfl (Or.inl rfl)).1
    (Or.inl (fun x hx => by
      have h2 : (JVal.string "1") = JVal.number x := Option.some.inj hx
      exact JVal.noConfusion h2))
  have h2 := (C8_bad_payload_is_skipped Recommendation.noFaults Recommendation.booksWorld
    ⟨false, false, 0, 0, 0⟩ ⟨[], []⟩
    [("event", .string "user_liked"), ("user_id", .number (.ofInt 1)),
      ("product_id", .number (.ofInt 77))] "user_liked" rfl (Or.inl rfl)).2
    1 77 .getProductCategory rfl rfl
  ⟨h1.1, h1.2, h2.2⟩

namespace Recommendation

/-- A key just written by `Set` is found with the written value and expiration. -/
theorem lookup_RedisSet (c : Cache) (key value : String) (ttl : Int) :
    (RedisSet c false key value ttl).2.lookup key = some ⟨value, ttl⟩ := by
  simp [RedisSet, List.lookup]

/-- A key just deleted is not found. -/
theorem lookup_RedisDelete (c : Cache) (key : String) :
    (RedisDelete c false key).2.lookup key = none := by
  simp only [RedisDelete, Bool.false_eq_true, if_false]
  induction c with
  | nil => rfl
  | cons kv c ih =>
    obtain ⟨k, v⟩ := kv
    by_cases h : k = key
    · have h1 : (k != key) = false := by simp [h]
      rw [List.filter_cons, h1]
      exact ih
    · have h1 : (k != key) = true := by simp [h]
      have h2 : (key == k) = false := by
        rw [beq_eq_false_iff_ne]
        exact fun e => h e.symm
      rw [List.filter_cons, h1]
      simp only [if_true, List.lookup, h2]
      exact ih

/-- C9. When the cache holds no entry under `recommendations:user:U`,
`GetLatestRecommendation(U)` returns exactly the result of
`GetTopProductsByUserPreference(U, 5)` on the current store; when that query succeeds and
Redis accepts the `Set`, the key then holds the JSON encoding of the result with an
expiration of one hour (`3600 * 10 ^ 9` nanoseconds). -/
theorem C9_miss_recomputes_and_caches (json : JsonCodec) (f : Faults) (w : World) (U : Int)
    (hmiss : w.cache.lookup (cacheKey U) = none) :
    (GetLatestRecommendation json f w U).1 = GetTopProductsByUserPreference w.db f U 5 ∧
    (GetLatestRecommendation json f w U).2.repoCalls
      = w.repoCalls ++ [RepoCall.GetTopProductsByUserPreference U 5] ∧
    (∀ pids, GetTopProductsByUserPreference w.db f U 5 = .ok pids → f.cacheSet = false →
      (GetLatestRecommendation json f w U).2.cache.lookup (cacheKey U)
        = some ⟨json.marshalInt64s pids, 3600 * 10 ^ 9⟩) := by
  have hget : (RedisGet w.cache f.cacheGet (cacheKey U)).1 = "" := by
    unfold RedisGet
    split_ifs
    · rfl
    · rw [hmiss]
  unfold GetLatestRecommendation
  simp only [hget, ne_eq, not_true_eq_false, and_false, if_false]
  cases hq : GetTopProductsByUserPreference w.db f U 5 with
  | error err => simp
  | ok pids =>
    refine ⟨rfl, rfl, ?_⟩
    intro pids2 hp hset
    cases hp
    simp only [hset]
    exact lookup_RedisSet _ _ _ _

/-- Witness of C9: the key of user 1 held the older list `[99]` and was deleted; the call
returns the two `books` products, most recently updated first, and caches `[43,42]` for
one hour. -/
theorem C9_miss_recomputes_and_caches_witness :
    staleWorld.cache.lookup (cacheKey 1) = some ⟨"[99]", timeHour⟩ ∧
    (RedisDelete staleWorld.cache false (cacheKey 1)).2.lookup (cacheKey 1) = none ∧
    (GetLatestRecommendation refJson noFaults
      { staleWorld with cache := (RedisDelete staleWorld.cache false (cacheKey 1)).2 } 1).1
      = .ok (some [43, 42]) ∧
    (GetLatestRecommendation refJson noFaults
      { staleWorld with cache := (RedisDelete staleWorld.cache false (cacheKey 1)).2 } 1).2.cache
      = [("recommendations:user:1", ⟨"[43,42]", 3600000000000⟩)] :=
  have h := C9_miss_recomputes_and_caches refJson noFaults
    { staleWorld with cache := (RedisDelete staleWorld.cache false (cacheKey 1)).2 } 1
    (lookup_RedisDelete _ _)
  ⟨by decide, lookup_RedisDelete _ _, h.1.trans (by rfl), by decide⟩

/-- C10. When the cache holds under `recommendations:user:U` the JSON encoding `s` of a
list (a non-empty text that decodes to `l`) and Redis answers the `Get`,
`GetLatestRecommendation(U)` returns the decoded list without error and makes no
repository call: the world, the record of repository calls included, is unchanged. -/
theorem C10_hit_returns_cached (json : JsonCodec) (f : Faults) (w : World) (U : Int)
    (s : String) (ttl : Int) (l : Int64Slice)
    (hget : f.cacheGet = false)
    (hc : w.cache.lookup (cacheKey U) = some ⟨s, ttl⟩)
    (hs : s ≠ "")
    (hdec : json.unmarshalInt64s s = some l) :
    GetLatestRecommendation json f w U = (.ok l, w) ∧
    (GetLatestRecommendation json f w U).2.repoCalls = w.repoCalls := by
  have hr : RedisGet w.cache f.cacheGet (cacheKey U) = (s, none) := by
    simp [RedisGet, hget, hc]
  have : GetLatestRecommendation json f w U = (.ok l, w) := by
    unfold GetLatestRecommendation
    simp [hr, hs, hdec]
  rw [this]
  exact ⟨rfl, rfl⟩

/-- Witness of C10: the key of user 1 holds `[99]`; the call returns `[99]` although the
ranking query would give `[43, 42]`, and no repository call is recorded. -/
theorem C10_hit_returns_cached_witness :
    staleWorld.cache.lookup (cacheKey 1) = some ⟨"[99]", timeHour⟩ ∧
    refJson.unmarshalInt64s "[99]" = some (some [99]) ∧
    GetLatestRecommendation refJson noFaults staleWorld 1 = (.ok (some [99]), staleWorld) ∧
    GetTopProductsByUserPreference staleWorld.db noFaults 1 5 = .ok (some [43, 42]) :=
  ⟨by decide, by decide,
    (C10_hit_returns_cached refJson noFaults staleWorld 1 "[99]" timeHour (some [99]) rfl
      (by decide) (by decide) (by decide)).1, by rfl⟩

end Recommendation

/-! ## Cache invalidation and cache failures -/

/-- Updating the rows selected by `k` leaves `find? k` pointing at the updated first row. -/
theorem find?_map_if {α : Type} (k : α → Bool) (g : α → α)
    (hg : ∀ r, k r = true → k (g r) = true) (t : List α) :
    (t.map (fun r => if k r then g r else r)).find? k = (t.find? k).map g := by
  induction t with
  | nil => rfl
  | cons a t ih =>
    cases ha : k a
    · simp [List.find?, ha, ih]
    · simp [List.find?, ha, hg a ha]

/-- Updating the rows selected by `k` does not change what `find? k2` returns, when `k2`
rejects those rows before and after the update. -/
theorem find?_map_if_other {α : Type} (k k2 : α → Bool) (g : α → α)
    (h1 : ∀ r, k r = true → k2 r = false) (h2 : ∀ r, k r = true → k2 (g r) = false)
    (t : List α) :
    (t.map (fun r => if k r then g r else r)).find? k2 = t.find? k2 := by
  induction t with
  | nil => rfl
  | cons a t ih =>
    cases ha : k a
    · simp [List.find?, ha, ih]
    · simp [List.find?, ha, h1 a ha, h2 a ha, ih]

namespace Recommendation

/-- The consumer never issues a Redis command: the keyspace is the same after any
message. -/
theorem ProcessKafkaMessage_cache (f : Faults) (w : World) (m : KafkaMessage) :
    (ProcessKafkaMessage f w m).2.cache = w.cache := by
  have hs : ∀ (msg : Msg) (d : Int), (scoreEvent f w msg d).2.cache = w.cache := by
    intro msg d
    unfold scoreEvent
    cases hx : extractUserAndProductID msg with
    | error e => rfl
    | ok up =>
      obtain ⟨u, p⟩ := up
      simp only []
      cases h2 : GetProductCategory w.db f.getProductCategory p with
      | error e => rfl
      | ok c => rfl
  unfold ProcessKafkaMessage
  split
  · rfl
  · split
    · split_ifs <;> first | exact hs _ _ | rfl
    · rfl

/-- C11 (the code at the failing input). `ProcessKafkaMessage` leaves the Redis keyspace
as it is for every message. In the run: user 1 has a score for `books`, a first
`GetLatestRecommendation(1)` caches `[42]`; the purchase of the `music` product 50 by
user 1 raises the score of `(1, music)` to 5; the key `recommendations:user:1` still
holds `[42]`, the next `GetLatestRecommendation(1)` returns `[42]`, while the ranking
query on the updated scores gives `[50, 42]`. -/
theorem C11_event_keeps_cached_list :
    (∀ (f : Faults) (w : World) (m : KafkaMessage),
      (ProcessKafkaMessage f w m).2.cache = w.cache) ∧
    (GetLatestRecommendation refJson noFaults musicWorld 1).2.cache.lookup (cacheKey 1)
      = some ⟨"[42]", timeHour⟩ ∧
    scoreOf (ProcessKafkaMessage noFaults (GetLatestRecommendation refJson noFaults musicWorld 1).2
      (interactionMsg "user_purchased" 1 50)).2.db 1 "music" = 5 ∧
    (ProcessKafkaMessage noFaults (GetLatestRecommendation refJson noFaults musicWorld 1).2
      (interactionMsg "user_purchased" 1 50)).2.cache.lookup (cacheKey 1)
      = some ⟨"[42]", timeHour⟩ ∧
    (GetLatestRecommendation refJson noFaults
      (ProcessKafkaMessage noFaults (GetLatestRecommendation refJson noFaults musicWorld 1).2
        (interactionMsg "user_purchased" 1 50)).2 1).1 = .ok (some [42]) ∧
    GetTopProductsByUserPreference
      (ProcessKafkaMessage noFaults (GetLatestRecommendation refJson noFaults musicWorld 1).2
        (interactionMsg "user_purchased" 1 50)).2.db noFaults 1 5 = .ok (some [50, 42]) :=
  ⟨ProcessKafkaMessage_cache, by decide, by decide, by decide, by rfl, by rfl⟩

/-- C14. A user without any row in `user_category_preferences`, an empty cache, and a
store that answers the category query: `GetLatestRecommendation` returns the empty
(non-nil) list and no error, whatever the products are. -/
theorem C14_no_scores_gives_empty_list (json : JsonCodec) (f : Faults) (w : World) (U : Int)
    (hno : ∀ r ∈ w.db.prefs, r.UserID ≠ U) (hcache : w.cache = [])
    (hq : f.catQuery = none) :
    (GetLatestRecommendation json f w U).1 = .ok (some []) := by
  have hrows : topCategoryRows w.db U = [] := by
    have hf : w.db.prefs.filter (fun r => r.UserID == U) = [] := by
      rw [List.filter_eq_nil_iff]
      intro r hr
      simpa using hno r hr
    simp [topCategoryRows, hf]
  have hget : (RedisGet w.cache f.cacheGet (cacheKey U)).1 = "" := by
    unfold RedisGet
    split_ifs
    · rfl
    · rw [hcache]
      rfl
  have hrepo : GetTopProductsByUserPreference w.db f U 5 = .ok (some []) := by
    simp [GetTopProductsByUserPreference, hrows, hq, queryError]
  unfold GetLatestRecommendation
  simp only [hget, ne_eq, not_true_eq_false, and_false, if_false, hrepo]

/-- Witness of C14: user 7 has no score in the store with two products; the call returns
the empty list. -/
theorem C14_no_scores_gives_empty_list_witness :
    (∀ r ∈ musicWorld.db.prefs, r.UserID ≠ 7) ∧ musicWorld.cache = [] ∧
    (GetLatestRecommendation refJson noFaults musicWorld 7).1 = .ok (some []) :=
  have h : ∀ r ∈ musicWorld.db.prefs, r.UserID ≠ 7 := by
    intro r hr
    simp only [musicWorld, List.mem_singleton] at hr
    subst hr
    decide
  ⟨h, rfl, C14_no_scores_gives_empty_list refJson noFaults musicWorld 7 h rfl rfl⟩

end Recommendation

namespace User

/-- `GetUser` when the `Get` yields no usable text (a miss, or a failing `Get`): the
result is the answer of the repository. -/
theorem GetUser_of_no_cached_text (json : UserCodec) (e : Env) (w : World) (id : Int)
    (h : (RedisGet w.cache e.cacheGet (userCacheKey id)).1 = "") :
    (GetUser json e w id).1 = GetUserByID w.db e.getUserByID id := by
  unfold GetUser
  simp only [h, ne_eq, not_true_eq_false, and_false, if_false]
  cases GetUserByID w.db e.getUserByID id <;> rfl

/-- A successful `UpdateUser`, by its effect on the store and on the keyspace. -/
theorem UpdateUser_ok (e : Env) (w : World) (u : UserRow) (hok : (UpdateUser e w u).1 = none) :
    e.updateUser = false ∧ (w.db.users.any (fun r => r.ID == u.ID)) = true ∧
    (UpdateUser e w u).2.db = (Repository.UpdateUser w.db false e.now u).2.2 ∧
    (UpdateUser e w u).2.cache = (RedisDelete w.cache e.cacheDelete (userCacheKey u.ID)).2 := by
  unfold UpdateUser at hok ⊢
  cases h1 : e.updateUser
  · cases h2 : w.db.users.any (fun r => r.ID == u.ID)
    · simp [Repository.UpdateUser, h1, h2] at hok
    · simp only [Repository.UpdateUser, h1, h2, Bool.false_eq_true, if_false, if_true] at hok ⊢
      refine ⟨trivial, trivial, ?_, ?_⟩
      · unfold publishMessage
        split_ifs <;> rfl
      · unfold publishMessage
        split_ifs <;> rfl
  · simp [Repository.UpdateUser, h1] at hok

/-- Whenever `UpdateUser(u)` returns without error and Redis has executed the
`Delete`, the cache holds no entry under `user:<u.ID>`; the next `GetUser(u.ID)` returns
what the repository returns, and when the repository answers, that is a record with the
id of `u`, the name and email just written and the new `updated_at`. -/
theorem update_invalidates_user_cache_of_delete (json : UserCodec) (e e2 : Env) (w : World)
    (u : UserRow) (hok : (UpdateUser e w u).1 = none) (hdel : e.cacheDelete = false) :
    (UpdateUser e w u).2.cache.lookup (userCacheKey u.ID) = none ∧
    (GetUser json e2 (UpdateUser e w u).2 u.ID).1
      = GetUserByID (UpdateUser e w u).2.db e2.getUserByID u.ID ∧
    (e2.getUserByID = false →
      ∃ r, (GetUser json e2 (UpdateUser e w u).2 u.ID).1 = .ok r ∧ r.ID = u.ID ∧
        r.Name = u.Name ∧ r.Email = u.Email ∧ r.UpdatedAt = e.now) := by
  obtain ⟨_, hany, hdb, hcache⟩ := UpdateUser_ok e w u hok
  have hmiss : (UpdateUser e w u).2.cache.lookup (userCacheKey u.ID) = none := by
    rw [hcache, hdel]
    exact Recommendation.lookup_RedisDelete _ _
  have hget : (RedisGet (UpdateUser e w u).2.cache e2.cacheGet (userCacheKey u.ID)).1 = "" := by
    unfold RedisGet
    split_ifs
    · rfl
    · rw [hmiss]
  have hrepo := GetUser_of_no_cached_text json e2 (UpdateUser e w u).2 u.ID hget
  refine ⟨hmiss, hrepo, ?_⟩
  intro hread
  rw [hrepo, hdb]
  obtain ⟨x, hx⟩ := Recommendation.find?_isSome_of_any _ _ hany
  have hfind : ((Repository.UpdateUser w.db false e.now u).2.2).users.find?
      (fun r => r.ID == u.ID)
      = some { x with Name := u.Name, Email := u.Email, UpdatedAt := e.now } := by
    simp only [Repository.UpdateUser, Bool.false_eq_true, if_false, hany, if_true]
    rw [find?_map_if (fun r : UserRow => r.ID == u.ID)
      (fun r => { r with Name := u.Name, Email := u.Email, UpdatedAt := e.now })
      (fun r hr => hr), hx]
    rfl
  have hxid : x.ID = u.ID := by
    have := List.find?_some hx
    simpa using this
  refine ⟨{ x with Name := u.Name, Email := u.Email, UpdatedAt := e.now }, ?_, hxid, rfl, rfl, rfl⟩
  simp [GetUserByID, hread, hfind]

/-- Example: the record of user 1 is cached, then renamed; the key `user:1` is
gone and the next `GetUser(1)` returns the renamed record. -/
theorem update_invalidates_user_cache_of_delete_witness :
    cachedUserWorld.cache.lookup (userCacheKey 1)
      = some ⟨"1|Ann|ann@example.com|10|10", timeHour⟩ ∧
    (UpdateUser (Env.ok 0 20) cachedUserWorld ⟨1, "Anna", "ann@example.com", 0, 0⟩).1 = none ∧
    (UpdateUser (Env.ok 0 20) cachedUserWorld
      ⟨1, "Anna", "ann@example.com", 0, 0⟩).2.cache.lookup (userCacheKey 1) = none ∧
    (GetUser (refUserCodec cachedUserWorld.db.users) (Env.ok 0 30)
      (UpdateUser (Env.ok 0 20) cachedUserWorld ⟨1, "Anna", "ann@example.com", 0, 0⟩).2 1).1
      = .ok ⟨1, "Anna", "ann@example.com", 10, 20⟩ :=
  have h := update_invalidates_user_cache_of_delete (refUserCodec cachedUserWorld.db.users)
    (Env.ok 0 20) (Env.ok 0 30) cachedUserWorld ⟨1, "Anna", "ann@example.com", 0, 0⟩
    (by decide) rfl
  ⟨by decide, by decide, h.1, h.2.1.trans (by rfl)⟩

end User

/-- C13. If the cache `Get` fails, whatever the `Set` does, `GetLatestRecommendation` and
`GetUser` return exactly what the repository returns (its value or its error); on a
miss the same holds whether or not the `Set` fails; and a failing `Set` never changes
what either call returns. -/
theorem C13_cache_failure_bypasses_cache (json : JsonCodec) (ujson : User.UserCodec)
    (f : Recommendation.Faults) (w : Recommendation.World) (e : User.Env) (uw : User.World)
    (id : Int) :
    (f.cacheGet = true →
      (Recommendation.GetLatestRecommendation json f w id).1
        = Recommendation.GetTopProductsByUserPreference w.db f id 5) ∧
    (w.cache.lookup (Recommendation.cacheKey id) = none →
      (Recommendation.GetLatestRecommendation json f w id).1
        = Recommendation.GetTopProductsByUserPreference w.db f id 5) ∧
    (∀ b : Bool, (Recommendation.GetLatestRecommendation json { f with cacheSet := b } w id).1
        = (Recommendation.GetLatestRecommendation json f w id).1) ∧
    (e.cacheGet = true →
      (User.GetUser ujson e uw id).1 = User.GetUserByID uw.db e.getUserByID id) ∧
    (uw.cache.lookup (User.userCacheKey id) = none →
      (User.GetUser ujson e uw id).1 = User.GetUserByID uw.db e.getUserByID id) ∧
    (∀ b : Bool, (User.GetUser ujson { e with cacheSet := b } uw id).1
        = (User.GetUser ujson e uw id).1) := by
  have hrec : ∀ (g : Recommendation.Faults),
      (RedisGet w.cache g.cacheGet (Recommendation.cacheKey id)).1 = "" →
      (Recommendation.GetLatestRecommendation json g w id).1
        = Recommendation.GetTopProductsByUserPreference w.db g id 5 := by
    intro g h
    unfold Recommendation.GetLatestRecommendation
    simp only [h, ne_eq, not_true_eq_false, and_false, if_false]
    cases Recommendation.GetTopProductsByUserPreference w.db g id 5 <;> rfl
  refine ⟨?_, ?_, ?_, ?_, ?_, ?_⟩
  · intro h
    exact hrec f (by simp [RedisGet, h])
  · intro h
    apply hrec f
    unfold RedisGet
    split_ifs
    · rfl
    · rw [h]
  · intro b
    unfold Recommendation.GetLatestRecommendation
    simp only []
    split
    · rfl
    · have : Recommendation.GetTopProductsByUserPreference w.db { f with cacheSet := b } id 5
          = Recommendation.GetTopProductsByUserPreference w.db f id 5 := rfl
      rw [this]
      cases Recommendation.GetTopProductsByUserPreference w.db f id 5 <;> rfl
  · intro h
    exact User.GetUser_of_no_cached_text ujson e uw id (by simp [RedisGet, h])
  · intro h
    apply User.GetUser_of_no_cached_text
    unfold RedisGet
    split_ifs
    · rfl
    · rw [h]
  · intro b
    unfold User.GetUser
    simp only []
    split
    · rfl
    · cases User.GetUserByID uw.db e.getUserByID id <;> rfl

/-- Witness of C13: with a failing `Get` and a failing `Set`, the call for user 1 skips the
older cached list `[99]` and returns the two `books` products of the ranking query; the
call for the cached user 1 returns the stored record. -/
theorem C13_cache_failure_bypasses_cache_witness :
    (Recommendation.GetLatestRecommendation refJson
      { Recommendation.noFaults with cacheGet := true, cacheSet := true }
      Recommendation.staleWorld 1).1 = .ok (some [43, 42]) ∧
    (User.GetUser (User.refUserCodec []) { User.Env.ok 0 0 with cacheGet := true, cacheSet := true }
      User.cachedUserWorld 1).1 = .ok ⟨1, "Ann", "ann@example.com", 10, 10⟩ :=
  have h := C13_cache_failure_bypasses_cache refJson (User.refUserCodec [])
    { Recommendation.noFaults with cacheGet := true, cacheSet := true }
    Recommendation.staleWorld { User.Env.ok 0 0 with cacheGet := true, cacheSet := true }
    User.cachedUserWorld 1
  ⟨(h.1 rfl).trans (by rfl), (h.2.2.2.1 rfl).trans (by rfl)⟩

namespace Recommendation

/-- The rows computed by the two queries satisfy the ranking of the spec. -/
theorem topProductRows_spec (db : DB) (U : Int) (n : Nat) :
    RankingSpec db U n
      (topProductRows db ((topCategoryRows db U).map (fun r => r.Category)) n) := by
  haveI : IsTotal CategoryPreference (fun a b => b.Score ≤ a.Score) :=
    ⟨fun a b => le_total b.Score a.Score⟩
  haveI : IsTrans CategoryPreference (fun a b => b.Score ≤ a.Score) :=
    ⟨fun a b c hab hbc => le_trans hbc hab⟩
  haveI : IsTotal Product (fun a b => b.UpdatedAt ≤ a.UpdatedAt) :=
    ⟨fun a b => le_total b.UpdatedAt a.UpdatedAt⟩
  haveI : IsTrans Product (fun a b => b.UpdatedAt ≤ a.UpdatedAt) :=
    ⟨fun a b c hab hbc => le_trans hbc hab⟩
  refine ⟨(db.prefs.filter (fun r => r.UserID == U)).insertionSort
      (fun a b => b.Score ≤ a.Score),
    (db.products.filter (fun p =>
      ((topCategoryRows db U).map (fun r => r.Category)).contains p.Category)).insertionSort
      (fun a b => b.UpdatedAt ≤ a.UpdatedAt), ?_, ?_, ?_, ?_, ?_⟩
  · exact List.perm_insertionSort _ _
  · exact List.sorted_insertionSort _ _
  · exact List.perm_insertionSort _ _
  · exact List.sorted_insertionSort _ _
  · simp [topProductRows]

/-- What the spec's ranking implies for the ids: at most `n` of them, each the id of a
product whose category is the category of a preference row of the user. -/
theorem RankingSpec.bounds {db : DB} {U : Int} {n : Nat} {ids : List Int}
    (h : RankingSpec db U n ids) :
    ids.length ≤ n ∧
    ∀ id ∈ ids, ∃ p ∈ db.products, p.ID = id ∧
      ∃ r ∈ db.prefs, r.UserID = U ∧ r.Category = p.Category := by
  obtain ⟨ranked, recent, hr, _, hp, _, rfl⟩ := h
  constructor
  · simp [List.length_take]
  · intro id hid
    rw [List.mem_map] at hid
    obtain ⟨p, hp1, rfl⟩ := hid
    have hp2 : p ∈ recent := List.mem_of_mem_take hp1
    have hp3 := (hp.mem_iff).mp hp2
    rw [List.mem_filter] at hp3
    obtain ⟨hpm, hc⟩ := hp3
    refine ⟨p, hpm, rfl, ?_⟩
    simp only [List.contains_eq_any_beq, List.any_eq_true, List.mem_map, beq_iff_eq] at hc
    obtain ⟨c0, ⟨r, hr1, hr2⟩, hc0⟩ := hc
    subst hc0
    have hr3 : r ∈ ranked := List.mem_of_mem_take hr1
    have hr4 := (hr.mem_iff).mp hr3
    rw [List.mem_filter] at hr4
    exact ⟨r, hr4.1, by simpa using hr4.2, hr2⟩

/-- With a scored category the first query returns at least one row. -/
theorem topCategoryRows_ne_nil (db : DB) (U : Int) (h : ∃ r ∈ db.prefs, r.UserID = U) :
    (topCategoryRows db U).length ≠ 0 := by
  obtain ⟨r, hr, hu⟩ := h
  have hmem : r ∈ db.prefs.filter (fun r => r.UserID == U) := by
    rw [List.mem_filter]
    exact ⟨hr, by simpa using hu⟩
  have hlen : 0 < (db.prefs.filter (fun r => r.UserID == U)).length :=
    List.length_pos_of_mem hmem
  have hperm := (List.perm_insertionSort (fun a b : CategoryPreference => b.Score ≤ a.Score)
    (db.prefs.filter (fun r => r.UserID == U))).length_eq
  simp only [topCategoryRows, List.length_take]
  omega

/-- C15. For a user with at least one scored category and a limit `n >= 0`, when the
store answers both queries, `GetTopProductsByUserPreference(user, n)` returns the first
`n` ids (all when fewer exist) of the products whose category is among the first 10
categories of the user by descending score, in non-increasing order of `updated_at`;
hence `GetLatestRecommendation` on a cache miss returns at most 5 ids, each of a product
in a category scored by the user, most recently updated first. -/
theorem C15_ranking_query (json : JsonCodec) (f : Faults) (w : World) (U : Int) (n : Int)
    (hscored : ∃ r ∈ w.db.prefs, r.UserID = U) (hn : 0 ≤ n)
    (hq1 : f.catQuery = none) (hq2 : f.prodQuery = none) :
    (∃ ids, GetTopProductsByUserPreference w.db f U n = .ok (sliceOfRows ids) ∧
      RankingSpec w.db U n.toNat ids) ∧
    (w.cache.lookup (cacheKey U) = none →
      ∃ ids, (GetLatestRecommendation json f w U).1 = .ok (sliceOfRows ids) ∧
        RankingSpec w.db U 5 ids ∧ ids.length ≤ 5 ∧
        ∀ id ∈ ids, ∃ p ∈ w.db.products, p.ID = id ∧
          ∃ r ∈ w.db.prefs, r.UserID = U ∧ r.Category = p.Category) := by
  have hrepo : ∀ m : Int, 0 ≤ m →
      GetTopProductsByUserPreference w.db f U m
        = .ok (sliceOfRows
            (topProductRows w.db ((topCategoryRows w.db U).map (fun r => r.Category)) m)) := by
    intro m hm
    have hne := topCategoryRows_ne_nil w.db U hscored
    simp [GetTopProductsByUserPreference, hq1, hq2, queryError, hne, not_lt.mpr hm]
  constructor
  · exact ⟨_, hrepo n hn, topProductRows_spec w.db U n.toNat⟩
  · intro hmiss
    have hget : (RedisGet w.cache f.cacheGet (cacheKey U)).1 = "" := by
      unfold RedisGet
      split_ifs
      · rfl
      · rw [hmiss]
    have hres : (GetLatestRecommendation json f w U).1
        = GetTopProductsByUserPreference w.db f U 5 := by
      unfold GetLatestRecommendation
      simp only [hget, ne_eq, not_true_eq_false, and_false, if_false]
      cases GetTopProductsByUserPreference w.db f U 5 <;> rfl
    have hspec := topProductRows_spec w.db U 5
    refine ⟨_, hres.trans (hrepo 5 (by decide)), hspec, hspec.bounds.1, hspec.bounds.2⟩

/-- Witness of C15: user 1 has scored `books`; with limit 1 the query returns the newer of
the two `books` products, and the cached read on a miss returns both, newest first. -/
theorem C15_ranking_query_witness :
    (∃ r ∈ staleWorld.db.prefs, r.UserID = 1) ∧
    GetTopProductsByUserPreference staleWorld.db noFaults 1 1 = .ok (some [43]) ∧
    (∃ ids, GetTopProductsByUserPreference staleWorld.db noFaults 1 1 = .ok (sliceOfRows ids) ∧
      RankingSpec staleWorld.db 1 1 ids) :=
  have h : ∃ r ∈ staleWorld.db.prefs, r.UserID = 1 := ⟨⟨1, "books", 7⟩, by decide, rfl⟩
  ⟨h, by rfl,
    (C15_ranking_query refJson noFaults staleWorld 1 1 h (by decide) rfl rfl).1⟩

end Recommendation

namespace Analytics

theorem counter_bump_product (k k2 : Counter) (now : Int) (r : ProductAnalytics) :
    (r.bump k now).counter k2 = r.counter k2 + (if k2 = k then 1 else 0) := by
  cases k <;> cases k2 <;> simp [ProductAnalytics.bump, ProductAnalytics.counter]

theorem counter_fresh_product (k k2 : Counter) (id pid now : Int) :
    (ProductAnalytics.fresh k id pid now).counter k2 = (if k2 = k then 1 else 0) := by
  cases k <;> cases k2 <;>
    simp [ProductAnalytics.fresh, ProductAnalytics.counter, counterDefault]

theorem counter_bump_user (k k2 : Counter) (now : Int) (r : UserAnalytics) :
    (r.bump k now).counter k2 = r.counter k2 + (if k2 = k then 1 else 0) := by
  cases k <;> cases k2 <;> simp [UserAnalytics.bump, UserAnalytics.counter]

theorem counter_fresh_user (k k2 : Counter) (id uid now : Int) :
    (UserAnalytics.fresh k id uid now).counter k2 = (if k2 = k then 1 else 0) := by
  cases k <;> cases k2 <;>
    simp [UserAnalytics.fresh, UserAnalytics.counter, counterDefault]

theorem ProductAnalytics.bump_ProductID (k : Counter) (now : Int) (r : ProductAnalytics) :
    (r.bump k now).ProductID = r.ProductID := by
  cases k <;> rfl

theorem ProductAnalytics.fresh_ProductID (k : Counter) (id pid now : Int) :
    (ProductAnalytics.fresh k id pid now).ProductID = pid := by
  cases k <;> rfl

theorem UserAnalytics.bump_UserID (k : Counter) (now : Int) (r : UserAnalytics) :
    (r.bump k now).UserID = r.UserID := by
  cases k <;> rfl

theorem UserAnalytics.fresh_UserID (k : Counter) (id uid now : Int) :
    (UserAnalytics.fresh k id uid now).UserID = uid := by
  cases k <;> rfl

/-- The row found under the key of a product upsert: the old row bumped, or the fresh
row when there was none. -/
theorem find?_upsertProduct_same (k : Counter) (rows : List ProductAnalytics)
    (pid id now : Int) :
    (upsertProduct k rows pid id now).find? (fun r => r.ProductID == pid)
      = some (match rows.find? (fun r => r.ProductID == pid) with
              | some r => r.bump k now
              | none => ProductAnalytics.fresh k id pid now) := by
  unfold upsertProduct
  cases h : rows.any (fun r => r.ProductID == pid)
  · rw [if_neg (by simp), Recommendation.find?_append_of_any_false _ _ _ h,
      Recommendation.find?_eq_none_of_any_false _ _ h]
    simp [ProductAnalytics.fresh_ProductID]
  · obtain ⟨x, hx⟩ := Recommendation.find?_isSome_of_any _ _ h
    rw [if_pos rfl, find?_map_if (fun r : ProductAnalytics => r.ProductID == pid)
      (fun r => r.bump k now) (fun r hr => by simpa [ProductAnalytics.bump_ProductID] using hr),
      hx]
    rfl

/-- A product upsert leaves the row found under every other key unchanged. -/
theorem find?_upsertProduct_other (k : Counter) (rows : List ProductAnalytics)
    (pid pid2 id now : Int) (hne : pid2 ≠ pid) :
    (upsertProduct k rows pid id now).find? (fun r => r.ProductID == pid2)
      = rows.find? (fun r => r.ProductID == pid2) := by
  unfold upsertProduct
  cases h : rows.any (fun r => r.ProductID == pid)
  · rw [if_neg (by simp), List.find?_append, List.find?_singleton]
    have : ((ProductAnalytics.fresh k id pid now).ProductID == pid2) = false := by
      rw [ProductAnalytics.fresh_ProductID]
      simpa using fun e : pid = pid2 => hne e.symm
    simp [this]
  · rw [if_pos rfl]
    apply find?_map_if_other
    · intro r hr
      simp only [beq_iff_eq] at hr
      simpa [hr] using fun e : pid = pid2 => hne e.symm
    · intro r hr
      simp only [beq_iff_eq] at hr
      rw [ProductAnalytics.bump_ProductID]
      simpa [hr] using fun e : pid = pid2 => hne e.symm

/-- The row found under the key of a user upsert. -/
theorem find?_upsertUser_same (k : Counter) (rows : List UserAnalytics) (uid id now : Int) :
    (upsertUser k rows uid id now).find? (fun r => r.UserID == uid)
      = some (match rows.find? (fun r => r.UserID == uid) with
              | some r => r.bump k now
              | none => UserAnalytics.fresh k id uid now) := by
  unfold upsertUser
  cases h : rows.any (fun r => r.UserID == uid)
  · rw [if_neg (by simp), Recommendation.find?_append_of_any_false _ _ _ h,
      Recommendation.find?_eq_none_of_any_false _ _ h]
    simp [UserAnalytics.fresh_UserID]
  · obtain ⟨x, hx⟩ := Recommendation.find?_isSome_of_any _ _ h
    rw [if_pos rfl, find?_map_if (fun r : UserAnalytics => r.UserID == uid)
      (fun r => r.bump k now) (fun r hr => by simpa [UserAnalytics.bump_UserID] using hr), hx]
    rfl

/-- A user upsert leaves the row found under every other key unchanged. -/
theorem find?_upsertUser_other (k : Counter) (rows : List UserAnalytics)
    (uid uid2 id now : Int) (hne : uid2 ≠ uid) :
    (upsertUser k rows uid id now).find? (fun r => r.UserID == uid2)
      = rows.find? (fun r => r.UserID == uid2) := by
  unfold upsertUser
  cases h : rows.any (fun r => r.UserID == uid)
  · rw [if_neg (by simp), List.find?_append, List.find?_singleton]
    have : ((UserAnalytics.fresh k id uid now).UserID == uid2) = false := by
      rw [UserAnalytics.fresh_UserID]
      simpa using fun e : uid = uid2 => hne e.symm
    simp [this]
  · rw [if_pos rfl]
    apply find?_map_if_other
    · intro r hr
      simp only [beq_iff_eq] at hr
      simpa [hr] using fun e : uid = uid2 => hne e.symm
    · intro r hr
      simp only [beq_iff_eq] at hr
      rw [UserAnalytics.bump_UserID]
      simpa [hr] using fun e : uid = uid2 => hne e.symm

/-- A product upsert adds one to the counter it names under its key and nothing else. -/
theorem productCounter_upsert (db : DB) (k k2 : Counter) (pid pid2 id now : Int) :
    productCounter { db with products := upsertProduct k db.products pid id now } pid2 k2
      = productCounter db pid2 k2 + (if pid2 = pid ∧ k2 = k then 1 else 0) := by
  by_cases hp : pid2 = pid
  · subst hp
    simp only [productCounter, findProduct, find?_upsertProduct_same, true_and]
    cases db.products.find? (fun r => r.ProductID == pid2) with
    | none => simp [counter_fresh_product]
    | some r => simp [counter_bump_product]
  · simp only [productCounter, findProduct, find?_upsertProduct_other _ _ _ _ _ _ hp, hp,
      false_and, if_false, add_zero]

/-- A user upsert adds one to the counter it names under its key and nothing else. -/
theorem userCounter_upsert (db : DB) (k k2 : Counter) (uid uid2 id now : Int) :
    userCounter { db with users := upsertUser k db.users uid id now } uid2 k2
      = userCounter db uid2 k2 + (if uid2 = uid ∧ k2 = k then 1 else 0) := by
  by_cases hp : uid2 = uid
  · subst hp
    simp only [userCounter, findUser, find?_upsertUser_same, true_and]
    cases db.users.find? (fun r => r.UserID == uid2) with
    | none => simp [counter_fresh_user]
    | some r => simp [counter_bump_user]
  · simp only [userCounter, findUser, find?_upsertUser_other _ _ _ _ _ _ hp, hp,
      false_and, if_false, add_zero]

/-- One executed upsert-increment adds one to its own counter of its own key, and leaves
every other counter of every product and user unchanged. -/
theorem counters_applyOp (e : Env) (db : DB) (op : Op)
    (h1 : e.incrementProduct = false) (h2 : e.incrementUser = false) (id : Int) (k : Counter) :
    productCounter (applyOp e db op) id k
      = productCounter db id k + (if op = .product k id then 1 else 0) ∧
    userCounter (applyOp e db op) id k
      = userCounter db id k + (if op = .user k id then 1 else 0) := by
  cases op with
  | product k0 pid =>
    have hu : ∀ rows, userCounter { db with products := rows } id k = userCounter db id k :=
      fun _ => rfl
    have hc := productCounter_upsert db k0 k pid id e.newProductRowID e.now
    have hiff : (Op.product k0 pid = Op.product k id) ↔ (id = pid ∧ k = k0) := by
      constructor
      · intro h
        cases h
        exact ⟨rfl, rfl⟩
      · rintro ⟨rfl, rfl⟩
        rfl
    cases k0 <;>
      simp [applyOp, IncrementProductLikes, IncrementProductDislikes,
        IncrementProductPurchases, h1, hu, hc, hiff]
  | user k0 uid =>
    have hp : ∀ rows, productCounter { db with users := rows } id k = productCounter db id k :=
      fun _ => rfl
    have hc := userCounter_upsert db k0 k uid id e.newUserRowID e.now
    have hiff : (Op.user k0 uid = Op.user k id) ↔ (id = uid ∧ k = k0) := by
      constructor
      · intro h
        cases h
        exact ⟨rfl, rfl⟩
      · rintro ⟨rfl, rfl⟩
        rfl
    cases k0 <;>
      simp [applyOp, IncrementUserLikes, IncrementUserDislikes,
        IncrementUserPurchases, h2, hp, hc, hiff]

end Analytics

namespace Analytics

/-- What the consumer does to the store: nothing, or the product increment followed by
the user increment of one counter. -/
theorem ProcessKafkaMessage_steps (e : Env) (db : DB) (m : KafkaMessage) :
    (ProcessKafkaMessage e db m).2 = db ∨
    ∃ (k : Counter) (U P : Int),
      (ProcessKafkaMessage e db m).2 = applyOp e (applyOp e db (.product k P)) (.user k U) := by
  obtain ⟨v⟩ := m
  cases v with
  | none => exact Or.inl rfl
  | some msg =>
    simp only [ProcessKafkaMessage]
    split
    · rename_i event hev
      cases hx : parseUserAndProductID msg with
      | error err => split_ifs <;> exact Or.inl rfl
      | ok up =>
        obtain ⟨U, P⟩ := up
        split_ifs
        · exact Or.inr ⟨.likes, U, P, rfl⟩
        · exact Or.inr ⟨.dislikes, U, P, rfl⟩
        · exact Or.inr ⟨.purchases, U, P, rfl⟩
        · exact Or.inl rfl
        · exact Or.inl rfl
        · exact Or.inl rfl
    · exact Or.inl rfl

/-- The consumer on an interaction message with two numeric ids. -/
theorem ProcessKafkaMessage_interaction (e : Env) (db : DB) (msg : Msg) (event : String)
    (k : Counter) (uf pf : Float64)
    (hev : msg.lookup "event" = some (.string event))
    (hkind : (event = "user_liked" ∧ k = .likes) ∨ (event = "user_disliked" ∧ k = .dislikes) ∨
      (event = "user_purchased" ∧ k = .purchases))
    (hu : msg.lookup "user_id" = some (.number uf))
    (hp : msg.lookup "product_id" = some (.number pf)) :
    ProcessKafkaMessage e db ⟨some msg⟩
      = (none, applyOp e (applyOp e db (.product k pf.toInt64)) (.user k uf.toInt64)) := by
  have hx : parseUserAndProductID msg = .ok (uf.toInt64, pf.toInt64) := by
    simp [parseUserAndProductID, hu, hp]
  rcases hkind with ⟨h1, h2⟩ | ⟨h1, h2⟩ | ⟨h1, h2⟩ <;> subst h1 <;> subst h2 <;>
    simp [ProcessKafkaMessage, hev, hx, applyOp]

/-- An upsert-increment, executed or refused, never lowers a counter. -/
theorem counters_applyOp_mono (e : Env) (db : DB) (op : Op) (id : Int) (k : Counter) :
    productCounter db id k ≤ productCounter (applyOp e db op) id k ∧
    userCounter db id k ≤ userCounter (applyOp e db op) id k := by
  cases op with
  | product k0 pid =>
    cases h1 : e.incrementProduct
    · have hu : ∀ rows, userCounter { db with products := rows } id k = userCounter db id k :=
        fun _ => rfl
      have hc := productCounter_upsert db k0 k pid id e.newProductRowID e.now
      cases k0 <;>
        simp only [applyOp, IncrementProductLikes, IncrementProductDislikes,
          IncrementProductPurchases, h1, Bool.false_eq_true, if_false, hu, hc] <;>
        constructor <;> first | exact le_refl _ | (split_ifs <;> omega)
    · cases k0 <;>
        simp [applyOp, IncrementProductLikes, IncrementProductDislikes,
          IncrementProductPurchases, h1]
  | user k0 uid =>
    cases h2 : e.incrementUser
    · have hp : ∀ rows, productCounter { db with users := rows } id k = productCounter db id k :=
        fun _ => rfl
      have hc := userCounter_upsert db k0 k uid id e.newUserRowID e.now
      cases k0 <;>
        simp only [applyOp, IncrementUserLikes, IncrementUserDislikes,
          IncrementUserPurchases, h2, Bool.false_eq_true, if_false, hp, hc] <;>
        constructor <;> first | exact le_refl _ | (split_ifs <;> omega)
    · cases k0 <;>
        simp [applyOp, IncrementUserLikes, IncrementUserDislikes,
          IncrementUserPurchases, h2]

/-- For a `user_liked` (`user_disliked`, `user_purchased`) message with numeric
`user_id` and `product_id`, the ids being those that `int64(...)` gives, when the store accepts both writes, the analytics
`ProcessKafkaMessage` returns nil, raises the likes (dislikes, purchases) counter of
product P and of user U by exactly 1, both rows existing afterwards, and changes no other
counter of any product or user. No run of the consumer, in any environment, lowers a
counter. -/
theorem interaction_increments_counters_by_toInt64 (e : Env) (db : DB) (msg : Msg) (event : String)
    (k : Counter) (uf pf : Float64)
    (hev : msg.lookup "event" = some (.string event))
    (hkind : (event = "user_liked" ∧ k = .likes) ∨ (event = "user_disliked" ∧ k = .dislikes) ∨
      (event = "user_purchased" ∧ k = .purchases))
    (hu : msg.lookup "user_id" = some (.number uf))
    (hp : msg.lookup "product_id" = some (.number pf))
    (h1 : e.incrementProduct = false) (h2 : e.incrementUser = false) :
    (ProcessKafkaMessage e db ⟨some msg⟩).1 = none ∧
    (∀ (id : Int) (k2 : Counter),
      productCounter (ProcessKafkaMessage e db ⟨some msg⟩).2 id k2
        = productCounter db id k2 + (if id = pf.toInt64 ∧ k2 = k then 1 else 0)) ∧
    (∀ (id : Int) (k2 : Counter),
      userCounter (ProcessKafkaMessage e db ⟨some msg⟩).2 id k2
        = userCounter db id k2 + (if id = uf.toInt64 ∧ k2 = k then 1 else 0)) ∧
    (findProduct (ProcessKafkaMessage e db ⟨some msg⟩).2 pf.toInt64).isSome = true ∧
    (findUser (ProcessKafkaMessage e db ⟨some msg⟩).2 uf.toInt64).isSome = true ∧
    (∀ (e2 : Env) (db2 : DB) (m2 : KafkaMessage) (id : Int) (k2 : Counter),
      productCounter db2 id k2 ≤ productCounter (ProcessKafkaMessage e2 db2 m2).2 id k2 ∧
      userCounter db2 id k2 ≤ userCounter (ProcessKafkaMessage e2 db2 m2).2 id k2) := by
  rw [ProcessKafkaMessage_interaction e db msg event k uf pf hev hkind hu hp]
  have hpiff : ∀ (id : Int) (k2 : Counter),
      (Op.product k pf.toInt64 = Op.product k2 id) ↔ (id = pf.toInt64 ∧ k2 = k) := by
    intro id k2
    constructor
    · intro h
      cases h
      exact ⟨rfl, rfl⟩
    · rintro ⟨rfl, rfl⟩
      rfl
  have huiff : ∀ (id : Int) (k2 : Counter),
      (Op.user k uf.toInt64 = Op.user k2 id) ↔ (id = uf.toInt64 ∧ k2 = k) := by
    intro id k2
    constructor
    · intro h
      cases h
      exact ⟨rfl, rfl⟩
    · rintro ⟨rfl, rfl⟩
      rfl
  refine ⟨rfl, ?_, ?_, ?_, ?_, ?_⟩
  · intro id k2
    rw [(counters_applyOp e _ (.user k uf.toInt64) h1 h2 id k2).1,
      (counters_applyOp e db (.product k pf.toInt64) h1 h2 id k2).1]
    simp [hpiff]
  · intro id k2
    rw [(counters_applyOp e _ (.user k uf.toInt64) h1 h2 id k2).2,
      (counters_applyOp e db (.product k pf.toInt64) h1 h2 id k2).2]
    simp [huiff]
  · cases k <;>
      simp [applyOp, IncrementProductLikes, IncrementProductDislikes, IncrementProductPurchases,
        IncrementUserLikes, IncrementUserDislikes, IncrementUserPurchases, h1, h2, findProduct,
        find?_upsertProduct_same]
  · cases k <;>
      simp [applyOp, IncrementProductLikes, IncrementProductDislikes, IncrementProductPurchases,
        IncrementUserLikes, IncrementUserDislikes, IncrementUserPurchases, h1, h2, findUser,
        find?_upsertUser_same]
  · intro e2 db2 m2 id k2
    rcases ProcessKafkaMessage_steps e2 db2 m2 with h | ⟨k3, U, P, h⟩
    · rw [h]
      exact ⟨le_refl _, le_refl _⟩
    · rw [h]
      have a := counters_applyOp_mono e2 db2 (.product k3 P) id k2
      have b := counters_applyOp_mono e2 (applyOp e2 db2 (.product k3 P)) (.user k3 U) id k2
      exact ⟨le_trans a.1 b.1, le_trans a.2 b.2⟩

/-- Example: user 1 likes product 42 in an empty analytics store; both rows are
created with the likes counter at 1. -/
theorem interaction_increments_counters_by_toInt64_witness :
    (ProcessKafkaMessage (Env.ok 100 1 1) ⟨[], []⟩
      ⟨some [("event", .string "user_liked"), ("user_id", .number (.ofInt 1)),
        ("product_id", .number (.ofInt 42))]⟩).2
      = ⟨[⟨1, 42, 1, 0, 0, 100⟩], [⟨1, 1, 1, 0, 0, 100⟩]⟩ ∧
    productCounter (ProcessKafkaMessage (Env.ok 100 1 1) ⟨[], []⟩
      ⟨some [("event", .string "user_liked"), ("user_id", .number (.ofInt 1)),
        ("product_id", .number (.ofInt 42))]⟩).2 42 .likes = 1 :=
  have h := interaction_increments_counters_by_toInt64 (Env.ok 100 1 1) ⟨[], []⟩
    [("event", .string "user_liked"), ("user_id", .number (.ofInt 1)),
      ("product_id", .number (.ofInt 42))] "user_liked" .likes (.ofInt 1) (.ofInt 42)
    rfl (Or.inl ⟨rfl, rfl⟩) rfl rfl rfl rfl
  ⟨by rfl, (h.2.1 42 .likes).trans (by decide)⟩

/-- After a schedule of executed upsert-increments a counter has grown by the number of
steps that are its own increment. -/
theorem counters_applyAll (steps : List (Env × Op)) (db : DB)
    (hfree : ∀ s ∈ steps, s.1.incrementProduct = false ∧ s.1.incrementUser = false)
    (id : Int) (k : Counter) :
    productCounter (applyAll db steps) id k
      = productCounter db id k + ((steps.filter (fun s => s.2 == Op.product k id)).length : Int) ∧
    userCounter (applyAll db steps) id k
      = userCounter db id k + ((steps.filter (fun s => s.2 == Op.user k id)).length : Int) := by
  induction steps generalizing db with
  | nil => simp [applyAll]
  | cons s steps ih =>
    have hs := hfree s (List.mem_cons_self _ _)
    have ih2 := ih (applyOp s.1 db s.2) (fun t ht => hfree t (List.mem_cons_of_mem _ ht))
    have hstep := counters_applyOp s.1 db s.2 hs.1 hs.2 id k
    simp only [applyAll, List.foldl_cons] at ih2 ⊢
    rw [ih2.1, ih2.2, hstep.1, hstep.2]
    simp only [List.filter_cons, beq_iff_eq]
    constructor <;> split_ifs <;> simp <;> ring

/-- C17. For a key without analytics row: after any schedule of executed
upsert-increments (each one atomic store step; the schedule may interleave increments of
other counters and keys) a counter of the key equals the number of its own increments in
the schedule, so `N` applications of the same increment leave exactly `N`; the first
application creates the row, with that counter at 1 and the other counters at zero. -/
theorem C17_upsert_increment_counts (db : DB) (id : Int) (k : Counter)
    (steps : List (Env × Op))
    (hfree : ∀ s ∈ steps, s.1.incrementProduct = false ∧ s.1.incrementUser = false) :
    (findProduct db id = none →
      productCounter (applyAll db steps) id k
        = ((steps.filter (fun s => s.2 == Op.product k id)).length : Int) ∧
      (∀ (N : Nat) (e : Env), e.incrementProduct = false → e.incrementUser = false →
        productCounter (applyAll db (List.replicate N (e, Op.product k id))) id k = N) ∧
      (∀ e : Env, e.incrementProduct = false →
        findProduct (applyOp e db (.product k id)) id
          = some (ProductAnalytics.fresh k e.newProductRowID id e.now))) ∧
    (findUser db id = none →
      userCounter (applyAll db steps) id k
        = ((steps.filter (fun s => s.2 == Op.user k id)).length : Int) ∧
      (∀ (N : Nat) (e : Env), e.incrementProduct = false → e.incrementUser = false →
        userCounter (applyAll db (List.replicate N (e, Op.user k id))) id k = N) ∧
      (∀ e : Env, e.incrementUser = false →
        findUser (applyOp e db (.user k id)) id
          = some (UserAnalytics.fresh k e.newUserRowID id e.now))) ∧
    (∀ (k2 : Counter) (rowID now : Int),
      (ProductAnalytics.fresh k rowID id now).counter k2 = (if k2 = k then 1 else 0) ∧
      (UserAnalytics.fresh k rowID id now).counter k2 = (if k2 = k then 1 else 0)) := by
  refine ⟨?_, ?_, ?_⟩
  · intro hno
    have h0 : productCounter db id k = 0 := by simp [productCounter, hno]
    refine ⟨?_, ?_, ?_⟩
    · rw [(counters_applyAll steps db hfree id k).1, h0, zero_add]
    · intro N e he1 he2
      have hN : ∀ s ∈ List.replicate N (e, Op.product k id),
          s.1.incrementProduct = false ∧ s.1.incrementUser = false := by
        intro s hs
        rw [List.eq_of_mem_replicate hs]
        exact ⟨he1, he2⟩
      rw [(counters_applyAll _ db hN id k).1, h0, zero_add]
      have : (List.replicate N (e, Op.product k id)).filter
          (fun s => s.2 == Op.product k id) = List.replicate N (e, Op.product k id) := by
        rw [List.filter_eq_self]
        intro s hs
        rw [List.eq_of_mem_replicate hs]
        simp
      rw [this, List.length_replicate]
    · intro e he
      have hno2 : db.products.find? (fun r => r.ProductID == id) = none := hno
      cases k <;>
        simp [applyOp, IncrementProductLikes, IncrementProductDislikes,
          IncrementProductPurchases, he, findProduct, find?_upsertProduct_same, hno2]
  · intro hno
    have h0 : userCounter db id k = 0 := by simp [userCounter, hno]
    refine ⟨?_, ?_, ?_⟩
    · rw [(counters_applyAll steps db hfree id k).2, h0, zero_add]
    · intro N e he1 he2
      have hN : ∀ s ∈ List.replicate N (e, Op.user k id),
          s.1.incrementProduct = false ∧ s.1.incrementUser = false := by
        intro s hs
        rw [List.eq_of_mem_replicate hs]
        exact ⟨he1, he2⟩
      rw [(counters_applyAll _ db hN id k).2, h0, zero_add]
      have : (List.replicate N (e, Op.user k id)).filter
          (fun s => s.2 == Op.user k id) = List.replicate N (e, Op.user k id) := by
        rw [List.filter_eq_self]
        intro s hs
        rw [List.eq_of_mem_replicate hs]
        simp
      rw [this, List.length_replicate]
    · intro e he
      have hno2 : db.users.find? (fun r => r.UserID == id) = none := hno
      cases k <;>
        simp [applyOp, IncrementUserLikes, IncrementUserDislikes,
          IncrementUserPurchases, he, findUser, find?_upsertUser_same, hno2]
  · intro k2 rowID now
    exact ⟨counter_fresh_product _ _ _ _ _, counter_fresh_user _ _ _ _ _⟩

/-- Witness of C17: three likes of product 42, interleaved with a dislike of product 42 and
a like of product 7, from the empty store: the likes counter of product 42 is 3. -/
theorem C17_upsert_increment_counts_witness :
    findProduct ⟨[], []⟩ 42 = none ∧
    applyAll ⟨[], []⟩
      [(Env.ok 1 1 1, .product .likes 42), (Env.ok 2 2 2, .product .dislikes 42),
        (Env.ok 3 3 3, .product .likes 42), (Env.ok 4 4 4, .product .likes 7),
        (Env.ok 5 5 5, .product .likes 42)]
      = ⟨[⟨1, 42, 3, 1, 0, 5⟩, ⟨4, 7, 1, 0, 0, 4⟩], []⟩ ∧
    productCounter (applyAll ⟨[], []⟩
      [(Env.ok 1 1 1, .product .likes 42), (Env.ok 2 2 2, .product .dislikes 42),
        (Env.ok 3 3 3, .product .likes 42), (Env.ok 4 4 4, .product .likes 7),
        (Env.ok 5 5 5, .product .likes 42)]) 42 .likes = 3 :=
  have hfree : ∀ s ∈ [(Env.ok 1 1 1, Op.product .likes 42), (Env.ok 2 2 2, .product .dislikes 42),
      (Env.ok 3 3 3, .product .likes 42), (Env.ok 4 4 4, .product .likes 7),
      (Env.ok 5 5 5, .product .likes 42)],
      s.1.incrementProduct = false ∧ s.1.incrementUser = false := by
    intro s hs
    simp only [List.mem_cons, List.mem_singleton, List.not_mem_nil, or_false] at hs
    rcases hs with h | h | h | h | h <;> subst h <;> exact ⟨rfl, rfl⟩
  ⟨rfl, by decide,
    (((C17_upsert_increment_counts ⟨[], []⟩ 42 .likes _ hfree).1 rfl).1).trans (by decide)⟩

end Analytics

namespace SSO

/-- C18. `LoginUser` with an email that has no user record, and `LoginUser` with an
existing email whose stored hash does not verify the password, both return the empty
token with `ErrInvalidCredentials`; the HTTP handler, for requests that pass its
validation of the two fields, answers both with status 401 and the same body. -/
theorem C18_login_failures_look_alike (bcrypt : Bcrypt) (jwt : Jwt) (jwtKey : String)
    (e1 e2 : Env) (db : DB) (r1 r2 : LoginRequest) (u : UserSSO)
    (hnone : ∀ x ∈ db.users, x.Email ≠ r1.Email)
    (hsome : db.users.find? (fun x => x.Email == r2.Email) = some u)
    (hwrong : bcrypt.CompareHashAndPassword u.PasswordHash r2.Password = false) :
    LoginUser bcrypt jwt jwtKey e1 db r1 = ("", some .ErrInvalidCredentials) ∧
    LoginUser bcrypt jwt jwtKey e2 db r2 = ("", some .ErrInvalidCredentials) ∧
    (r1.Email ≠ "" → r1.Password ≠ "" → r2.Email ≠ "" → r2.Password ≠ "" →
      Handler.LoginUser bcrypt jwt jwtKey e1 db (some r1)
        = ⟨401, .error "Invalid email or password"⟩ ∧
      Handler.LoginUser bcrypt jwt jwtKey e2 db (some r2)
        = ⟨401, .error "Invalid email or password"⟩) := by
  have h1 : LoginUser bcrypt jwt jwtKey e1 db r1 = ("", some .ErrInvalidCredentials) := by
    have hf : db.users.find? (fun x => x.Email == r1.Email) = none := by
      rw [List.find?_eq_none]
      intro x hx
      simpa using hnone x hx
    unfold LoginUser GetUserByEmail
    split_ifs
    · rfl
    · rw [hf]
  have h2 : LoginUser bcrypt jwt jwtKey e2 db r2 = ("", some .ErrInvalidCredentials) := by
    unfold LoginUser GetUserByEmail
    split_ifs
    · rfl
    · rw [hsome]
      simp [verifyPassword, hwrong]
  refine ⟨h1, h2, ?_⟩
  intro a b c d
  constructor
  · simp [Handler.LoginUser, a, b, h1]
  · simp [Handler.LoginUser, c, d, h2]

end SSO

namespace SSO

/-- Witness of C18: Bob has no record and Ann's password is wrong; both logins return the
empty token with `ErrInvalidCredentials` and the handler answers 401 with one body. -/
theorem C18_login_failures_look_alike_witness :
    (∀ x ∈ annDB.users, x.Email ≠ "bob@example.com") ∧
    refBcrypt.CompareHashAndPassword "$2a$10$abcdefghijklmnopqrstuvsecret" "guess" = false ∧
    LoginUser refBcrypt refJwt "k3y" boundaryEnv annDB ⟨"bob@example.com", "secret"⟩
      = ("", some .ErrInvalidCredentials) ∧
    LoginUser refBcrypt refJwt "k3y" boundaryEnv annDB ⟨"ann@example.com", "guess"⟩
      = ("", some .ErrInvalidCredentials) ∧
    Handler.LoginUser refBcrypt refJwt "k3y" boundaryEnv annDB
      (some ⟨"bob@example.com", "secret"⟩)
      = Handler.LoginUser refBcrypt refJwt "k3y" boundaryEnv annDB
        (some ⟨"ann@example.com", "guess"⟩) :=
  have hnone : ∀ x ∈ annDB.users, x.Email ≠ "bob@example.com" := by
    intro x hx
    simp only [annDB, List.mem_singleton] at hx
    subst hx
    decide
  have h := C18_login_failures_look_alike refBcrypt refJwt "k3y" boundaryEnv boundaryEnv annDB
    ⟨"bob@example.com", "secret"⟩ ⟨"ann@example.com", "guess"⟩
    ⟨1, "Ann", "ann@example.com", "$2a$10$abcdefghijklmnopqrstuvsecret", 50, 50⟩
    hnone (by decide) (by decide)
  have hh := h.2.2 (by decide) (by decide) (by decide) (by decide)
  ⟨hnone, by decide, h.1, h.2.1, hh.1.trans hh.2.symm⟩

/-- The expiry is the first clock reading, truncated to the second, plus 24 hours. -/
theorem NewNumericDate_add_day (t : Int) :
    NewNumericDate (t + 24 * timeHour) = NewNumericDate t + 24 * timeHour := by
  simp only [NewNumericDate, timeHour, timeSecond]
  omega

/-- C19 (the code at the failing input). The claims take the expiry from a first reading
of the clock and the issue date from a second one, so expiry minus issue date is 24
hours plus the difference of the two readings truncated to the second. In the run: Ann
registers with the password `secret`, the stored and returned `PasswordHash` is the hash
and not `secret`; she logs in while the clock passes from second 0 to second 1 between
the two readings; the login returns without error the token signed with the key, with
subject `1`, expiry 86400 s and issue date 1 s: the expiry is 23 h 59 min 59 s after the
issue date, not 24 hours. -/
theorem C19_token_lifetime_across_second_boundary :
    (∀ (e : Env) (user : UserSSO),
      (jwtClaims e user).ExpiresAt - (jwtClaims e user).IssuedAt
        = 24 * timeHour + (NewNumericDate e.clock1 - NewNumericDate e.clock2)) ∧
    (RegisterUser refBcrypt registerEnv ⟨⟨[]⟩, []⟩ ⟨"Ann", "ann@example.com", "secret"⟩).1
      = .ok ⟨1, "Ann", "ann@example.com", "$2a$10$abcdefghijklmnopqrstuvsecret", 50, 50⟩ ∧
    (RegisterUser refBcrypt registerEnv ⟨⟨[]⟩, []⟩ ⟨"Ann", "ann@example.com", "secret"⟩).2.db
      = annDB ∧
    refBcrypt.CompareHashAndPassword "$2a$10$abcdefghijklmnopqrstuvsecret" "secret" = true ∧
    LoginUser refBcrypt refJwt "k3y" boundaryEnv
      (RegisterUser refBcrypt registerEnv ⟨⟨[]⟩, []⟩ ⟨"Ann", "ann@example.com", "secret"⟩).2.db
      ⟨"ann@example.com", "secret"⟩
      = ("HS256.1.86400000000000.1000000000.k3y", none) ∧
    jwtClaims boundaryEnv
      ⟨1, "Ann", "ann@example.com", "$2a$10$abcdefghijklmnopqrstuvsecret", 50, 50⟩
      = ⟨"1", 86400 * timeSecond, 1 * timeSecond⟩ ∧
    (86400 * timeSecond - 1 * timeSecond = 24 * timeHour - timeSecond ∧
      86400 * timeSecond - 1 * timeSecond ≠ 24 * timeHour) := by
  refine ⟨?_, by rfl, by decide, by decide, by decide, by decide, by decide⟩
  intro e user
  simp only [jwtClaims, NewNumericDate_add_day]
  ring

end SSO

/-! ## Publish failures -/

/-- Counterexample to C20 as stated: from the empty store user 1 likes product 42, the
insert succeeds and the publish fails; the like stays in the store and `LikeProduct`
returns the publish error to its caller. -/
theorem C20_counterexample :
    (User.LikeProduct { User.Env.ok 8 200 with publish := true }
      ⟨⟨[], [], [], []⟩, [], [], []⟩ 1 42).1 = some .publish ∧
    (User.LikeProduct { User.Env.ok 8 200 with publish := true }
      ⟨⟨[], [], [], []⟩, [], [], []⟩ 1 42).2.db.likes = [⟨8, 1, 42, 200⟩] ∧
    (User.LikeProduct { User.Env.ok 8 200 with publish := true }
      ⟨⟨[], [], [], []⟩, [], [], []⟩ 1 42).1 ≠ none := by
  decide

/-- C20 (amended). For `LikeProduct`, `DislikeProduct`, `PurchaseProduct`, `UpdateUser` of
the user service and `CreateProduct`, `UpdateProduct`, `DeleteProduct` of the product
service: when the repository write succeeds and publishing the marshalled event fails,
the write stays in the store, nothing is added to the outbox, and the operation returns
the publish error to its caller. -/
theorem C20_publish_failure_is_returned (e : User.Env) (w : User.World) (u p : Int)
    (user : User.UserRow) (pe : Product.Env) (pw : Product.World)
    (product : Product.ProductRow) (id : Int)
    (hm : e.marshal = false) (hp : e.publish = true)
    (hpm : pe.marshal = false) (hpp : pe.publish = true) :
    (e.removeDislike = false → ¬ (e.likeExists = false ∧ User.hasLike w.db u p = true) →
      e.createLike = false →
      (User.LikeProduct e w u p).1 = some .publish ∧
      (User.LikeProduct e w u p).2.db
        = (User.CreateLike (User.RemoveDislikeByUserAndProduct w.db false u p).2 false
            e.newID e.now ⟨0, u, p, 0⟩).2.2 ∧
      (User.LikeProduct e w u p).2.outbox = w.outbox) ∧
    (e.removeLike = false → ¬ (e.dislikeExists = false ∧ User.hasDislike w.db u p = true) →
      e.createDislike = false →
      (User.DislikeProduct e w u p).1 = some .publish ∧
      (User.DislikeProduct e w u p).2.db
        = (User.CreateDislike (User.RemoveLikeByUserAndProduct w.db false u p).2 false
            e.newID e.now ⟨0, u, p, 0⟩).2.2 ∧
      (User.DislikeProduct e w u p).2.outbox = w.outbox) ∧
    (e.createPurchase = false →
      (User.PurchaseProduct e w u p).1 = some .publish ∧
      (User.PurchaseProduct e w u p).2.db
        = { w.db with purchases := w.db.purchases ++ [⟨e.newID, u, p, e.now⟩] } ∧
      (User.PurchaseProduct e w u p).2.outbox = w.outbox) ∧
    ((User.Repository.UpdateUser w.db e.updateUser e.now user).1 = none →
      (User.UpdateUser e w user).1 = some .publish ∧
      (User.UpdateUser e w user).2.db
        = (User.Repository.UpdateUser w.db e.updateUser e.now user).2.2 ∧
      (User.UpdateUser e w user).2.outbox = w.outbox) ∧
    ((Product.Repository.CreateProduct pw.db pe.createProduct pe.newID pe.now product).1 = none →
      (Product.CreateProduct pe pw product).1 = some .publish ∧
      (Product.CreateProduct pe pw product).2.db
        = (Product.Repository.CreateProduct pw.db pe.createProduct pe.newID pe.now product).2.2 ∧
      (Product.CreateProduct pe pw product).2.outbox = pw.outbox) ∧
    ((Product.Repository.UpdateProduct pw.db pe.updateProduct pe.now product).1 = none →
      (Product.UpdateProduct pe pw product).1 = some .publish ∧
      (Product.UpdateProduct pe pw product).2.db
        = (Product.Repository.UpdateProduct pw.db pe.updateProduct pe.now product).2.2 ∧
      (Product.UpdateProduct pe pw product).2.outbox = pw.outbox) ∧
    ((Product.Repository.DeleteProduct pw.db pe.deleteProduct id).1 = none →
      (Product.DeleteProduct pe pw id).1 = some .publish ∧
      (Product.DeleteProduct pe pw id).2.db
        = (Product.Repository.DeleteProduct pw.db pe.deleteProduct id).2 ∧
      (Product.DeleteProduct pe pw id).2.outbox = pw.outbox) := by
  have hpub : ∀ (w2 : User.World) (msg : List (String × User.PVal)),
      User.publishMessage e w2 msg = (some .publish, w2) := by
    intro w2 msg
    simp [User.publishMessage, hm, hp]
  have hppub : ∀ (w2 : Product.World) (msg : List (String × Product.PVal)),
      Product.publishMessage pe w2 msg = (some .publish, w2) := by
    intro w2 msg
    simp [Product.publishMessage, hpm, hpp]
  refine ⟨?_, ?_, ?_, ?_, ?_, ?_, ?_⟩
  · intro h1 h2 h3
    rw [User.LikeProduct_eq, if_neg (by simp [h1]), if_neg h2, if_neg (by simp [h3]), hpub]
    exact ⟨rfl, rfl, rfl⟩
  · intro h1 h2 h3
    rw [User.DislikeProduct_eq, if_neg (by simp [h1]), if_neg h2, if_neg (by simp [h3]), hpub]
    exact ⟨rfl, rfl, rfl⟩
  · intro h1
    simp [User.PurchaseProduct, User.CreatePurchase, h1, hpub, User.World.commit]
  · intro h1
    unfold User.UpdateUser
    revert h1
    cases hr : User.Repository.UpdateUser w.db e.updateUser e.now user with
    | mk err rest =>
      obtain ⟨user1, db1⟩ := rest
      intro h1
      simp only at h1
      subst h1
      simp [hpub, User.World.commit]
  · intro h1
    unfold Product.CreateProduct
    revert h1
    cases hr : Product.Repository.CreateProduct pw.db pe.createProduct pe.newID pe.now product with
    | mk err rest =>
      obtain ⟨p1, db1⟩ := rest
      intro h1
      simp only at h1
      subst h1
      simp [hppub]
  · intro h1
    unfold Product.UpdateProduct
    revert h1
    cases hr : Product.Repository.UpdateProduct pw.db pe.updateProduct pe.now product with
    | mk err rest =>
      obtain ⟨p1, db1⟩ := rest
      intro h1
      simp only at h1
      subst h1
      simp [hppub]
  · intro h1
    unfold Product.DeleteProduct
    revert h1
    cases hr : Product.Repository.DeleteProduct pw.db pe.deleteProduct id with
    | mk err db1 =>
      intro h1
      simp only at h1
      subst h1
      simp [hppub]

/-- Witness of C20: with a failing publish, a like from the empty store and the creation of
a product both leave their row in the store and return the publish error. -/
theorem C20_publish_failure_is_returned_witness :
    (User.LikeProduct { User.Env.ok 8 200 with publish := true }
      ⟨⟨[], [], [], []⟩, [], [], []⟩ 1 42).1 = some .publish ∧
    (Product.CreateProduct ⟨false, false, false, false, true, 5, 300⟩ ⟨⟨[]⟩, []⟩
      ⟨0, "Book", "A book", .ofInt 10, "books", 0, 0⟩).1 = some .publish ∧
    (Product.CreateProduct ⟨false, false, false, false, true, 5, 300⟩ ⟨⟨[]⟩, []⟩
      ⟨0, "Book", "A book", .ofInt 10, "books", 0, 0⟩).2.db
      = ⟨[⟨5, "Book", "A book", .ofInt 10, "books", 300, 300⟩]⟩ :=
  have h := C20_publish_failure_is_returned { User.Env.ok 8 200 with publish := true }
    ⟨⟨[], [], [], []⟩, [], [], []⟩ 1 42 ⟨1, "", "", 0, 0⟩
    ⟨false, false, false, false, true, 5, 300⟩ ⟨⟨[]⟩, []⟩
    ⟨0, "Book", "A book", .ofInt 10, "books", 0, 0⟩ 5 rfl rfl rfl rfl
  ⟨(h.1 rfl (by decide) rfl).1, (h.2.2.2.2.1 rfl).1, (h.2.2.2.2.1 rfl).2.1.trans (by decide)⟩

/-! ## Malformed bodies, redelivery and reordering -/

/-- The interaction arm of the recommendation consumer returns nil on every path. -/
theorem Recommendation.scoreEvent_returns_nil (f : Recommendation.Faults)
    (w : Recommendation.World) (msg : Msg) (d : Int) :
    (Recommendation.scoreEvent f w msg d).1 = none := by
  unfold Recommendation.scoreEvent
  cases hx : Recommendation.extractUserAndProductID msg with
  | error e => rfl
  | ok up =>
    obtain ⟨u, p⟩ := up
    simp only []
    cases h2 : Recommendation.GetProductCategory w.db f.getProductCategory p with
    | error e => rfl
    | ok c => rfl

/-- C27. For every message, `ProcessKafkaMessage` of the recommendation service and of
the analytics service returns a non-nil error exactly when the body does not decode into
a map or the decoded map has no `event` entry of string type; in that case the state is
left as found, so no score and no counter changes. In every other case the call returns
nil. -/
theorem C27_error_iff_malformed (f : Recommendation.Faults) (w : Recommendation.World)
    (e : Analytics.Env) (db : Analytics.DB) (m : KafkaMessage) :
    ((Recommendation.ProcessKafkaMessage f w m).1 ≠ none ↔
      (m.Value = none ∨
        ∃ msg, m.Value = some msg ∧ ∀ s, msg.lookup "event" ≠ some (.string s))) ∧
    ((Recommendation.ProcessKafkaMessage f w m).1 ≠ none →
      (Recommendation.ProcessKafkaMessage f w m).2 = w) ∧
    ((Analytics.ProcessKafkaMessage e db m).1 ≠ none ↔
      (m.Value = none ∨
        ∃ msg, m.Value = some msg ∧ ∀ s, msg.lookup "event" ≠ some (.string s))) ∧
    ((Analytics.ProcessKafkaMessage e db m).1 ≠ none →
      (Analytics.ProcessKafkaMessage e db m).2 = db) := by
  obtain ⟨v⟩ := m
  cases v with
  | none => simp [Recommendation.ProcessKafkaMessage, Analytics.ProcessKafkaMessage]
  | some msg =>
    cases hev : msg.lookup "event" with
    | none => simp [Recommendation.ProcessKafkaMessage, Analytics.ProcessKafkaMessage, hev]
    | some ev =>
      cases ev with
      | string event =>
        have hr : (Recommendation.ProcessKafkaMessage f w ⟨some msg⟩).1 = none := by
          simp only [Recommendation.ProcessKafkaMessage, hev]
          split_ifs <;> first | exact Recommendation.scoreEvent_returns_nil _ _ _ _ | rfl
        have ha : (Analytics.ProcessKafkaMessage e db ⟨some msg⟩).1 = none := by
          simp only [Analytics.ProcessKafkaMessage, hev]
          cases hx : Analytics.parseUserAndProductID msg with
          | error err => split_ifs <;> rfl
          | ok up =>
            obtain ⟨U, P⟩ := up
            split_ifs <;> rfl
        simp [hr, ha, hev]
      | null => simp [Recommendation.ProcessKafkaMessage, Analytics.ProcessKafkaMessage, hev]
      | bool b => simp [Recommendation.ProcessKafkaMessage, Analytics.ProcessKafkaMessage, hev]
      | number x => simp [Recommendation.ProcessKafkaMessage, Analytics.ProcessKafkaMessage, hev]
      | array xs => simp [Recommendation.ProcessKafkaMessage, Analytics.ProcessKafkaMessage, hev]
      | object fs => simp [Recommendation.ProcessKafkaMessage, Analytics.ProcessKafkaMessage, hev]

/-- Witness of C27: a body that is not JSON and a map whose `event` is the number 7 are
answered with an error by both consumers and leave the state alone; a `user_liked`
message is answered with nil. -/
theorem C27_error_iff_malformed_witness :
    (Recommendation.ProcessKafkaMessage Recommendation.noFaults Recommendation.booksWorld
        ⟨none⟩).1 = some .unmarshalMessage ∧
    (Recommendation.ProcessKafkaMessage Recommendation.noFaults Recommendation.booksWorld
        ⟨some [("event", .number (.ofInt 7))]⟩).1 = some .eventMissing ∧
    (Recommendation.ProcessKafkaMessage Recommendation.noFaults Recommendation.booksWorld
        ⟨some [("event", .number (.ofInt 7))]⟩).2 = Recommendation.booksWorld ∧
    (Analytics.ProcessKafkaMessage (Analytics.Env.ok 0 1 1) ⟨[], []⟩
        ⟨some [("event", .number (.ofInt 7))]⟩) = (some .eventMissing, ⟨[], []⟩) ∧
    (Recommendation.ProcessKafkaMessage Recommendation.noFaults Recommendation.booksWorld
        (Recommendation.interactionMsg "user_liked" 1 42)).1 = none :=
  have h := C27_error_iff_malformed Recommendation.noFaults Recommendation.booksWorld
    (Analytics.Env.ok 0 1 1) ⟨[], []⟩ ⟨some [("event", .number (.ofInt 7))]⟩
  ⟨rfl, rfl, h.2.1 (by decide), rfl, rfl⟩

/-- A `user_liked` message with numeric ids, the lookup of the code giving category
`c`, delivered twice to consumers whose writes the store accepts: the score of `(U, c)`
ends 4 above its starting value in the recommendation service, and the likes of P and
the total likes of U end 2 above theirs in the analytics service. Neither consumer keeps
a record of the messages it has processed, so the second delivery counts again. -/
theorem redelivery_counts_twice_by_lookup (f1 f2 : Recommendation.Faults)
    (w : Recommendation.World) (e1 e2 : Analytics.Env) (db : Analytics.DB) (msg : Msg)
    (uf pf : Float64) (c : String)
    (hev : msg.lookup "event" = some (.string "user_liked"))
    (hu : msg.lookup "user_id" = some (.number uf))
    (hp : msg.lookup "product_id" = some (.number pf))
    (hcat : Recommendation.GetProductCategory w.db false pf.toInt64 = .ok c)
    (hf1 : f1.getProductCategory = false ∧ f1.updateScore = false)
    (hf2 : f2.getProductCategory = false ∧ f2.updateScore = false)
    (he1 : e1.incrementProduct = false ∧ e1.incrementUser = false)
    (he2 : e2.incrementProduct = false ∧ e2.incrementUser = false) :
    Recommendation.scoreOf
        (Recommendation.ProcessKafkaMessage f2
          (Recommendation.ProcessKafkaMessage f1 w ⟨some msg⟩).2 ⟨some msg⟩).2.db
        uf.toInt64 c
      = Recommendation.scoreOf w.db uf.toInt64 c + 4 ∧
    Analytics.productCounter
        (Analytics.ProcessKafkaMessage e2
          (Analytics.ProcessKafkaMessage e1 db ⟨some msg⟩).2 ⟨some msg⟩).2
        pf.toInt64 .likes
      = Analytics.productCounter db pf.toInt64 .likes + 2 ∧
    Analytics.userCounter
        (Analytics.ProcessKafkaMessage e2
          (Analytics.ProcessKafkaMessage e1 db ⟨some msg⟩).2 ⟨some msg⟩).2
        uf.toInt64 .likes
      = Analytics.userCounter db uf.toInt64 .likes + 2 := by
  have hrun : ∀ (f : Recommendation.Faults) (w0 : Recommendation.World),
      f.getProductCategory = false ∧ f.updateScore = false →
      w0.db.products = w.db.products →
      (Recommendation.ProcessKafkaMessage f w0 ⟨some msg⟩).2.db
        = { w0.db with prefs := Recommendation.upsertScore w0.db.prefs uf.toInt64 c 2 } := by
    intro f w0 hf hprod
    have hcat0 : Recommendation.GetProductCategory w0.db f.getProductCategory pf.toInt64
        = .ok c := by
      rw [hf.1, ← hcat]
      simp only [Recommendation.GetProductCategory, hprod]
    have hpk : Recommendation.ProcessKafkaMessage f w0 ⟨some msg⟩
        = Recommendation.scoreEvent f w0 msg 2 := by
      simp [Recommendation.ProcessKafkaMessage, hev]
    rw [hpk, Recommendation.scoreEvent_ok f w0 msg 2 uf pf c hu hp hcat0 hf.2]
  have hstep : ∀ (e : Analytics.Env) (d : Analytics.DB),
      e.incrementProduct = false ∧ e.incrementUser = false →
      Analytics.productCounter (Analytics.ProcessKafkaMessage e d ⟨some msg⟩).2
          pf.toInt64 .likes = Analytics.productCounter d pf.toInt64 .likes + 1 ∧
      Analytics.userCounter (Analytics.ProcessKafkaMessage e d ⟨some msg⟩).2
          uf.toInt64 .likes = Analytics.userCounter d uf.toInt64 .likes + 1 := by
    intro e d he
    rw [Analytics.ProcessKafkaMessage_interaction e d msg "user_liked" .likes uf pf hev
      (Or.inl ⟨rfl, rfl⟩) hu hp]
    constructor
    · rw [(Analytics.counters_applyOp e _ (.user .likes uf.toInt64) he.1 he.2 _ _).1,
        (Analytics.counters_applyOp e d (.product .likes pf.toInt64) he.1 he.2 _ _).1]
      simp
    · rw [(Analytics.counters_applyOp e _ (.user .likes uf.toInt64) he.1 he.2 _ _).2,
        (Analytics.counters_applyOp e d (.product .likes pf.toInt64) he.1 he.2 _ _).2]
      simp
  refine ⟨?_, ?_, ?_⟩
  · rw [hrun f2 _ hf2 (Recommendation.ProcessKafkaMessage_products f1 w ⟨some msg⟩),
      Recommendation.scoreOf_upsert, hrun f1 w hf1 rfl, Recommendation.scoreOf_upsert]
    simp
    ring
  · rw [(hstep e2 _ he2).1, (hstep e1 db he1).1]
    ring
  · rw [(hstep e2 _ he2).2, (hstep e1 db he1).2]
    ring

/-- Example: the like of user 1 for product 42 (`books`) delivered twice to empty
stores gives the score 4 and the counters 2. -/
theorem redelivery_counts_twice_by_lookup_witness :
    Recommendation.scoreOf
        (Recommendation.ProcessKafkaMessage Recommendation.noFaults
          (Recommendation.ProcessKafkaMessage Recommendation.noFaults Recommendation.booksWorld
            (Recommendation.interactionMsg "user_liked" 1 42)).2
          (Recommendation.interactionMsg "user_liked" 1 42)).2.db 1 "books" = 4 ∧
    Analytics.productCounter
        (Analytics.ProcessKafkaMessage (Analytics.Env.ok 20 2 2)
          (Analytics.ProcessKafkaMessage (Analytics.Env.ok 10 1 1) ⟨[], []⟩
            (Recommendation.interactionMsg "user_liked" 1 42)).2
          (Recommendation.interactionMsg "user_liked" 1 42)).2 42 .likes = 2 ∧
    Analytics.userCounter
        (Analytics.ProcessKafkaMessage (Analytics.Env.ok 20 2 2)
          (Analytics.ProcessKafkaMessage (Analytics.Env.ok 10 1 1) ⟨[], []⟩
            (Recommendation.interactionMsg "user_liked" 1 42)).2
          (Recommendation.interactionMsg "user_liked" 1 42)).2 1 .likes = 2 :=
  redelivery_counts_twice_by_lookup Recommendation.noFaults Recommendation.noFaults
    Recommendation.booksWorld (Analytics.Env.ok 10 1 1) (Analytics.Env.ok 20 2 2) ⟨[], []⟩
    [("event", .string "user_liked"), ("user_id", .number (.ofInt 1)),
      ("product_id", .number (.ofInt 42))]
    (.ofInt 1) (.ofInt 42) "books" rfl rfl rfl rfl ⟨rfl, rfl⟩ ⟨rfl, rfl⟩ ⟨rfl, rfl⟩ ⟨rfl, rfl⟩

/-- C30. The ranking query does not look at the sign of a score. In the store with the
single product 42 of category `books`, after two `user_disliked` events of user 1 on
product 42 the only score of user 1 is that of `books`, and it is negative (-2); the
cache holds nothing for the user; `GetLatestRecommendation` then returns `[42]`, a
product of category `books`. -/
theorem C30_negative_score_still_recommends :
    (Recommendation.processAll Recommendation.booksWorld
        [Recommendation.interactionMsg "user_disliked" 1 42,
         Recommendation.interactionMsg "user_disliked" 1 42]).db.prefs
      = [⟨1, "books", -2⟩] ∧
    (Recommendation.processAll Recommendation.booksWorld
        [Recommendation.interactionMsg "user_disliked" 1 42,
         Recommendation.interactionMsg "user_disliked" 1 42]).cache.lookup
        (Recommendation.cacheKey 1) = none ∧
    (Recommendation.GetLatestRecommendation refJson Recommendation.noFaults
        (Recommendation.processAll Recommendation.booksWorld
          [Recommendation.interactionMsg "user_disliked" 1 42,
           Recommendation.interactionMsg "user_disliked" 1 42]) 1).1 = .ok (some [42]) ∧
    Recommendation.GetProductCategory Recommendation.booksWorld.db false 42 = .ok "books" := by
  refine ⟨by decide, by decide, by rfl, by rfl⟩

namespace Recommendation

/-- Adding to the score of a row leaves its key alone. -/
theorem prefKey_bump (u u2 : Int) (c c2 : String) (d : Int) (r : CategoryPreference) :
    prefKey u2 c2 (if prefKey u c r then { r with Score := r.Score + d } else r)
      = prefKey u2 c2 r := by
  split_ifs <;> rfl

theorem any_prefKey_map_bump (t : List CategoryPreference) (u u2 : Int) (c c2 : String)
    (d : Int) :
    (t.map (fun r => if prefKey u c r then { r with Score := r.Score + d } else r)).any
        (prefKey u2 c2) = t.any (prefKey u2 c2) := by
  induction t with
  | nil => rfl
  | cons a t ih => simp only [List.map_cons, List.any_cons, ih, prefKey_bump]

/-- The keys present after an upsert: those present before, and the key of the upsert. -/
theorem any_prefKey_upsertScore (t : List CategoryPreference) (u u2 : Int) (c c2 : String)
    (d : Int) :
    (upsertScore t u c d).any (prefKey u2 c2)
      = (t.any (prefKey u2 c2) || (u == u2 && c == c2)) := by
  unfold upsertScore
  cases h : t.any (prefKey u c)
  · rw [if_neg (by simp)]
    simp [prefKey]
  · rw [if_pos rfl, any_prefKey_map_bump]
    by_cases hk : u = u2 ∧ c = c2
    · obtain ⟨rfl, rfl⟩ := hk
      simp [h]
    · have : (u == u2 && c == c2) = false := by
        simpa using hk
      simp [this]

/-- Two score updates of one row commute. -/
theorem bump_comm (u1 u2 : Int) (c1 c2 : String) (d1 d2 : Int) (r : CategoryPreference) :
    (fun r => if prefKey u2 c2 r then { r with Score := r.Score + d2 } else r)
        ((fun r => if prefKey u1 c1 r then { r with Score := r.Score + d1 } else r) r)
      = (fun r => if prefKey u1 c1 r then { r with Score := r.Score + d1 } else r)
        ((fun r => if prefKey u2 c2 r then { r with Score := r.Score + d2 } else r) r) := by
  simp only [prefKey_bump]
  cases h1 : prefKey u1 c1 r <;> cases h2 : prefKey u2 c2 r <;>
    simp [prefKey, h1, h2, add_right_comm]

/-- A row without the key `(u, c)` is left alone by the update of that key. -/
theorem map_bump_of_any_false (t : List CategoryPreference) (u : Int) (c : String) (d : Int)
    (h : t.any (prefKey u c) = false) :
    t.map (fun r => if prefKey u c r then { r with Score := r.Score + d } else r) = t := by
  induction t with
  | nil => rfl
  | cons a t ih =>
    simp only [List.any_cons, Bool.or_eq_false_iff] at h
    simp [h.1, ih h.2]

/-- Two upserts commute: done in either order they leave the same rows (the same list up
to the order of rows they insert). -/
theorem upsertScore_comm (t : List CategoryPreference) (u1 u2 : Int) (c1 c2 : String)
    (d1 d2 : Int) :
    (upsertScore (upsertScore t u1 c1 d1) u2 c2 d2).Perm
      (upsertScore (upsertScore t u2 c2 d2) u1 c1 d1) := by
  have hcomm : ∀ l : List CategoryPreference,
      (l.map (fun r => if prefKey u1 c1 r then { r with Score := r.Score + d1 } else r)).map
          (fun r => if prefKey u2 c2 r then { r with Score := r.Score + d2 } else r)
        = (l.map (fun r => if prefKey u2 c2 r then { r with Score := r.Score + d2 } else r)).map
          (fun r => if prefKey u1 c1 r then { r with Score := r.Score + d1 } else r) := by
    intro l
    rw [List.map_map, List.map_map]
    exact List.map_congr_left (fun r _ => bump_comm u1 u2 c1 c2 d1 d2 r)
  rw [upsertScore, any_prefKey_upsertScore]
  conv_rhs => rw [upsertScore, any_prefKey_upsertScore]
  by_cases hk : u1 = u2 ∧ c1 = c2
  · obtain ⟨rfl, rfl⟩ := hk
    simp only [beq_self_eq_true, Bool.and_self, Bool.or_true, if_true]
    unfold upsertScore
    cases h : t.any (prefKey u1 c1)
    · simp only [Bool.false_eq_true, if_false, List.map_append, List.map_cons, List.map_nil,
        map_bump_of_any_false t u1 c1 _ h]
      simp [prefKey, add_comm]
    · simp only [if_true]
      rw [hcomm]
  · have hk1 : (u1 == u2 && c1 == c2) = false := by simpa using hk
    have hk2 : (u2 == u1 && c2 == c1) = false := by
      simpa using fun (a : u2 = u1) (b : c2 = c1) => hk ⟨a.symm, b.symm⟩
    have hn1 : ∀ d, prefKey u2 c2 ⟨u1, c1, d⟩ = false := by
      intro d
      simpa [prefKey] using fun (a : u1 = u2) (b : c1 = c2) => hk ⟨a, b⟩
    have hn2 : ∀ d, prefKey u1 c1 ⟨u2, c2, d⟩ = false := by
      intro d
      simpa [prefKey] using fun (a : u2 = u1) (b : c2 = c1) => hk ⟨a.symm, b.symm⟩
    simp only [hk1, hk2, Bool.or_false]
    unfold upsertScore
    cases h1 : t.any (prefKey u1 c1) <;> cases h2 : t.any (prefKey u2 c2)
    · simp only [Bool.false_eq_true, if_false, List.append_assoc]
      exact List.Perm.append_left t (List.Perm.swap _ _ [])
    · simp [hn1]
    · simp [hn2]
    · simp only [if_true]
      rw [hcomm]

/-- The score found under any key after two upserts does not depend on their order. -/
theorem find?_upsertScore_comm (t : List CategoryPreference) (u1 u2 U : Int)
    (c1 c2 C : String) (d1 d2 : Int) :
    ((upsertScore (upsertScore t u1 c1 d1) u2 c2 d2).find? (prefKey U C)).map (fun r => r.Score)
      = ((upsertScore (upsertScore t u2 c2 d2) u1 c1 d1).find? (prefKey U C)).map
          (fun r => r.Score) := by
  by_cases e1 : (U, C) = (u1, c1) <;> by_cases e2 : (U, C) = (u2, c2)
  · obtain ⟨rfl, rfl⟩ := Prod.mk.inj e1
    obtain ⟨rfl, rfl⟩ := Prod.mk.inj e2
    simp only [findScore_upsert_same]
    cases (t.find? (prefKey U C)) <;> simp [add_comm, add_assoc, add_left_comm]
  · obtain ⟨rfl, rfl⟩ := Prod.mk.inj e1
    rw [findScore_upsert_other _ _ _ _ _ _ e2, findScore_upsert_same, findScore_upsert_same,
      findScore_upsert_other _ _ _ _ _ _ e2]
  · obtain ⟨rfl, rfl⟩ := Prod.mk.inj e2
    rw [findScore_upsert_other _ _ _ _ _ _ e1, findScore_upsert_same, findScore_upsert_same,
      findScore_upsert_other _ _ _ _ _ _ e1]
  · rw [findScore_upsert_other _ _ _ _ _ _ e2, findScore_upsert_other _ _ _ _ _ _ e1,
      findScore_upsert_other _ _ _ _ _ _ e1, findScore_upsert_other _ _ _ _ _ _ e2]

end Recommendation
namespace Recommendation

/-- What a message makes the consumer do to the store under given faults: nothing, or one
upsert whose key and delta depend on the store through `products` only. -/
theorem ProcessKafkaMessage_effect (f : Faults) (products : List Product) (m : KafkaMessage) :
    ∃ g : Option (Int × String × Int), ∀ w : World, w.db.products = products →
      (ProcessKafkaMessage f w m).2.db =
        match g with
        | none => w.db
        | some (u, c, d) => { w.db with prefs := upsertScore w.db.prefs u c d } := by
  obtain ⟨v⟩ := m
  cases v with
  | none => exact ⟨none, fun w _ => rfl⟩
  | some msg =>
    cases hev : msg.lookup "event" with
    | none => exact ⟨none, fun w _ => by simp [ProcessKafkaMessage, hev]⟩
    | some ev =>
      cases ev with
      | string event =>
        cases hx : extractUserAndProductID msg with
        | error err =>
          refine ⟨none, fun w _ => ?_⟩
          simp only [ProcessKafkaMessage, hev, scoreEvent, hx]
          split_ifs <;> rfl
        | ok up =>
          obtain ⟨u, p⟩ := up
          cases hc : GetProductCategory ⟨products, [], []⟩ f.getProductCategory p with
          | error err =>
            refine ⟨none, fun w hw => ?_⟩
            have hc2 : GetProductCategory w.db f.getProductCategory p = .error err := by
              simp only [GetProductCategory, hw] at hc ⊢
              exact hc
            simp only [ProcessKafkaMessage, hev, scoreEvent, hx, hc2]
            split_ifs <;> rfl
          | ok c =>
            have hc2 : ∀ w : World, w.db.products = products →
                GetProductCategory w.db f.getProductCategory p = .ok c := by
              intro w hw
              simp only [GetProductCategory, hw] at hc ⊢
              exact hc
            cases hf : f.updateScore
            · by_cases k1 : event = "user_liked"
              · refine ⟨some (u, c, 2), fun w hw => ?_⟩
                simp [ProcessKafkaMessage, hev, scoreEvent, hx, hc2 w hw, k1,
                  UpdateUserCategoryScore, hf]
              by_cases k2 : event = "user_disliked"
              · refine ⟨some (u, c, -1), fun w hw => ?_⟩
                simp [ProcessKafkaMessage, hev, scoreEvent, hx, hc2 w hw, k2,
                  UpdateUserCategoryScore, hf]
              by_cases k3 : event = "user_purchased"
              · refine ⟨some (u, c, 5), fun w hw => ?_⟩
                simp [ProcessKafkaMessage, hev, scoreEvent, hx, hc2 w hw, k3,
                  UpdateUserCategoryScore, hf]
              refine ⟨none, fun w _ => ?_⟩
              simp [ProcessKafkaMessage, hev, k1, k2, k3]
            · refine ⟨none, fun w hw => ?_⟩
              simp only [ProcessKafkaMessage, hev, scoreEvent, hx, hc2 w hw,
                UpdateUserCategoryScore, hf, if_true]
              split_ifs <;> rfl
      | null => exact ⟨none, fun w _ => by simp [ProcessKafkaMessage, hev]⟩
      | bool b => exact ⟨none, fun w _ => by simp [ProcessKafkaMessage, hev]⟩
      | number x => exact ⟨none, fun w _ => by simp [ProcessKafkaMessage, hev]⟩
      | array xs => exact ⟨none, fun w _ => by simp [ProcessKafkaMessage, hev]⟩
      | object fs => exact ⟨none, fun w _ => by simp [ProcessKafkaMessage, hev]⟩

end Recommendation

namespace Analytics

/-- An upsert-increment under any faults: it adds one to its own counter of its own key
when its statement is executed, and leaves every other counter unchanged. -/
theorem counters_applyOp_any (e : Env) (db : DB) (op : Op) (id : Int) (k : Counter) :
    productCounter (applyOp e db op) id k
      = productCounter db id k
        + (if e.incrementProduct = false ∧ op = .product k id then 1 else 0) ∧
    userCounter (applyOp e db op) id k
      = userCounter db id k + (if e.incrementUser = false ∧ op = .user k id then 1 else 0) := by
  cases op with
  | product k0 pid =>
    cases h1 : e.incrementProduct
    · have hsame : applyOp e db (.product k0 pid)
          = applyOp { e with incrementUser := false } db (.product k0 pid) := by
        cases k0 <;> rfl
      have h := counters_applyOp { e with incrementUser := false } db (.product k0 pid)
        h1 rfl id k
      rw [hsame]
      simpa using h
    · have hid : applyOp e db (.product k0 pid) = db := by
        cases k0 <;>
          simp [applyOp, IncrementProductLikes, IncrementProductDislikes,
            IncrementProductPurchases, h1]
      rw [hid]
      simp
  | user k0 uid =>
    cases h2 : e.incrementUser
    · have hsame : applyOp e db (.user k0 uid)
          = applyOp { e with incrementProduct := false } db (.user k0 uid) := by
        cases k0 <;> rfl
      have h := counters_applyOp { e with incrementProduct := false } db (.user k0 uid)
        rfl h2 id k
      rw [hsame]
      simpa using h
    · have hid : applyOp e db (.user k0 uid) = db := by
        cases k0 <;>
          simp [applyOp, IncrementUserLikes, IncrementUserDislikes,
            IncrementUserPurchases, h2]
      rw [hid]
      simp

/-- What a message makes the consumer do to the store: nothing, or the product increment
followed by the user increment of one counter, the counter and the keys being read from
the message alone. -/
theorem ProcessKafkaMessage_effect_counters (m : KafkaMessage) :
    ∃ g : Option (Counter × Int × Int), ∀ (e : Env) (db : DB),
      (ProcessKafkaMessage e db m).2 =
        match g with
        | none => db
        | some (k, U, P) => applyOp e (applyOp e db (.product k P)) (.user k U) := by
  obtain ⟨v⟩ := m
  cases v with
  | none => exact ⟨none, fun _ _ => rfl⟩
  | some msg =>
    cases hev : msg.lookup "event" with
    | none => exact ⟨none, fun e db => by simp [ProcessKafkaMessage, hev]⟩
    | some ev =>
      cases ev with
      | string event =>
        cases hx : parseUserAndProductID msg with
        | error err =>
          refine ⟨none, fun e db => ?_⟩
          simp only [ProcessKafkaMessage, hev, hx]
          split_ifs <;> rfl
        | ok up =>
          obtain ⟨U, P⟩ := up
          by_cases k1 : event = "user_liked"
          · exact ⟨some (.likes, U, P), fun e db => by
              simp [ProcessKafkaMessage, hev, hx, k1, applyOp]⟩
          by_cases k2 : event = "user_disliked"
          · exact ⟨some (.dislikes, U, P), fun e db => by
              simp [ProcessKafkaMessage, hev, hx, k2, applyOp]⟩
          by_cases k3 : event = "user_purchased"
          · exact ⟨some (.purchases, U, P), fun e db => by
              simp [ProcessKafkaMessage, hev, hx, k3, applyOp]⟩
          refine ⟨none, fun e db => ?_⟩
          simp only [ProcessKafkaMessage, hev, hx, k1, k2, k3, if_false]
          split_ifs <;> rfl
      | null => exact ⟨none, fun e db => by simp [ProcessKafkaMessage, hev]⟩
      | bool b => exact ⟨none, fun e db => by simp [ProcessKafkaMessage, hev]⟩
      | number x => exact ⟨none, fun e db => by simp [ProcessKafkaMessage, hev]⟩
      | array xs => exact ⟨none, fun e db => by simp [ProcessKafkaMessage, hev]⟩
      | object fs => exact ⟨none, fun e db => by simp [ProcessKafkaMessage, hev]⟩

/-- The counters after a message are the counters before plus an amount that does not
depend on the store. -/
theorem counters_ProcessKafkaMessage (e : Env) (m : KafkaMessage) (id : Int) (k : Counter) :
    ∃ a b : Int, ∀ db : DB,
      productCounter (ProcessKafkaMessage e db m).2 id k = productCounter db id k + a ∧
      userCounter (ProcessKafkaMessage e db m).2 id k = userCounter db id k + b := by
  obtain ⟨g, hg⟩ := ProcessKafkaMessage_effect_counters m
  cases g with
  | none =>
    refine ⟨0, 0, fun db => ?_⟩
    rw [hg e db]
    simp
  | some t =>
    obtain ⟨k0, U, P⟩ := t
    refine ⟨(if e.incrementProduct = false ∧ Op.product k0 P = .product k id then 1 else 0)
        + (if e.incrementProduct = false ∧ Op.user k0 U = .product k id then 1 else 0),
      (if e.incrementUser = false ∧ Op.product k0 P = .user k id then 1 else 0)
        + (if e.incrementUser = false ∧ Op.user k0 U = .user k id then 1 else 0),
      fun db => ?_⟩
    rw [hg e db]
    simp only []
    rw [(counters_applyOp_any e _ (.user k0 U) id k).1,
      (counters_applyOp_any e db (.product k0 P) id k).1,
      (counters_applyOp_any e _ (.user k0 U) id k).2,
      (counters_applyOp_any e db (.product k0 P) id k).2]
    constructor <;> ring

end Analytics

/-- C28. Two messages processed in either order, each under its own faults, with the
products table as found (no consumer writes to it): the recommendation service is left
with the same category-score table (the same rows, hence the same score under every
key), and the analytics service with the same value of every counter of every product
and user. -/
theorem C28_reordering_commutes (f1 f2 : Recommendation.Faults) (w : Recommendation.World)
    (e1 e2 : Analytics.Env) (db : Analytics.DB) (m1 m2 : KafkaMessage) :
    ((Recommendation.ProcessKafkaMessage f2
        (Recommendation.ProcessKafkaMessage f1 w m1).2 m2).2.db.products = w.db.products ∧
      (Recommendation.ProcessKafkaMessage f1
        (Recommendation.ProcessKafkaMessage f2 w m2).2 m1).2.db.products = w.db.products) ∧
    ((Recommendation.ProcessKafkaMessage f2
        (Recommendation.ProcessKafkaMessage f1 w m1).2 m2).2.db.prefs).Perm
      (Recommendation.ProcessKafkaMessage f1
        (Recommendation.ProcessKafkaMessage f2 w m2).2 m1).2.db.prefs ∧
    (∀ (U : Int) (C : String),
      Recommendation.findScore (Recommendation.ProcessKafkaMessage f2
          (Recommendation.ProcessKafkaMessage f1 w m1).2 m2).2.db U C
        = Recommendation.findScore (Recommendation.ProcessKafkaMessage f1
          (Recommendation.ProcessKafkaMessage f2 w m2).2 m1).2.db U C) ∧
    (∀ (id : Int) (k : Analytics.Counter),
      Analytics.productCounter (Analytics.ProcessKafkaMessage e2
          (Analytics.ProcessKafkaMessage e1 db m1).2 m2).2 id k
        = Analytics.productCounter (Analytics.ProcessKafkaMessage e1
          (Analytics.ProcessKafkaMessage e2 db m2).2 m1).2 id k ∧
      Analytics.userCounter (Analytics.ProcessKafkaMessage e2
          (Analytics.ProcessKafkaMessage e1 db m1).2 m2).2 id k
        = Analytics.userCounter (Analytics.ProcessKafkaMessage e1
          (Analytics.ProcessKafkaMessage e2 db m2).2 m1).2 id k) := by
  have hp1 := Recommendation.ProcessKafkaMessage_products f1 w m1
  have hp2 := Recommendation.ProcessKafkaMessage_products f2 w m2
  obtain ⟨g1, h1⟩ := Recommendation.ProcessKafkaMessage_effect f1 w.db.products m1
  obtain ⟨g2, h2⟩ := Recommendation.ProcessKafkaMessage_effect f2 w.db.products m2
  refine ⟨⟨?_, ?_⟩, ?_, ?_, ?_⟩
  · rw [Recommendation.ProcessKafkaMessage_products, hp1]
  · rw [Recommendation.ProcessKafkaMessage_products, hp2]
  · rw [h2 _ hp1, h1 _ hp2, h1 w rfl, h2 w rfl]
    cases g1 with
    | none => cases g2 <;> exact List.Perm.refl _
    | some t1 =>
      cases g2 with
      | none => exact List.Perm.refl _
      | some t2 => exact Recommendation.upsertScore_comm _ _ _ _ _ _ _
  · intro U C
    rw [h2 _ hp1, h1 _ hp2, h1 w rfl, h2 w rfl]
    cases g1 with
    | none => cases g2 <;> rfl
    | some t1 =>
      cases g2 with
      | none => rfl
      | some t2 =>
        exact Recommendation.find?_upsertScore_comm w.db.prefs _ _ U _ _ C _ _
  · intro id k
    obtain ⟨a1, b1, hc1⟩ := Analytics.counters_ProcessKafkaMessage e1 m1 id k
    obtain ⟨a2, b2, hc2⟩ := Analytics.counters_ProcessKafkaMessage e2 m2 id k
    rw [(hc2 _).1, (hc1 db).1, (hc1 _).1, (hc2 db).1, (hc2 _).2, (hc1 db).2, (hc1 _).2,
      (hc2 db).2]
    constructor <;> ring

/-! ## The read loop and recommendation snapshots -/

/-- The read loop over results without a cancellation, started in any loop state: every
result is read, the handler runs on the messages in order, and the loop goes on with the
rest. -/
theorem readLoop_append {σ M ε : Type} (handler : σ → M → Option ε × σ)
    (rs rest : List (ReadResult M)) (h : ∀ r ∈ rs, r ≠ ReadResult.canceled)
    (s : LoopState σ M) :
    readLoop handler s (rs ++ rest)
      = readLoop handler
          ⟨(deliveredMessages rs).foldl (fun st m => (handler st m).2) s.state,
            s.handled ++ deliveredMessages rs, s.reads + rs.length⟩ rest := by
  induction rs generalizing s with
  | nil => simp [deliveredMessages]
  | cons r rs ih =>
    have h2 : ∀ r2 ∈ rs, r2 ≠ ReadResult.canceled :=
      fun r2 hr2 => h r2 (List.mem_cons_of_mem _ hr2)
    cases r with
    | canceled => exact absurd rfl (h _ (List.mem_cons_self _ _))
    | failed =>
      simp only [List.cons_append, readLoop, deliveredMessages, List.length_cons]
      rw [show rs.append rest = rs ++ rest from rfl, ih h2]
      simp [Nat.add_assoc, Nat.add_comm 1]
    | message m =>
      simp only [List.cons_append, readLoop, deliveredMessages, List.length_cons,
        List.foldl_cons]
      cases hh : handler s.state m with
      | mk err s1 =>
        cases err <;>
          · simp only []
            rw [show rs.append rest = rs ++ rest from rfl, ih h2]
            simp [Nat.add_assoc, Nat.add_comm 1]

/-- C26. For every finite sequence `rs` of read results on one topic, each a message or a
read error other than cancellation, followed by the cancellation: the loop has invoked
the handler exactly on the messages of `rs`, once each and in delivery order, whatever
the handler returned and whatever read errors came in between; the state is the one
those invocations leave; and the loop has made `rs.length + 1` reads, so that no handler
error and no read error ended it, only the cancellation did. Results listed after the
cancellation are never read. -/
theorem C26_read_loop_handles_every_message {σ M ε : Type}
    (handler : σ → M → Option ε × σ) (s : σ) (rs more : List (ReadResult M))
    (h : ∀ r ∈ rs, r ≠ ReadResult.canceled) :
    readLoop handler ⟨s, [], 0⟩ (rs ++ ReadResult.canceled :: more)
      = ⟨(deliveredMessages rs).foldl (fun st m => (handler st m).2) s,
          deliveredMessages rs, rs.length + 1⟩ ∧
    readLoop handler ⟨s, [], 0⟩ rs
      = ⟨(deliveredMessages rs).foldl (fun st m => (handler st m).2) s,
          deliveredMessages rs, rs.length + 1⟩ := by
  constructor
  · rw [readLoop_append handler rs _ h]
    simp [readLoop]
  · have := readLoop_append handler rs [] h ⟨s, [], 0⟩
    rw [List.append_nil] at this
    rw [this]
    simp [readLoop]

/-- Witness of C26: the recommendation consumer reads a body that is not JSON (the
handler returns an error), a read error, a like of user 1 for product 42, and then the
cancellation: the handler ran on both messages, the like was scored, three results and
the cancellation were read. -/
theorem C26_read_loop_handles_every_message_witness :
    (readLoop (Recommendation.ProcessKafkaMessage Recommendation.noFaults)
        ⟨Recommendation.booksWorld, [], 0⟩
        ([.message ⟨none⟩, .failed, .message (Recommendation.interactionMsg "user_liked" 1 42)]
          ++ ReadResult.canceled :: [.message ⟨none⟩])).reads = 4 ∧
    Recommendation.scoreOf
        (readLoop (Recommendation.ProcessKafkaMessage Recommendation.noFaults)
          ⟨Recommendation.booksWorld, [], 0⟩
          ([.message ⟨none⟩, .failed,
              .message (Recommendation.interactionMsg "user_liked" 1 42)]
            ++ ReadResult.canceled :: [.message ⟨none⟩])).state.db 1 "books" = 2 :=
  have h := (C26_read_loop_handles_every_message
    (Recommendation.ProcessKafkaMessage Recommendation.noFaults) Recommendation.booksWorld
    [.message ⟨none⟩, .failed, .message (Recommendation.interactionMsg "user_liked" 1 42)]
    [.message ⟨none⟩] (by simp)).1
  ⟨by rw [h]; rfl, by rw [h]; rfl⟩

namespace Recommendation

/-- Deleting a key leaves the entry of every other key as it was. -/
theorem lookup_RedisDelete_other (c : Cache) (key key2 : String) (hne : key2 ≠ key) :
    (RedisDelete c false key).2.lookup key2 = c.lookup key2 := by
  simp only [RedisDelete, Bool.false_eq_true, if_false]
  induction c with
  | nil => rfl
  | cons kv c ih =>
    obtain ⟨k, v⟩ := kv
    by_cases h : k = key
    · have h1 : (k != key) = false := by simp [h]
      have h2 : (key2 == k) = false := by
        rw [beq_eq_false_iff_ne, h]
        exact hne
      rw [List.filter_cons, h1]
      simp only [Bool.false_eq_true, if_false, List.lookup, h2]
      exact ih
    · have h1 : (k != key) = true := by simp [h]
      rw [List.filter_cons, h1]
      simp only [if_true, List.lookup]
      cases key2 == k
      · exact ih
      · rfl

/-- `GenerateRecommendations(U, P)` when Redis and the broker answer. When the insert succeeds, the table
`recommendations` has gained exactly the snapshot with `user_id` U and `product_ids` [P]
(with the id and creation time the store gave it); when Redis executes the `Delete`, the
key `recommendations:user:U` is absent afterwards and every other key is as before; the
call writes at most one message, and when marshalling and publishing succeed it returns
nil and has written exactly one message, to the topic `recommendation_updates`, whose
`event` is `recommendation_created` and whose `recommendation` is that snapshot. When the
insert fails, the call returns that error, and the store, the cache and the written
messages are as before. -/
theorem generate_recommendations_when_answered (e : GenEnv) (w : World) (outbox : List Published)
    (U P : Int) :
    (e.createRecommendation = false →
      (GenerateRecommendations e w outbox U P).2.1.db.recommendations
        = w.db.recommendations ++ [⟨e.newID, U, [P], e.now⟩] ∧
      (e.cacheDelete = false →
        (GenerateRecommendations e w outbox U P).2.1.cache.lookup (cacheKey U) = none ∧
        ∀ key, key ≠ cacheKey U →
          (GenerateRecommendations e w outbox U P).2.1.cache.lookup key = w.cache.lookup key) ∧
      ((GenerateRecommendations e w outbox U P).2.2 = outbox ∨
        (GenerateRecommendations e w outbox U P).2.2 = outbox ++
          [⟨"recommendation_updates", [("event", .str "recommendation_created"),
            ("recommendation", .recommendation ⟨e.newID, U, [P], e.now⟩)]⟩]) ∧
      (e.marshal = false → e.publish = false →
        (GenerateRecommendations e w outbox U P).1 = none ∧
        (GenerateRecommendations e w outbox U P).2.2 = outbox ++
          [⟨"recommendation_updates", [("event", .str "recommendation_created"),
            ("recommendation", .recommendation ⟨e.newID, U, [P], e.now⟩)]⟩])) ∧
    (e.createRecommendation = true →
      (GenerateRecommendations e w outbox U P).1 = some .createRecommendation ∧
      (GenerateRecommendations e w outbox U P).2.1.db = w.db ∧
      (GenerateRecommendations e w outbox U P).2.1.cache = w.cache ∧
      (GenerateRecommendations e w outbox U P).2.2 = outbox) := by
  constructor
  · intro hc
    refine ⟨?_, ?_, ?_, ?_⟩
    · simp [GenerateRecommendations, CreateRecommendation, hc]
    · intro hd
      constructor
      · simp only [GenerateRecommendations, CreateRecommendation, hc, hd]
        exact lookup_RedisDelete _ _
      · intro key hkey
        simp only [GenerateRecommendations, CreateRecommendation, hc, hd]
        exact lookup_RedisDelete_other _ _ _ hkey
    · cases hm : e.marshal <;> cases hp : e.publish <;>
        simp [GenerateRecommendations, CreateRecommendation, hc, publishMessage, hm, hp]
    · intro hm hp
      simp [GenerateRecommendations, CreateRecommendation, hc, publishMessage, hm, hp]
  · intro hc
    simp [GenerateRecommendations, CreateRecommendation, hc]

/-- Example: a snapshot for user 1 and product 43 in the store whose cache holds a
list under `recommendations:user:1`: the row `(5, 1, [43], 300)` is stored, the key is
gone and one `recommendation_created` message is written. -/
theorem generate_recommendations_when_answered_witness :
    GenerateRecommendations (GenEnv.ok 5 300) staleWorld [] 1 43
      = (none,
          ⟨⟨staleWorld.db.products, staleWorld.db.prefs, [⟨5, 1, [43], 300⟩]⟩, [],
            [RepoCall.CreateRecommendation 1 [43]]⟩,
          [⟨"recommendation_updates", [("event", .str "recommendation_created"),
            ("recommendation", .recommendation ⟨5, 1, [43], 300⟩)]⟩]) ∧
    (GenerateRecommendations (GenEnv.ok 5 300) staleWorld [] 1 43).2.1.cache.lookup
      (cacheKey 1) = none :=
  have h := (generate_recommendations_when_answered (GenEnv.ok 5 300) staleWorld [] 1 43).1 rfl
  ⟨by decide, (h.2.1 rfl).1⟩

end Recommendation

/-! ## HTTP handlers -/

namespace User

/-- C22, as stated, fails: user 1 already likes product 42. A like request for (1, 42)
makes `LikeProduct` return the duplicate-like conflict, and the handler answers 500; with
the store unreachable the same request is answered 500 as well. The status of the
conflict is not a 4xx status and does not differ from that of the infrastructure
failure. -/
theorem C22_counterexample :
    (LikeProduct (Env.ok 8 200) likedWorld 1 42).1 = some (.likeAlreadyExists 1 42) ∧
    (LikeProduct envStoreDown likedWorld 1 42).1 = some .removeExistingDislike ∧
    (LikeProduct envBrokerDown dislikedWorld 1 42).1 = some .publish ∧
    ¬ ((400 ≤ (Handler.LikeProduct (LikeProduct (Env.ok 8 200)) Err.Error likedWorld
            "1" "42").1.status ∧
        (Handler.LikeProduct (LikeProduct (Env.ok 8 200)) Err.Error likedWorld
            "1" "42").1.status < 500) ∧
      (Handler.LikeProduct (LikeProduct (Env.ok 8 200)) Err.Error likedWorld
            "1" "42").1.status
        ≠ (Handler.LikeProduct (LikeProduct envStoreDown) Err.Error likedWorld
            "1" "42").1.status) := by
  decide

/-- C22, amended. For every like request that passes the validation of the handler (the
path id is an integer, `product_id` is a positive integer): whenever `LikeProduct`
returns an error, the duplicate-like conflict as well as a failure of the store or of the
broker, the handler answers with status 500 and the text of the error; the same holds
for `DislikeProduct`. The status does not tell a conflict from an infrastructure
failure. -/
theorem C22_every_service_error_is_500 (e : Env) (w : World) (idParam productIDStr : String)
    (userID productID : Int) (err : Err)
    (hid : ParamsInt idParam = some userID) (hq : ParseInt productIDStr = some productID)
    (hpos : 0 < productID) :
    ((LikeProduct e w userID productID).1 = some err →
      Handler.LikeProduct (LikeProduct e) Err.Error w idParam productIDStr
        = (⟨500, .error err.Error⟩, (LikeProduct e w userID productID).2)) ∧
    ((DislikeProduct e w userID productID).1 = some err →
      Handler.DislikeProduct (DislikeProduct e) Err.Error w idParam productIDStr
        = (⟨500, .error err.Error⟩, (DislikeProduct e w userID productID).2)) := by
  have hne : productIDStr ≠ "" := by
    intro h
    have hempty : ParseInt "" = none := by decide
    rw [h, hempty] at hq
    cases hq
  have hpos2 : ¬ productID ≤ 0 := not_le.mpr hpos
  constructor
  · intro herr
    cases hr : LikeProduct e w userID productID with
    | mk r s1 =>
      rw [hr] at herr
      simp only [] at herr
      subst herr
      simp [Handler.LikeProduct, hid, hne, hq, hpos2, hr]
  · intro herr
    cases hr : DislikeProduct e w userID productID with
    | mk r s1 =>
      rw [hr] at herr
      simp only [] at herr
      subst herr
      simp [Handler.DislikeProduct, hid, hne, hq, hpos2, hr]

/-- Witness of C22 amended: the duplicate like of (1, 42) and the like of (1, 42) with the
store unreachable are both answered 500, each with the text of its error. -/
theorem C22_every_service_error_is_500_witness :
    Handler.LikeProduct (LikeProduct (Env.ok 8 200)) Err.Error likedWorld "1" "42"
      = (⟨500, .error "like already exists for user 1 and product 42"⟩,
          (LikeProduct (Env.ok 8 200) likedWorld 1 42).2) ∧
    (Handler.LikeProduct (LikeProduct envStoreDown) Err.Error likedWorld "1" "42").1.status
      = 500 :=
  ⟨(C22_every_service_error_is_500 (Env.ok 8 200) likedWorld "1" "42" 1 42
      (.likeAlreadyExists 1 42) (by decide) (by decide) (by decide)).1 (by decide),
    by
      rw [(C22_every_service_error_is_500 envStoreDown likedWorld "1" "42" 1 42
        .removeExistingDislike (by decide) (by decide) (by decide)).1 (by decide)]⟩

end User

/-- C23, at the failing inputs. The path id `-5` is handed by `Handler.GetUser` to the
service (seen on a service that records its argument), and on the store with user 1 the
ids `-5` and `0` are answered 404, not 400; `Handler.GetProduct` hands the id `0` to its
service. Only `Handler.GetLatestRecommendation` rejects both with 400 without calling its
service. -/
theorem C23_nonpositive_path_id_reaches_service :
    User.Handler.GetUser (fun (calls : List Int) id => recordCall calls id) [] "-5"
      = (⟨200, .value ()⟩, [-5]) ∧
    (User.Handler.GetUser (User.GetUser (User.refUserCodec []) (User.Env.ok 0 0))
        User.cachedUserWorld "-5").1 = ⟨404, .error "User not found"⟩ ∧
    (User.Handler.GetUser (User.GetUser (User.refUserCodec []) (User.Env.ok 0 0))
        User.cachedUserWorld "0").1 = ⟨404, .error "User not found"⟩ ∧
    Product.Handler.GetProduct (fun (calls : List Int) id => recordCall calls id) [] "0"
      = (⟨200, .value ()⟩, [0]) ∧
    Product.Handler.GetProduct (fun (calls : List Int) id => recordCall calls id) [] "-5"
      = (⟨200, .value ()⟩, [-5]) ∧
    Recommendation.Handler.GetLatestRecommendation
        (fun (calls : List Int) id => recordCall calls id) id [] "0"
      = (⟨400, .error "Invalid user ID"⟩, []) ∧
    Recommendation.Handler.GetLatestRecommendation
        (fun (calls : List Int) id => recordCall calls id) id [] "-5"
      = (⟨400, .error "Invalid user ID"⟩, []) := by
  refine ⟨by decide, by decide, by decide, by decide, by decide, by decide, by decide⟩

/-- The list handler calls its service exactly for the parameters that, a missing or
empty one being replaced by its default, parse as integers with `page >= 1` and
`1 <= pageSize <= 100`, with `limit = pageSize` and the offset computed in Go `int`
arithmetic; every other request is answered 400 without a call. -/
theorem GetAllUsers_calls_service_iff (pageQuery pageSizeQuery : String) :
    (∃ page pageSize : Int,
      Atoi (Query pageQuery "1") = some page ∧ 1 ≤ page ∧
      Atoi (Query pageSizeQuery "10") = some pageSize ∧ 1 ≤ pageSize ∧ pageSize ≤ 100 ∧
      User.Handler.GetAllUsers (fun (calls : List (Int × Int)) limit offset =>
          recordCall calls (limit, offset)) id [] pageQuery pageSizeQuery
        = (⟨200, .value ()⟩, [(pageSize, wrapInt (wrapInt (page - 1) * pageSize))])) ∨
    (¬ (∃ page pageSize : Int,
        Atoi (Query pageQuery "1") = some page ∧ 1 ≤ page ∧
        Atoi (Query pageSizeQuery "10") = some pageSize ∧ 1 ≤ pageSize ∧ pageSize ≤ 100) ∧
      (User.Handler.GetAllUsers (fun (calls : List (Int × Int)) limit offset =>
          recordCall calls (limit, offset)) id [] pageQuery pageSizeQuery).1.status = 400 ∧
      (User.Handler.GetAllUsers (fun (calls : List (Int × Int)) limit offset =>
          recordCall calls (limit, offset)) id [] pageQuery pageSizeQuery).2 = []) := by
  cases hp : Atoi (Query pageQuery "1") with
  | none =>
    right
    simp [User.Handler.GetAllUsers, hp]
  | some page =>
    by_cases h1 : page < 1
    · right
      refine ⟨?_, by simp [User.Handler.GetAllUsers, hp, h1], by
        simp [User.Handler.GetAllUsers, hp, h1]⟩
      rintro ⟨p, ps, hp2, hp3, _⟩
      cases hp2
      omega
    · cases hs : Atoi (Query pageSizeQuery "10") with
      | none =>
        right
        simp [User.Handler.GetAllUsers, hp, h1, hs]
      | some pageSize =>
        by_cases h2 : pageSize < 1 ∨ pageSize > 100
        · right
          refine ⟨?_, by simp [User.Handler.GetAllUsers, hp, h1, hs, h2], by
            simp [User.Handler.GetAllUsers, hp, h1, hs, h2]⟩
          rintro ⟨p, ps, _, _, hs2, hs3, hs4⟩
          cases hs2
          omega
        · left
          refine ⟨page, pageSize, rfl, by omega, rfl, by omega, by omega, ?_⟩
          simp [User.Handler.GetAllUsers, hp, h1, hs, h2, recordCall]

/-- C24, at the failing input. The query `page=9223372036854775807`, `pageSize=100` is
accepted by the three list handlers (`page` has no upper bound), and the offset
`(page - 1) * pageSize`, computed in 64-bit `int` arithmetic, wraps around to `-200`:
the service is called with `limit = 100` and a negative offset. For `page=3`,
`pageSize=20` the service is called with the offset 40. -/
theorem C24_offset_wraps_around :
    Atoi "9223372036854775807" = some 9223372036854775807 ∧
    User.Handler.GetAllUsers (fun (calls : List (Int × Int)) limit offset =>
        recordCall calls (limit, offset)) id [] "9223372036854775807" "100"
      = (⟨200, .value ()⟩, [(100, -200)]) ∧
    User.Handler.GetUserPurchases (fun (calls : List (Int × Int × Int)) userID limit offset =>
        recordCall calls (userID, limit, offset)) id [] "1" "9223372036854775807" "100"
      = (⟨200, .value ()⟩, [(1, 100, -200)]) ∧
    Product.Handler.GetAllProducts (fun (calls : List (Int × Int)) limit offset =>
        recordCall calls (limit, offset)) id [] "9223372036854775807" "100"
      = (⟨200, .value ()⟩, [(100, -200)]) ∧
    User.Handler.GetAllUsers (fun (calls : List (Int × Int)) limit offset =>
        recordCall calls (limit, offset)) id [] "3" "20"
      = (⟨200, .value ()⟩, [(20, 40)]) ∧
    User.Handler.GetAllUsers (fun (calls : List (Int × Int)) limit offset =>
        recordCall calls (limit, offset)) id [] "3074457345618258604" "3"
      = (⟨200, .value ()⟩, [(3, -9223372036854775807)]) := by
  refine ⟨by decide, by decide, by decide, by decide, by decide, by decide⟩

/-! ## Identifiers on the wire -/

/-- An integer of magnitude at most `2 ^ 53` survives the passage through `float64`. -/
theorem toInt64_nearest_exact (i : Int) (h : i.natAbs ≤ 2 ^ 53) :
    (Float64.nearest i).toInt64 = i := by
  rcases Nat.lt_or_ge i.natAbs (2 ^ 53) with hlt | hge
  · have hlt2 : i.natAbs < 9007199254740992 := by
      norm_num at hlt
      exact hlt
    have he : excessBits 64 i.natAbs = 0 := by
      simp [excessBits, hlt2]
    have hn : Float64.nearest i = ⟨i, 0⟩ := by
      simp [Float64.nearest, he, Nat.mod_one, Int.sign_mul_abs]
    have hb1 : -9223372036854775808 ≤ i := by omega
    have hb2 : i < 9223372036854775808 := by omega
    rw [hn]
    simp only [Float64.toInt64, le_refl, if_true, Int.toNat_zero, pow_zero, mul_one]
    norm_num
    intro hx
    omega
  · have heq : i.natAbs = 2 ^ 53 := le_antisymm h hge
    rcases Int.natAbs_eq i with hi | hi
    · rw [hi, heq]
      decide
    · rw [hi, heq]
      decide

namespace User

/-- The identifiers of an interaction message of the user service, of magnitude at most
`2 ^ 53`, are read back exactly by both consumers, and the `event` entry is read back as
published. -/
theorem ids_roundtrip_in_range (fields : PVal → List (String × JVal)) (event : String)
    (u p : Int) (extra : String × PVal) (hu : u.natAbs ≤ 2 ^ 53) (hp : p.natAbs ≤ 2 ^ 53) :
    ∃ msg : Msg,
      Published.received fields ⟨"user_updates", [("event", .str event),
        ("user_id", .int64 u), ("product_id", .int64 p), extra]⟩ = ⟨some msg⟩ ∧
      msg.lookup "event" = some (.string event) ∧
      Recommendation.extractUserAndProductID msg = .ok (u, p) ∧
      Analytics.parseUserAndProductID msg = .ok (u, p) := by
  refine ⟨_, rfl, rfl, ?_, ?_⟩
  · simp [Recommendation.extractUserAndProductID, PVal.received, List.lookup,
      toInt64_nearest_exact u hu, toInt64_nearest_exact p hp]
  · simp [Analytics.parseUserAndProductID, PVal.received, List.lookup,
      toInt64_nearest_exact u hu, toInt64_nearest_exact p hp]

end User

/-- C21, at the failing input. `LikeProduct(9007199254740993, 42)` (the user id is
`2 ^ 53 + 1`) on an empty store succeeds and publishes a `user_liked` message carrying
that user id; the consumers decode the number into a `float64` and read
`(9007199254740992, 42)`: the user id comes back changed. -/
theorem C21_large_id_is_rounded :
    User.LikeProduct (User.Env.ok 1 0) ⟨⟨[], [], [], []⟩, [], [], []⟩ 9007199254740993 42
      = (none, ⟨⟨[], [], [⟨1, 9007199254740993, 42, 0⟩], []⟩, [],
          [⟨"user_updates", [("event", .str "user_liked"),
            ("user_id", .int64 9007199254740993), ("product_id", .int64 42),
            ("like", .like ⟨1, 9007199254740993, 42, 0⟩)]⟩],
          [⟨[], [], [], []⟩, ⟨[], [], [⟨1, 9007199254740993, 42, 0⟩], []⟩]⟩) ∧
    ((User.Published.received (fun _ => []) ⟨"user_updates", [("event", .str "user_liked"),
        ("user_id", .int64 9007199254740993), ("product_id", .int64 42),
        ("like", .like ⟨1, 9007199254740993, 42, 0⟩)]⟩).Value.map
      (fun msg => msg.lookup "event")) = some (some (.string "user_liked")) ∧
    ((User.Published.received (fun _ => []) ⟨"user_updates", [("event", .str "user_liked"),
        ("user_id", .int64 9007199254740993), ("product_id", .int64 42),
        ("like", .like ⟨1, 9007199254740993, 42, 0⟩)]⟩).Value.map
      Recommendation.extractUserAndProductID) = some (.ok (9007199254740992, 42)) ∧
    ((User.Published.received (fun _ => []) ⟨"user_updates", [("event", .str "user_liked"),
        ("user_id", .int64 9007199254740993), ("product_id", .int64 42),
        ("like", .like ⟨1, 9007199254740993, 42, 0⟩)]⟩).Value.map
      Analytics.parseUserAndProductID) = some (.ok (9007199254740992, 42)) := by
  refine ⟨by decide, by rfl, by rfl, by rfl⟩

/-! ## Identifiers and categories named by the claims -/

/-- The conversion `int64(f)` of a number that is a 64-bit integer gives that integer. -/
theorem toInt64_of_denotes (f : Float64) (i : Int) (h : f.denotes i) (hr : isInt64 i) :
    f.toInt64 = i := by
  unfold Float64.denotes at h
  unfold isInt64 at hr
  unfold Float64.toInt64
  by_cases he : 0 ≤ f.exp
  · rw [if_pos he] at h
    simp only [he, if_true, h]
    rw [if_pos hr]
  · rw [if_neg he] at h
    have hpos : (2 : Int) ^ (-f.exp).toNat ≠ 0 := pow_ne_zero _ (by norm_num)
    have ht : Int.tdiv f.mant (2 ^ (-f.exp).toNat) = i := by
      rw [h]
      exact Int.mul_tdiv_cancel _ hpos
    simp only [he, if_false, ht]
    rw [if_pos hr]

namespace Recommendation

/-- The lookup of the code returns the category that the table gives to the product. -/
theorem GetProductCategory_of_table (db : DB) (P : Int) (c : String)
    (h : ProductHasCategory db.products P c) : GetProductCategory db false P = .ok c := by
  obtain ⟨⟨p, hp, hid⟩, hall⟩ := h
  unfold GetProductCategory
  simp only [Bool.false_eq_true, if_false]
  cases hf : db.products.find? (fun p => p.ID == P) with
  | none =>
    rw [List.find?_eq_none] at hf
    exact absurd (by simpa using hid) (hf p hp)
  | some q =>
    have hq := List.find?_some hf
    have hmem := List.mem_of_find?_eq_some hf
    simp only [beq_iff_eq] at hq
    simp [hall q hmem hq]

/-- C1. For every message whose event is `user_liked` (`user_disliked`,
`user_purchased`) and whose `user_id` and `product_id` are numbers that are the 64-bit
integers U and P, where the table `products` gives product P the category `c` and the
store executes the lookup and accepts the write: `ProcessKafkaMessage` returns nil, the
score of `(U, c)` becomes the old score plus 2 (minus 1, plus 5), the row being created
with that value when absent, and the score of every other (user, category) is
unchanged. -/
theorem C1_interaction_adds_delta (f : Faults) (w : World) (msg : Msg) (event : String)
    (delta : Int) (uf pf : Float64) (U P : Int) (c : String)
    (hev : msg.lookup "event" = some (.string event))
    (hkind : (event = "user_liked" ∧ delta = 2) ∨ (event = "user_disliked" ∧ delta = -1) ∨
      (event = "user_purchased" ∧ delta = 5))
    (hu : msg.lookup "user_id" = some (.number uf)) (hU : uf.denotes U) (hUr : isInt64 U)
    (hp : msg.lookup "product_id" = some (.number pf)) (hP : pf.denotes P) (hPr : isInt64 P)
    (hprod : ProductHasCategory w.db.products P c)
    (hlookup : f.getProductCategory = false) (hwrite : f.updateScore = false) :
    (ProcessKafkaMessage f w ⟨some msg⟩).1 = none ∧
    findScore (ProcessKafkaMessage f w ⟨some msg⟩).2.db U c
      = some (match findScore w.db U c with
              | some s => s + delta
              | none => delta) ∧
    ∀ (u : Int) (c2 : String), (u, c2) ≠ (U, c) →
      findScore (ProcessKafkaMessage f w ⟨some msg⟩).2.db u c2 = findScore w.db u c2 := by
  have hcat : GetProductCategory w.db f.getProductCategory pf.toInt64 = .ok c := by
    rw [hlookup, toInt64_of_denotes pf P hP hPr]
    exact GetProductCategory_of_table w.db P c hprod
  have h := interaction_adds_delta_by_lookup f w msg event delta uf pf c hev hkind hu hp hcat
    hwrite
  rw [toInt64_of_denotes uf U hU hUr] at h
  exact h

/-- Witness of C1: in the store with product 42 (`books`) and product 50 (`music`) where
user 1 has the score 2 for `books`, the like carrying the numbers `1 * 2 ^ 3` and
`21 * 2 ^ 1` is a like of user 8 for product 42: the row `(8, books)` is created with
score 2, and the scores of `(1, books)` and `(8, music)` are as before. -/
theorem C1_interaction_adds_delta_witness :
    (ProcessKafkaMessage noFaults musicWorld ⟨some scaledLikeMsg⟩).1 = none ∧
    findScore (ProcessKafkaMessage noFaults musicWorld ⟨some scaledLikeMsg⟩).2.db 8 "books"
      = some 2 ∧
    findScore (ProcessKafkaMessage noFaults musicWorld ⟨some scaledLikeMsg⟩).2.db 1 "books"
      = some 2 ∧
    findScore (ProcessKafkaMessage noFaults musicWorld ⟨some scaledLikeMsg⟩).2.db 8 "music"
      = none :=
  have h := C1_interaction_adds_delta noFaults musicWorld scaledLikeMsg "user_liked" 2
    ⟨1, 3⟩ ⟨21, 1⟩ 8 42 "books" rfl (Or.inl ⟨rfl, rfl⟩) rfl (by decide) (by decide) rfl
    (by decide) (by decide) (by decide) rfl rfl
  ⟨h.1, h.2.1, (h.2.2 1 "books" (by decide)).trans (by decide),
    (h.2.2 8 "music" (by decide)).trans (by decide)⟩

end Recommendation

namespace Analytics

/-- C16. For a `user_liked` (`user_disliked`, `user_purchased`) message whose `user_id`
and `product_id` are numbers that are the 64-bit integers U and P, when the store accepts
both writes, the analytics `ProcessKafkaMessage` returns nil, raises the likes (dislikes,
purchases) counter of product P and of user U by exactly 1, both rows existing
afterwards, and changes no other counter of any product or user. No run of the consumer,
in any environment, lowers a counter. -/
theorem C16_interaction_increments_counters (e : Env) (db : DB) (msg : Msg) (event : String)
    (k : Counter) (uf pf : Float64) (U P : Int)
    (hev : msg.lookup "event" = some (.string event))
    (hkind : (event = "user_liked" ∧ k = .likes) ∨ (event = "user_disliked" ∧ k = .dislikes) ∨
      (event = "user_purchased" ∧ k = .purchases))
    (hu : msg.lookup "user_id" = some (.number uf)) (hU : uf.denotes U) (hUr : isInt64 U)
    (hp : msg.lookup "product_id" = some (.number pf)) (hP : pf.denotes P) (hPr : isInt64 P)
    (h1 : e.incrementProduct = false) (h2 : e.incrementUser = false) :
    (ProcessKafkaMessage e db ⟨some msg⟩).1 = none ∧
    (∀ (id : Int) (k2 : Counter),
      productCounter (ProcessKafkaMessage e db ⟨some msg⟩).2 id k2
        = productCounter db id k2 + (if id = P ∧ k2 = k then 1 else 0)) ∧
    (∀ (id : Int) (k2 : Counter),
      userCounter (ProcessKafkaMessage e db ⟨some msg⟩).2 id k2
        = userCounter db id k2 + (if id = U ∧ k2 = k then 1 else 0)) ∧
    (findProduct (ProcessKafkaMessage e db ⟨some msg⟩).2 P).isSome = true ∧
    (findUser (ProcessKafkaMessage e db ⟨some msg⟩).2 U).isSome = true ∧
    (∀ (e2 : Env) (db2 : DB) (m2 : KafkaMessage) (id : Int) (k2 : Counter),
      productCounter db2 id k2 ≤ productCounter (ProcessKafkaMessage e2 db2 m2).2 id k2 ∧
      userCounter db2 id k2 ≤ userCounter (ProcessKafkaMessage e2 db2 m2).2 id k2) := by
  have h := interaction_increments_counters_by_toInt64 e db msg event k uf pf hev hkind hu hp
    h1 h2
  rw [toInt64_of_denotes uf U hU hUr, toInt64_of_denotes pf P hP hPr] at h
  exact h

/-- Witness of C16: the like carrying the numbers `1 * 2 ^ 3` and `21 * 2 ^ 1` is a like
of user 8 for product 42; in a store where product 7 has 3 likes, the rows of product 42
and of user 8 are created with the likes counter at 1, the counters of product 7 and of
user 1 are as before. -/
theorem C16_interaction_increments_counters_witness :
    (ProcessKafkaMessage (Env.ok 100 2 1) ⟨[⟨1, 7, 3, 0, 0, 50⟩], []⟩
      ⟨some Recommendation.scaledLikeMsg⟩).2
      = ⟨[⟨1, 7, 3, 0, 0, 50⟩, ⟨2, 42, 1, 0, 0, 100⟩], [⟨1, 8, 1, 0, 0, 100⟩]⟩ ∧
    productCounter (ProcessKafkaMessage (Env.ok 100 2 1) ⟨[⟨1, 7, 3, 0, 0, 50⟩], []⟩
      ⟨some Recommendation.scaledLikeMsg⟩).2 42 .likes = 1 ∧
    userCounter (ProcessKafkaMessage (Env.ok 100 2 1) ⟨[⟨1, 7, 3, 0, 0, 50⟩], []⟩
      ⟨some Recommendation.scaledLikeMsg⟩).2 8 .likes = 1 ∧
    userCounter (ProcessKafkaMessage (Env.ok 100 2 1) ⟨[⟨1, 7, 3, 0, 0, 50⟩], []⟩
      ⟨some Recommendation.scaledLikeMsg⟩).2 1 .likes = 0 :=
  have h := C16_interaction_increments_counters (Env.ok 100 2 1) ⟨[⟨1, 7, 3, 0, 0, 50⟩], []⟩
    Recommendation.scaledLikeMsg "user_liked" .likes ⟨1, 3⟩ ⟨21, 1⟩ 8 42 rfl
    (Or.inl ⟨rfl, rfl⟩) rfl (by decide) (by decide) rfl (by decide) (by decide) rfl rfl
  ⟨by decide, (h.2.1 42 .likes).trans (by decide), (h.2.2.1 8 .likes).trans (by decide),
    (h.2.2.1 1 .likes).trans (by decide)⟩

end Analytics

/-- C29. A `user_liked` message whose `user_id` and `product_id` are numbers that are the
64-bit integers U and P, the table `products` giving product P the category `c`,
delivered twice to consumers whose statements the store executes: the score of `(U, c)`
ends 4 above its starting value in the recommendation service, and the likes of P and
the total likes of U end 2 above theirs in the analytics service. Neither consumer keeps
a record of the messages it has processed, so the second delivery counts again. -/
theorem C29_redelivery_counts_twice (f1 f2 : Recommendation.Faults)
    (w : Recommendation.World) (e1 e2 : Analytics.Env) (db : Analytics.DB) (msg : Msg)
    (uf pf : Float64) (U P : Int) (c : String)
    (hev : msg.lookup "event" = some (.string "user_liked"))
    (hu : msg.lookup "user_id" = some (.number uf)) (hU : uf.denotes U) (hUr : isInt64 U)
    (hp : msg.lookup "product_id" = some (.number pf)) (hP : pf.denotes P) (hPr : isInt64 P)
    (hprod : Recommendation.ProductHasCategory w.db.products P c)
    (hf1 : f1.getProductCategory = false ∧ f1.updateScore = false)
    (hf2 : f2.getProductCategory = false ∧ f2.updateScore = false)
    (he1 : e1.incrementProduct = false ∧ e1.incrementUser = false)
    (he2 : e2.incrementProduct = false ∧ e2.incrementUser = false) :
    Recommendation.scoreOf
        (Recommendation.ProcessKafkaMessage f2
          (Recommendation.ProcessKafkaMessage f1 w ⟨some msg⟩).2 ⟨some msg⟩).2.db U c
      = Recommendation.scoreOf w.db U c + 4 ∧
    Analytics.productCounter
        (Analytics.ProcessKafkaMessage e2
          (Analytics.ProcessKafkaMessage e1 db ⟨some msg⟩).2 ⟨some msg⟩).2 P .likes
      = Analytics.productCounter db P .likes + 2 ∧
    Analytics.userCounter
        (Analytics.ProcessKafkaMessage e2
          (Analytics.ProcessKafkaMessage e1 db ⟨some msg⟩).2 ⟨some msg⟩).2 U .likes
      = Analytics.userCounter db U .likes + 2 := by
  have hcat : Recommendation.GetProductCategory w.db false pf.toInt64 = .ok c := by
    rw [toInt64_of_denotes pf P hP hPr]
    exact Recommendation.GetProductCategory_of_table w.db P c hprod
  have h := redelivery_counts_twice_by_lookup f1 f2 w e1 e2 db msg uf pf c hev hu hp hcat
    hf1 hf2 he1 he2
  rw [toInt64_of_denotes uf U hU hUr, toInt64_of_denotes pf P hP hPr] at h
  exact h

/-- Witness of C29: the like of user 8 for product 42, carried by the numbers `1 * 2 ^ 3`
and `21 * 2 ^ 1`, delivered twice to the store with products 42 (`books`) and 50
(`music`): the score of `(8, books)` goes from 0 to 4, the likes of product 42 and the
total likes of user 8 from 0 to 2. -/
theorem C29_redelivery_counts_twice_witness :
    Recommendation.scoreOf
        (Recommendation.ProcessKafkaMessage Recommendation.noFaults
          (Recommendation.ProcessKafkaMessage Recommendation.noFaults Recommendation.musicWorld
            ⟨some Recommendation.scaledLikeMsg⟩).2
          ⟨some Recommendation.scaledLikeMsg⟩).2.db 8 "books" = 4 ∧
    Analytics.productCounter
        (Analytics.ProcessKafkaMessage (Analytics.Env.ok 20 2 2)
          (Analytics.ProcessKafkaMessage (Analytics.Env.ok 10 1 1) ⟨[], []⟩
            ⟨some Recommendation.scaledLikeMsg⟩).2
          ⟨some Recommendation.scaledLikeMsg⟩).2 42 .likes = 2 ∧
    Analytics.userCounter
        (Analytics.ProcessKafkaMessage (Analytics.Env.ok 20 2 2)
          (Analytics.ProcessKafkaMessage (Analytics.Env.ok 10 1 1) ⟨[], []⟩
            ⟨some Recommendation.scaledLikeMsg⟩).2
          ⟨some Recommendation.scaledLikeMsg⟩).2 8 .likes = 2 :=
  C29_redelivery_counts_twice Recommendation.noFaults Recommendation.noFaults
    Recommendation.musicWorld (Analytics.Env.ok 10 1 1) (Analytics.Env.ok 20 2 2) ⟨[], []⟩
    Recommendation.scaledLikeMsg ⟨1, 3⟩ ⟨21, 1⟩ 8 42 "books" rfl rfl (by decide) (by decide)
    rfl (by decide) (by decide) (by decide) ⟨rfl, rfl⟩ ⟨rfl, rfl⟩ ⟨rfl, rfl⟩ ⟨rfl, rfl⟩

namespace User

/-- A call of `LikeProduct` stepped alone through its four statements is the call of the
service: same result, same world. -/
theorem runSchedule_alone_like (e : Env) (w : World) (u p : Int) :
    runSchedule w [⟨e, true, u, p, .remove⟩] [0, 0, 0, 0]
      = ((LikeProduct e w u p).2, [⟨e, true, u, p, .returned (LikeProduct e w u p).1⟩]) := by
  cases h1 : e.removeDislike
  · cases h2 : e.likeExists
    · cases h3 : w.db.likes.any (fun l => l.UserID == u && l.ProductID == p)
      · cases h4 : e.createLike <;>
          simp [runSchedule, Running.step, LikeProduct, RemoveDislikeByUserAndProduct, LikeExists,
            CreateLike, World.commit, h1, h2, h3, h4]
      · simp [runSchedule, Running.step, LikeProduct, RemoveDislikeByUserAndProduct, LikeExists,
          World.commit, h1, h2, h3]
    · cases h4 : e.createLike <;>
        simp [runSchedule, Running.step, LikeProduct, RemoveDislikeByUserAndProduct, LikeExists,
          CreateLike, World.commit, h1, h2, h4]
  · simp [runSchedule, Running.step, LikeProduct, RemoveDislikeByUserAndProduct, h1]

/-- A call of `DislikeProduct` stepped alone through its four statements is the call of
the service. -/
theorem runSchedule_alone_dislike (e : Env) (w : World) (u p : Int) :
    runSchedule w [⟨e, false, u, p, .remove⟩] [0, 0, 0, 0]
      = ((DislikeProduct e w u p).2,
          [⟨e, false, u, p, .returned (DislikeProduct e w u p).1⟩]) := by
  cases h1 : e.removeLike
  · cases h2 : e.dislikeExists
    · cases h3 : w.db.dislikes.any (fun l => l.UserID == u && l.ProductID == p)
      · cases h4 : e.createDislike <;>
          simp [runSchedule, Running.step, DislikeProduct, RemoveLikeByUserAndProduct,
            DislikeExists, CreateDislike, World.commit, h1, h2, h3, h4]
      · simp [runSchedule, Running.step, DislikeProduct, RemoveLikeByUserAndProduct,
          DislikeExists, World.commit, h1, h2, h3]
    · cases h4 : e.createDislike <;>
        simp [runSchedule, Running.step, DislikeProduct, RemoveLikeByUserAndProduct,
          DislikeExists, CreateDislike, World.commit, h1, h2, h4]
  · simp [runSchedule, Running.step, DislikeProduct, RemoveLikeByUserAndProduct, h1]

/-- C3, as stated, fails when two calls overlap. From the empty store, a `LikeProduct(1,
42)` and a `DislikeProduct(1, 42)` are in flight, every statement is executed by the
store, and the statements alternate: the like runs its removal and its existence check,
the dislike runs its removal, its check and its insert, then the like runs its insert.
Both calls return nil, and the store holds a like and a dislike of user 1 for product
42. -/
theorem C3_counterexample :
    Exclusive ⟨[], [], [], []⟩ ∧
    (runSchedule ⟨⟨[], [], [], []⟩, [], [], []⟩
      [⟨Env.ok 8 200, true, 1, 42, .remove⟩, ⟨Env.ok 9 300, false, 1, 42, .remove⟩]
      [0, 0, 1, 1, 1, 0, 0, 1]).1.db = ⟨[], [], [⟨8, 1, 42, 200⟩], [⟨9, 1, 42, 300⟩]⟩ ∧
    ((runSchedule ⟨⟨[], [], [], []⟩, [], [], []⟩
      [⟨Env.ok 8 200, true, 1, 42, .remove⟩, ⟨Env.ok 9 300, false, 1, 42, .remove⟩]
      [0, 0, 1, 1, 1, 0, 0, 1]).2.map (fun r => r.stage))
      = [.returned none, .returned none] ∧
    ¬ Exclusive (runSchedule ⟨⟨[], [], [], []⟩, [], [], []⟩
      [⟨Env.ok 8 200, true, 1, 42, .remove⟩, ⟨Env.ok 9 300, false, 1, 42, .remove⟩]
      [0, 0, 1, 1, 1, 0, 0, 1]).1.db := by
  refine ⟨?_, by decide, by decide, ?_⟩
  · intro u p hb
    simp [hasLike] at hb
  · intro h
    exact h 1 42 ⟨by decide, by decide⟩

/-- C5, at the failing input. From the empty store `LikeProduct(1, 42)` succeeds; during
the second `LikeProduct(1, 42)` the query of `LikeExists` fails, which the repository
answers with `false, nil`: the second call returns nil, a second like of user 1 for
product 42 is stored and a second `user_liked` event is published. When the store answers
the query, the same second call returns the conflict and changes nothing. -/
theorem C5_lookup_failure_admits_duplicate :
    (LikeProduct (Env.ok 8 200) ⟨⟨[], [], [], []⟩, [], [], []⟩ 1 42).1 = none ∧
    LikeExists (LikeProduct (Env.ok 8 200) ⟨⟨[], [], [], []⟩, [], [], []⟩ 1 42).2.db true 1 42
      = (false, none) ∧
    (LikeProduct envLookupDown
      (LikeProduct (Env.ok 8 200) ⟨⟨[], [], [], []⟩, [], [], []⟩ 1 42).2 1 42).1 = none ∧
    (LikeProduct envLookupDown
      (LikeProduct (Env.ok 8 200) ⟨⟨[], [], [], []⟩, [], [], []⟩ 1 42).2 1 42).2.db.likes
      = [⟨8, 1, 42, 200⟩, ⟨9, 1, 42, 300⟩] ∧
    (LikeProduct envLookupDown
      (LikeProduct (Env.ok 8 200) ⟨⟨[], [], [], []⟩, [], [], []⟩ 1 42).2 1 42).2.outbox
      = [⟨"user_updates", [("event", .str "user_liked"), ("user_id", .int64 1),
            ("product_id", .int64 42), ("like", .like ⟨8, 1, 42, 200⟩)]⟩,
         ⟨"user_updates", [("event", .str "user_liked"), ("user_id", .int64 1),
            ("product_id", .int64 42), ("like", .like ⟨9, 1, 42, 300⟩)]⟩] ∧
    (LikeProduct (Env.ok 9 300)
      (LikeProduct (Env.ok 8 200) ⟨⟨[], [], [], []⟩, [], [], []⟩ 1 42).2 1 42).1
      = some (.likeAlreadyExists 1 42) := by
  refine ⟨by decide, by decide, by decide, by decide, by decide, by decide⟩

/-- C12, as stated, fails when Redis does not execute the `Delete`. The record of user 1
is cached; `UpdateUser` renames the user while the `Delete` fails: it returns nil, the
cache still holds the old record under `user:1`, and the next `GetUser(1)` returns the
old name `Ann` although the repository holds `Anna`. -/
theorem C12_counterexample :
    (UpdateUser envDeleteDown cachedUserWorld ⟨1, "Anna", "ann@example.com", 0, 0⟩).1 = none ∧
    (UpdateUser envDeleteDown cachedUserWorld
      ⟨1, "Anna", "ann@example.com", 0, 0⟩).2.cache.lookup (userCacheKey 1)
      = some ⟨"1|Ann|ann@example.com|10|10", timeHour⟩ ∧
    GetUserByID (UpdateUser envDeleteDown cachedUserWorld
      ⟨1, "Anna", "ann@example.com", 0, 0⟩).2.db false 1
      = .ok ⟨1, "Anna", "ann@example.com", 10, 20⟩ ∧
    (GetUser (refUserCodec cachedUserWorld.db.users) (Env.ok 0 30)
      (UpdateUser envDeleteDown cachedUserWorld ⟨1, "Anna", "ann@example.com", 0, 0⟩).2 1).1
      = .ok ⟨1, "Ann", "ann@example.com", 10, 10⟩ := by
  refine ⟨by decide, by decide, by rfl, by rfl⟩

end User

namespace Recommendation

/-- The lookup of the code fails when the table has no row for the product. -/
theorem GetProductCategory_of_no_row (db : DB) (fault : Bool) (P : Int)
    (h : ¬ ∃ p ∈ db.products, p.ID = P) :
    ∃ err, GetProductCategory db fault P = .error err := by
  unfold GetProductCategory
  cases fault
  · have hf : db.products.find? (fun p => p.ID == P) = none := by
      rw [List.find?_eq_none]
      intro p hp hid
      exact h ⟨p, hp, by simpa using hid⟩
    simp [hf]
  · exact ⟨_, rfl⟩

/-- One delivery of a well-formed interaction event changes the score of `(U, c)` by its
contribution in the spec's words. -/
theorem scoreOf_delivery (w : World) (d : Delivery) (hwf : d.WellFormed)
    (hkey : CategoriesFixed w.db.products) (U : Int) (c : String) :
    scoreOf (ProcessKafkaMessage d.faults w d.message).2.db U c
      = scoreOf w.db U c + d.contribution w.db.products U c := by
  obtain ⟨hkind, hUr, hPr, msg, uf, pf, hval, hev, hu, hU, hp, hP⟩ := hwf
  have hm : d.message = ⟨some msg⟩ := by
    cases hd : d.message with
    | mk v =>
      rw [hd] at hval
      simp only at hval
      rw [hval]
  have hx : extractUserAndProductID msg = .ok (d.userID, d.productID) := by
    simp [extractUserAndProductID, hu, hp, toInt64_of_denotes uf _ hU hUr,
      toInt64_of_denotes pf _ hP hPr]
  have hrun : ProcessKafkaMessage d.faults w ⟨some msg⟩
      = scoreEvent d.faults w msg (eventDelta d.kind) := by
    rcases hkind with h | h | h <;> simp [ProcessKafkaMessage, hev, h, eventDelta]
  rw [hm, hrun]
  cases hl : d.faults.getProductCategory
  · by_cases hex : ∃ p ∈ w.db.products, p.ID = d.productID
    · obtain ⟨p, hpmem, hpid⟩ := hex
      have hpc : ProductHasCategory w.db.products d.productID p.Category :=
        ⟨⟨p, hpmem, hpid⟩, fun q hq hid => hkey q hq p hpmem (hid.trans hpid.symm)⟩
      have hiff : ProductHasCategory w.db.products d.productID c ↔ p.Category = c := by
        constructor
        · intro h
          exact h.2 p hpmem hpid
        · intro h
          rw [← h]
          exact hpc
      have hcat : GetProductCategory w.db d.faults.getProductCategory pf.toInt64
          = .ok p.Category := by
        rw [hl, toInt64_of_denotes pf _ hP hPr]
        exact GetProductCategory_of_table w.db _ _ hpc
      cases hw : d.faults.updateScore
      · rw [scoreEvent_ok d.faults w msg _ uf pf p.Category hu hp hcat hw,
          toInt64_of_denotes uf _ hU hUr]
        have := scoreOf_upsert w.db d.userID U p.Category c (eventDelta d.kind)
        simp only [] at this ⊢
        rw [this]
        simp [Delivery.contribution, Delivery.executed, hl, hw, hiff]
      · have hdb : (scoreEvent d.faults w msg (eventDelta d.kind)).2.db = w.db := by
          rw [toInt64_of_denotes pf _ hP hPr] at hcat
          simp [scoreEvent, hx, hcat, UpdateUserCategoryScore, hw]
        rw [hdb]
        simp [Delivery.contribution, Delivery.executed, hw]
    · obtain ⟨err, herr⟩ := GetProductCategory_of_no_row w.db false d.productID hex
      have hdb : (scoreEvent d.faults w msg (eventDelta d.kind)).2.db = w.db := by
        simp [scoreEvent, hx, hl, herr]
      have hno : ¬ ProductHasCategory w.db.products d.productID c := fun h => hex h.1
      rw [hdb]
      simp [Delivery.contribution, hno]
  · have hdb : (scoreEvent d.faults w msg (eventDelta d.kind)).2.db = w.db := by
      simp [scoreEvent, hx, hl, GetProductCategory]
    rw [hdb]
    simp [Delivery.contribution, Delivery.executed, hl]

/-- The deliveries never write to `products`. -/
theorem deliver_products (ds : List Delivery) (w : World) :
    (deliver w ds).db.products = w.db.products := by
  induction ds generalizing w with
  | nil => rfl
  | cons d ds ih =>
    simp only [deliver, List.foldl_cons] at ih ⊢
    rw [ih, ProcessKafkaMessage_products]

/-- After a sequence of well-formed deliveries the score of `(U, c)` has grown by the
sum of their contributions. -/
theorem scoreOf_deliver (ds : List Delivery) (w : World) (hwf : ∀ d ∈ ds, d.WellFormed)
    (hkey : CategoriesFixed w.db.products) (U : Int) (c : String) :
    scoreOf (deliver w ds).db U c
      = scoreOf w.db U c + (ds.map (fun d => d.contribution w.db.products U c)).sum := by
  induction ds generalizing w with
  | nil => simp [deliver]
  | cons d ds ih =>
    have hp := ProcessKafkaMessage_products d.faults w d.message
    have hkey2 : CategoriesFixed (ProcessKafkaMessage d.faults w d.message).2.db.products := by
      rw [hp]
      exact hkey
    have := ih (ProcessKafkaMessage d.faults w d.message).2
      (fun x hx => hwf x (List.mem_cons_of_mem _ hx)) hkey2
    simp only [deliver, List.foldl_cons] at this ⊢
    rw [this, hp, scoreOf_delivery w d (hwf d (List.mem_cons_self _ _)) hkey, List.map_cons,
      List.sum_cons]
    ring

/-- The contributions of a sequence of deliveries add up to `2 * L - D + 5 * B`, the
counts being those of the executed deliveries. -/
theorem sum_contribution (products : List Product) (ds : List Delivery) (U : Int)
    (c : String) :
    (ds.map (fun d => d.contribution products U c)).sum
      = 2 * (countExecuted products ds "user_liked" U c : Int)
        - (countExecuted products ds "user_disliked" U c : Int)
        + 5 * (countExecuted products ds "user_purchased" U c : Int) := by
  induction ds with
  | nil => simp [countExecuted]
  | cons d ds ih =>
    rw [List.map_cons, List.sum_cons, ih]
    simp only [countExecuted, List.filter_cons, Delivery.contribution, eventDelta]
    by_cases hu : d.userID = U <;> by_cases hc : ProductHasCategory products d.productID c <;>
      cases he : d.executed <;>
      by_cases k1 : d.kind = "user_liked" <;> by_cases k2 : d.kind = "user_disliked" <;>
      by_cases k3 : d.kind = "user_purchased" <;>
      simp_all <;> ring

/-- When the store executes every delivery, the executed deliveries are all of them. -/
theorem countExecuted_eq_countDelivered (products : List Product) (ds : List Delivery)
    (kind : String) (U : Int) (c : String) (h : ∀ d ∈ ds, d.executed = true) :
    countExecuted products ds kind U c = countDelivered products ds kind U c := by
  unfold countExecuted countDelivered
  congr 1
  apply List.filter_congr
  intro d hd
  simp [h d hd]

end Recommendation

namespace Recommendation

/-- The like of user 1 for product 42 is a well-formed interaction event. -/
theorem refusedLike_wellFormed : refusedLike.WellFormed :=
  ⟨Or.inl rfl, by decide, by decide, _, .ofInt 1, .ofInt 42, rfl, rfl, rfl, by decide, rfl,
    by decide⟩

/-- C2, as stated, fails when the store refuses a write. From the empty score table, the
well-formed like of user 1 for product 42 (`books`) is processed while the store refuses
the score update: the handler logs the error and returns nil, no score is written, and
the score of `(1, books)` is 0 while `2 * L - D + 5 * B` is 2. -/
theorem C2_counterexample :
    booksWorld.db.prefs = [] ∧
    refusedLike.WellFormed ∧
    (ProcessKafkaMessage refusedLike.faults booksWorld refusedLike.message).1 = none ∧
    scoreOf (deliver booksWorld [refusedLike]).db 1 "books" = 0 ∧
    countDelivered booksWorld.db.products [refusedLike] "user_liked" 1 "books" = 1 ∧
    scoreOf (deliver booksWorld [refusedLike]).db 1 "books"
      ≠ 2 * (countDelivered booksWorld.db.products [refusedLike] "user_liked" 1 "books" : Int)
        - (countDelivered booksWorld.db.products [refusedLike] "user_disliked" 1 "books" : Int)
        + 5 * (countDelivered booksWorld.db.products [refusedLike] "user_purchased" 1 "books"
            : Int) := by
  refine ⟨rfl, refusedLike_wellFormed, by decide, by decide, by decide, by decide⟩

/-- C2, amended. Starting from an empty score table, with the table `products` fixed and
giving each product id one category, after `ProcessKafkaMessage` has processed any finite
sequence of well-formed interaction events, each under its own faults, the score of
every `(U, c)` equals `2 * L - D + 5 * B`, where `L`, `D` and `B` are the numbers of
`user_liked`, `user_disliked` and `user_purchased` events of the sequence for user `U` on
products of category `c` whose category lookup and score update the store executed; when
the store executed them for every event, these are the numbers of all such events of
the sequence. -/
theorem C2_score_counts_executed_events (products : List Product)
    (recommendations : List RecommendationRow) (cache : Cache) (calls : List RepoCall)
    (ds : List Delivery) (U : Int) (c : String)
    (hkey : CategoriesFixed products) (hwf : ∀ d ∈ ds, d.WellFormed) :
    scoreOf (deliver ⟨⟨products, [], recommendations⟩, cache, calls⟩ ds).db U c
      = 2 * (countExecuted products ds "user_liked" U c : Int)
        - (countExecuted products ds "user_disliked" U c : Int)
        + 5 * (countExecuted products ds "user_purchased" U c : Int) ∧
    ((∀ d ∈ ds, d.executed = true) →
      scoreOf (deliver ⟨⟨products, [], recommendations⟩, cache, calls⟩ ds).db U c
        = 2 * (countDelivered products ds "user_liked" U c : Int)
          - (countDelivered products ds "user_disliked" U c : Int)
          + 5 * (countDelivered products ds "user_purchased" U c : Int)) := by
  have h : scoreOf (deliver ⟨⟨products, [], recommendations⟩, cache, calls⟩ ds).db U c
      = 2 * (countExecuted products ds "user_liked" U c : Int)
        - (countExecuted products ds "user_disliked" U c : Int)
        + 5 * (countExecuted products ds "user_purchased" U c : Int) := by
    rw [scoreOf_deliver ds _ hwf hkey, sum_contribution]
    simp [scoreOf, findScore]
  refine ⟨h, fun hall => ?_⟩
  rw [h, countExecuted_eq_countDelivered _ _ _ _ _ hall,
    countExecuted_eq_countDelivered _ _ _ _ _ hall,
    countExecuted_eq_countDelivered _ _ _ _ _ hall]

/-- Witness of C2 amended: in the store with products 42 (`books`) and 50 (`music`) and no
score, user 8 likes product 42 (a message whose numbers have non-zero exponents): the
score of `(8, books)` is 2; user 8 then purchases product 42: the score is 7; with a like
refused by the store in between it is still 7. -/
theorem C2_score_counts_executed_events_witness :
    scoreOf (deliver ⟨⟨musicWorld.db.products, [], []⟩, [], []⟩ [scaledLike]).db 8 "books" = 2 ∧
    scoreOf (deliver ⟨⟨musicWorld.db.products, [], []⟩, [], []⟩
      [scaledLike, purchaseOf8]).db 8 "books" = 7 ∧
    scoreOf (deliver ⟨⟨musicWorld.db.products, [], []⟩, [], []⟩
      [scaledLike, { scaledLike with faults := updateRefused }, purchaseOf8]).db 8 "books"
      = 7 ∧
    scoreOf (deliver ⟨⟨musicWorld.db.products, [], []⟩, [], []⟩
      [scaledLike, purchaseOf8]).db 8 "music" = 0 :=
  have hkey : CategoriesFixed musicWorld.db.products := by
    intro p hp q hq hid
    simp only [musicWorld, List.mem_cons, List.mem_singleton, List.not_mem_nil, or_false] at hp hq
    rcases hp with rfl | rfl <;> rcases hq with rfl | rfl <;> simp_all
  have hw1 : scaledLike.WellFormed :=
    ⟨Or.inl rfl, by decide, by decide, _, ⟨1, 3⟩, ⟨21, 1⟩, rfl, rfl, rfl, by decide, rfl,
      by decide⟩
  have hw2 : purchaseOf8.WellFormed :=
    ⟨Or.inr (Or.inr rfl), by decide, by decide, _, .ofInt 8, .ofInt 42, rfl, rfl, rfl, by decide,
      rfl, by decide⟩
  have hw3 : ({ scaledLike with faults := updateRefused } : Delivery).WellFormed :=
    ⟨Or.inl rfl, by decide, by decide, _, ⟨1, 3⟩, ⟨21, 1⟩, rfl, rfl, rfl, by decide, rfl,
      by decide⟩
  ⟨(C2_score_counts_executed_events musicWorld.db.products [] [] [] [scaledLike] 8 "books" hkey
      (by simpa using hw1)).1.trans (by decide),
    (C2_score_counts_executed_events musicWorld.db.products [] [] [] [scaledLike, purchaseOf8]
      8 "books" hkey (by simpa using ⟨hw1, hw2⟩)).1.trans (by decide),
    (C2_score_counts_executed_events musicWorld.db.products [] [] []
      [scaledLike, { scaledLike with faults := updateRefused }, purchaseOf8]
      8 "books" hkey (by simpa using ⟨hw1, hw3, hw2⟩)).1.trans (by decide),
    (C2_score_counts_executed_events musicWorld.db.products [] [] [] [scaledLike, purchaseOf8]
      8 "music" hkey (by simpa using ⟨hw1, hw2⟩)).1.trans (by decide)⟩

/-- C25, as stated, fails when Redis or the broker does not answer. In the store whose
cache holds `[99]` under `recommendations:user:1` the insert succeeds; with the Redis
`Delete` failing the call returns nil and the key still holds `[99]`; with the publish
failing the call returns the publish error, the snapshot is stored and no message is
written. -/
theorem C25_counterexample :
    (GenerateRecommendations genDeleteDown staleWorld [] 1 43).1 = none ∧
    (GenerateRecommendations genDeleteDown staleWorld [] 1 43).2.1.db.recommendations
      = [⟨5, 1, [43], 300⟩] ∧
    (GenerateRecommendations genDeleteDown staleWorld [] 1 43).2.1.cache.lookup (cacheKey 1)
      = some ⟨"[99]", timeHour⟩ ∧
    (GenerateRecommendations genBrokerDown staleWorld [] 1 43).1 = some .publish ∧
    (GenerateRecommendations genBrokerDown staleWorld [] 1 43).2.1.db.recommendations
      = [⟨5, 1, [43], 300⟩] ∧
    (GenerateRecommendations genBrokerDown staleWorld [] 1 43).2.2 = [] := by
  refine ⟨by decide, by decide, by decide, by decide, by decide, by decide⟩

/-- C25, amended. `GenerateRecommendations(U, P)`. When the insert succeeds, the table
`recommendations` has gained exactly the snapshot with `user_id` U and `product_ids` [P];
the `Delete` of `recommendations:user:U` is issued and its result is not inspected: when
Redis executes it the key is absent afterwards and every other key is as before, when it
fails the cache is as before; then the event is published: when marshalling and
publishing succeed the call returns nil and has written exactly one message, to the
topic `recommendation_updates`, whose `event` is `recommendation_created` and whose
`recommendation` is that snapshot, and when one of them fails the call returns that
error and has written no message. When the insert fails, the call returns that error,
and the store, the cache and the written messages are as before. -/
theorem C25_generate_recommendations_by_outcome (e : GenEnv) (w : World)
    (outbox : List Published) (U P : Int) :
    (e.createRecommendation = false →
      (GenerateRecommendations e w outbox U P).2.1.db.recommendations
        = w.db.recommendations ++ [⟨e.newID, U, [P], e.now⟩] ∧
      (e.cacheDelete = false →
        (GenerateRecommendations e w outbox U P).2.1.cache.lookup (cacheKey U) = none ∧
        ∀ key, key ≠ cacheKey U →
          (GenerateRecommendations e w outbox U P).2.1.cache.lookup key = w.cache.lookup key) ∧
      (e.cacheDelete = true → (GenerateRecommendations e w outbox U P).2.1.cache = w.cache) ∧
      (e.marshal = false → e.publish = false →
        (GenerateRecommendations e w outbox U P).1 = none ∧
        (GenerateRecommendations e w outbox U P).2.2 = outbox ++
          [⟨"recommendation_updates", [("event", .str "recommendation_created"),
            ("recommendation", .recommendation ⟨e.newID, U, [P], e.now⟩)]⟩]) ∧
      (e.marshal = true →
        (GenerateRecommendations e w outbox U P).1 = some .marshalMessage ∧
        (GenerateRecommendations e w outbox U P).2.2 = outbox) ∧
      (e.marshal = false → e.publish = true →
        (GenerateRecommendations e w outbox U P).1 = some .publish ∧
        (GenerateRecommendations e w outbox U P).2.2 = outbox)) ∧
    (e.createRecommendation = true →
      (GenerateRecommendations e w outbox U P).1 = some .createRecommendation ∧
      (GenerateRecommendations e w outbox U P).2.1.db = w.db ∧
      (GenerateRecommendations e w outbox U P).2.1.cache = w.cache ∧
      (GenerateRecommendations e w outbox U P).2.2 = outbox) := by
  have h := generate_recommendations_when_answered e w outbox U P
  refine ⟨fun hc => ⟨(h.1 hc).1, (h.1 hc).2.1, ?_, (h.1 hc).2.2.2, ?_, ?_⟩, h.2⟩
  · intro hd
    simp [GenerateRecommendations, CreateRecommendation, hc, hd, RedisDelete]
  · intro hm
    simp [GenerateRecommendations, CreateRecommendation, hc, publishMessage, hm]
  · intro hm hp
    simp [GenerateRecommendations, CreateRecommendation, hc, publishMessage, hm, hp]

/-- Witness of C25 amended: a snapshot for user 1 and product 43 in the store whose cache
holds a list under `recommendations:user:1`: with every call answered the row
`(5, 1, [43], 300)` is stored, the key is gone and one `recommendation_created` message
is written; with the `Delete` failing the cache is as before. -/
theorem C25_generate_recommendations_by_outcome_witness :
    (GenerateRecommendations (GenEnv.ok 5 300) staleWorld [] 1 43).2.1.db.recommendations
      = [⟨5, 1, [43], 300⟩] ∧
    (GenerateRecommendations (GenEnv.ok 5 300) staleWorld [] 1 43).2.1.cache.lookup
      (cacheKey 1) = none ∧
    (GenerateRecommendations (GenEnv.ok 5 300) staleWorld [] 1 43).2.2
      = [⟨"recommendation_updates", [("event", .str "recommendation_created"),
            ("recommendation", .recommendation ⟨5, 1, [43], 300⟩)]⟩] ∧
    (GenerateRecommendations genDeleteDown staleWorld [] 1 43).2.1.cache = staleWorld.cache :=
  have h := (C25_generate_recommendations_by_outcome (GenEnv.ok 5 300) staleWorld [] 1 43).1 rfl
  have h2 := (C25_generate_recommendations_by_outcome genDeleteDown staleWorld [] 1 43).1 rfl
  ⟨h.1, (h.2.1 rfl).1, (h.2.2.2.1 rfl rfl).2, h2.2.2.1 rfl⟩

end Recommendation

namespace User

/-- C12, amended. Whenever `UpdateUser(u)` returns without error: when Redis has executed
the `Delete`, the cache holds no entry under `user:<u.ID>`, the next `GetUser(u.ID)`
returns what the repository returns, and when the repository answers, that is a record
with the id of `u`, the name and email just written and the new `updated_at`; the result
of the `Delete` is not inspected, and when the `Delete` has failed the cache is as it was
before the call, so that a record cached before the update is still there. -/
theorem C12_update_invalidates_when_delete_runs (json : UserCodec) (e e2 : Env) (w : World)
    (u : UserRow) (hok : (UpdateUser e w u).1 = none) :
    (e.cacheDelete = false →
      (UpdateUser e w u).2.cache.lookup (userCacheKey u.ID) = none ∧
      (GetUser json e2 (UpdateUser e w u).2 u.ID).1
        = GetUserByID (UpdateUser e w u).2.db e2.getUserByID u.ID ∧
      (e2.getUserByID = false →
        ∃ r, (GetUser json e2 (UpdateUser e w u).2 u.ID).1 = .ok r ∧ r.ID = u.ID ∧
          r.Name = u.Name ∧ r.Email = u.Email ∧ r.UpdatedAt = e.now)) ∧
    (e.cacheDelete = true → (UpdateUser e w u).2.cache = w.cache) := by
  refine ⟨fun hdel => update_invalidates_user_cache_of_delete json e e2 w u hok hdel, ?_⟩
  intro hdel
  rw [(UpdateUser_ok e w u hok).2.2.2, hdel]
  rfl

/-- Witness of C12 amended: the record of user 1 is cached, then renamed. With the
`Delete` executed the key `user:1` is gone and the next `GetUser(1)` returns the renamed
record; with the `Delete` failing the cache is as before. -/
theorem C12_update_invalidates_when_delete_runs_witness :
    (UpdateUser (Env.ok 0 20) cachedUserWorld ⟨1, "Anna", "ann@example.com", 0, 0⟩).1 = none ∧
    (UpdateUser (Env.ok 0 20) cachedUserWorld
      ⟨1, "Anna", "ann@example.com", 0, 0⟩).2.cache.lookup (userCacheKey 1) = none ∧
    (GetUser (refUserCodec cachedUserWorld.db.users) (Env.ok 0 30)
      (UpdateUser (Env.ok 0 20) cachedUserWorld ⟨1, "Anna", "ann@example.com", 0, 0⟩).2 1).1
      = .ok ⟨1, "Anna", "ann@example.com", 10, 20⟩ ∧
    (UpdateUser envDeleteDown cachedUserWorld ⟨1, "Anna", "ann@example.com", 0, 0⟩).2.cache
      = cachedUserWorld.cache :=
  have h := (C12_update_invalidates_when_delete_runs (refUserCodec cachedUserWorld.db.users)
    (Env.ok 0 20) (Env.ok 0 30) cachedUserWorld ⟨1, "Anna", "ann@example.com", 0, 0⟩
    (by decide)).1 rfl
  have h2 := (C12_update_invalidates_when_delete_runs (refUserCodec cachedUserWorld.db.users)
    envDeleteDown (Env.ok 0 30) cachedUserWorld ⟨1, "Anna", "ann@example.com", 0, 0⟩
    (by decide)).2 rfl
  ⟨by decide, h.1, h.2.1.trans (by rfl), h2⟩

end User

end RecSys
